import Mathlib

/-!
# Kart order API: promo-code quorum validator and order validation

A shallow embedding of the Go sources

* `internal/domain/errors/errors.go`
* `internal/domain/entities/order.go`, `product.go`
* `internal/infrastruture/repositories/promo.go`, `product.go`
* `internal/application/services/promo_service.go`, `order_service.go`, `product_service.go`
* `internal/infrastruture/http/middleware/auth.go`
* the schema checks of `internal/integration_test.go`

Conventions of the embedding.

* A Go `string` is a Lean `String` (a sequence of Unicode code points, i.e. valid UTF-8);
  `len(s)` is the UTF-8 byte length, `for _, r := range s` visits `s.data`.
* A Go `(T, error)` result with a non-pointer `T` is a pair `T × Option GoError`
  (`none` is the `nil` error); a `(*T, error)` result is `Except GoError T`.
* Go `int` values are `Int` / `Nat`; they stay far below `2^63` in every use here
  (loop indices, line counters, JSON quantities).
* The order pipeline is generic in the number type and takes the arithmetic it uses as a
  `Float64Ops` record; `float64Ops` is Go's `float64` arithmetic (IEEE 754 binary64, round to
  nearest, ties to even) on the type `Float64`, and `exactOps` is exact rational arithmetic.
* Calls on collaborators are recorded in a log where a statement is about them
  (`OrderService.PlaceOrderLog`, `Served.nextCalls`, `ValidateRun.launched`).
* The file system, the context and the goroutine scheduler are explicit parameters.
-/

set_option autoImplicit false

namespace Kart

/-! ## Go standard library: `unicode.IsSpace`, `strings.TrimSpace`, `len` -/

/-- Go `unicode.IsSpace`: in Latin-1 the spaces are tab, LF, VT, FF, CR, space, U+0085 and U+00A0;
above Latin-1 the code points with the Unicode White_Space property. -/
def unicode.IsSpace (r : Char) : Bool :=
  let n := r.toNat
  if n ≤ 0xFF then
    n == 0x09 || n == 0x0A || n == 0x0B || n == 0x0C || n == 0x0D || n == 0x20 ||
      n == 0x85 || n == 0xA0
  else
    n == 0x1680 || (0x2000 ≤ n && n ≤ 0x200A) || n == 0x2028 || n == 0x2029 ||
      n == 0x202F || n == 0x205F || n == 0x3000

/-- Go `strings.TrimSpace`: the string without its leading and trailing white space. -/
def strings.TrimSpace (s : String) : String :=
  ⟨(s.data.dropWhile unicode.IsSpace).rdropWhile unicode.IsSpace⟩

/-- Go builtin `len` on a string: the number of bytes of its UTF-8 encoding. -/
def len (s : String) : Nat := s.utf8ByteSize

/-! ## `internal/domain/errors` -/

/-- The package-level error variables of `internal/domain/errors/errors.go`. -/
inductive Sentinel
  | ErrProductNotFound | ErrInvalidProductID
  | ErrInvalidOrderRequest | ErrEmptyOrderItems | ErrInvalidQuantity | ErrInvalidProductRef
  | ErrInvalidPromoCode | ErrPromoCodeTooShort | ErrPromoCodeTooLong | ErrPromoCodeNotFound
  | ErrUnauthorized | ErrMissingAPIKey | ErrInvalidAPIKey
  | ErrValidationFailed | ErrRequiredField | ErrInvalidFormat | ErrInvalidJSON
  | ErrDuplicateItem | ErrExceedsLimit
  | ErrInternalServer
  deriving DecidableEq, Repr

/-- The text each package-level error was created with (`errors.New(text)`). -/
def Sentinel.Error : Sentinel → String
  | .ErrProductNotFound => "product not found"
  | .ErrInvalidProductID => "invalid product ID"
  | .ErrInvalidOrderRequest => "invalid order request"
  | .ErrEmptyOrderItems => "order must contain at least one item"
  | .ErrInvalidQuantity => "quantity must be greater than 0"
  | .ErrInvalidProductRef => "invalid product reference in order"
  | .ErrInvalidPromoCode => "invalid promo code"
  | .ErrPromoCodeTooShort => "promo code must be at least 8 characters"
  | .ErrPromoCodeTooLong => "promo code must be at most 10 characters"
  | .ErrPromoCodeNotFound => "promo code not found in sufficient databases"
  | .ErrUnauthorized => "unauthorized"
  | .ErrMissingAPIKey => "missing API key"
  | .ErrInvalidAPIKey => "invalid API key"
  | .ErrValidationFailed => "validation failed"
  | .ErrRequiredField => "required field missing"
  | .ErrInvalidFormat => "invalid format"
  | .ErrInvalidJSON => "invalid JSON format"
  | .ErrDuplicateItem => "duplicate item"
  | .ErrExceedsLimit => "exceeds allowed limit"
  | .ErrInternalServer => "internal server error"

/-- The two errors a standard `context.Context` reports from `Err()` once it is done. -/
inductive CtxErr
  | Canceled | DeadlineExceeded
  deriving DecidableEq, Repr

/-- Go `APIError` of `errors.go` (it implements `error`); `Type_` is the field `Type`. -/
structure APIError where
  Code : Nat
  Type_ : String
  Message : String
  deriving DecidableEq, Repr

/-- Go `error` values that occur in the program.

* `sentinel s`: one of the package-level variables, compared by identity;
* `fresh msg`: a value made on the spot by `errors.New(msg)` or by `fmt.Errorf` without `%w`;
  it is identical to no package-level variable;
* `wrap msg inner`: made by `fmt.Errorf` with one `%w` verb; `Error()` is the formatted text `msg`
  and `Unwrap()` is `inner`;
* `ctx e`: `context.Canceled` or `context.DeadlineExceeded`;
* `os msg`: an error of the operating system or of `bufio.Scanner`;
* `api e`: an `APIError` value. -/
inductive GoError
  | sentinel (s : Sentinel)
  | fresh (msg : String)
  | wrap (msg : String) (inner : GoError)
  | ctx (e : CtxErr)
  | os (msg : String)
  | api (e : APIError)
  deriving DecidableEq, Repr

/-- The method `Error()` of an error value. -/
def GoError.Error : GoError → String
  | .sentinel s => s.Error
  | .fresh msg => msg
  | .wrap msg _ => msg
  | .ctx .Canceled => "context canceled"
  | .ctx .DeadlineExceeded => "context deadline exceeded"
  | .os msg => msg
  | .api e => e.Message

/-- Go `errors.Is(err, target)` for a package-level `target`: walk the `Unwrap` chain of `err`
and compare each link with `target` by identity. -/
def errors.Is : GoError → Sentinel → Bool
  | .sentinel s, target => decide (s = target)
  | .wrap _ inner, target => errors.Is inner target
  | _, _ => false

/-! ## Context, file system, scheduler -/

/-- What one goroutine sees of a `context.Context`: `done t` tells whether the channel `ctx.Done()`
is closed at the goroutine's observation `t`, and `err` is the value of `ctx.Err()` once it is. -/
structure CtxView where
  done : Nat → Bool
  err : CtxErr

/-- A caller-supplied `context.Context` as the goroutines of one `ValidateCode` call observe it.

* `scanDone g lineCount`: `Done()` is closed when the scan goroutine with index `g` polls it
  having `lineCount` lines behind it;
* `selectDone i`: `Done()` is closed when the aggregation loop executes its `select` number `i`. -/
structure Context where
  err : CtxErr
  scanDone : Nat → Nat → Bool
  selectDone : Nat → Bool

/-- The view the scan goroutine with index `g` has of the context. -/
def Context.scanView (ctx : Context) (g : Nat) : CtxView :=
  ⟨ctx.scanDone g, ctx.err⟩

/-- The context is never cancelled and never expires. -/
def Context.neverDone (ctx : Context) : Prop :=
  (∀ g t, ctx.scanDone g t = false) ∧ ∀ i, ctx.selectDone i = false

/-- The context is already done when the call starts (and therefore stays done). -/
def Context.doneAtEntry (ctx : Context) : Prop :=
  (∀ g t, ctx.scanDone g t = true) ∧ ∀ i, ctx.selectDone i = true

/-- A background context: `context.Background()`. -/
def Context.background : Context :=
  ⟨.Canceled, fun _ _ => false, fun _ => false⟩

/-- A context cancelled before the call. -/
def Context.cancelled : Context :=
  ⟨.Canceled, fun _ _ => true, fun _ => true⟩

/-- The state of one coupon file as `scanFileForCode` meets it.

* `openErr`: the error of `os.Open`, if it fails;
* `lines`: the tokens that successive calls of `scanner.Scan()` yield (the lines of the file,
  without their line terminators), in order;
* `scanErr`: the value of `scanner.Err()` after `Scan()` has returned `false`
  (a read error, or a line longer than the 1 MiB buffer). -/
structure CouponFile where
  openErr : Option GoError
  lines : List String
  scanErr : Option GoError

/-- The file system: the state of the file at each path. -/
abbrev FileSystem := String → CouponFile

/-! ## `PromoRepository.scanFileForCode` -/

/-- The loop `for scanner.Scan() { ... }` of `scanFileForCode` together with the code after it.
The list holds the lines not read yet; `lineCount` is the variable of that name. -/
def PromoRepository.scanLoop (ctx : CtxView) (filePath targetCode : String)
    (scanErr : Option GoError) : List String → Nat → Bool × Option GoError
  | [], _ =>
    match scanErr with
    | some e => (false, some (.wrap ("error reading file " ++ filePath ++ ": " ++ e.Error) e))
    | none => (false, none)
  | line :: rest, lineCount =>
    if lineCount % 10000 = 0 ∧ ctx.done lineCount = true then
      (false, some (.ctx ctx.err))
    else if strings.TrimSpace line = targetCode then
      (true, none)
    else
      PromoRepository.scanLoop ctx filePath targetCode scanErr rest (lineCount + 1)

/-- Go `(*PromoRepository).scanFileForCode(ctx, filePath, targetCode)`. -/
def PromoRepository.scanFileForCode (fs : FileSystem) (ctx : CtxView)
    (filePath targetCode : String) : Bool × Option GoError :=
  match (fs filePath).openErr with
  | some e => (false, some (.wrap ("failed to open file " ++ filePath ++ ": " ++ e.Error) e))
  | none =>
    PromoRepository.scanLoop ctx filePath targetCode (fs filePath).scanErr (fs filePath).lines 0

/-- Some line of the list equals the target after trimming. -/
def hasCode (lines : List String) (targetCode : String) : Bool :=
  lines.any fun line => decide (strings.TrimSpace line = targetCode)

/-! ## `PromoRepository.ValidateCode` -/

/-- Go `PromoRepository` (the mutex guards nothing that changes and is left out). -/
structure PromoRepository where
  filePaths : List String

/-- Go `scanResult`, the local type of `ValidateCode`. -/
structure scanResult where
  fileIndex : Nat
  found : Bool
  err : Option GoError
  deriving DecidableEq, Repr

/-- The choices the Go runtime makes during one call of `ValidateCode`.

* `arrival`: the indices of the scan goroutines in the order in which the aggregation loop
  receives their results from `resultChan`. Every goroutine sends exactly one result and the
  channel has room for all of them, so in a run of the program this is a permutation of
  `0, ..., len(filePaths) - 1`;
* `pickDone i`: when `ctx.Done()` is closed at `select` number `i`, whether the runtime takes the
  case `<-ctx.Done()` (`true`) or the case `<-resultChan` (`false`); `select` picks among the
  ready cases at random. -/
structure Schedule where
  arrival : List Nat
  pickDone : Nat → Bool

/-- The result that the goroutine started for index `index` sends on `resultChan`
(`none` when the loop `for i, filePath := range r.filePaths` starts no such goroutine). -/
def PromoRepository.sent (r : PromoRepository) (fs : FileSystem) (ctx : Context) (code : String)
    (index : Nat) : Option scanResult :=
  (r.filePaths[index]?).map fun path =>
    let res := PromoRepository.scanFileForCode fs (ctx.scanView index) path code
    ⟨index, res.1, res.2⟩

/-- The aggregation loop `for i := 0; i < len(r.filePaths); i++ { select { ... } }` of
`ValidateCode` and the `return` after it. The list holds the results still to be received, one
for each iteration left; `i` and `filesWithCode` are the variables of those names. The value is
the Go result together with the number of results taken from the channel before returning. -/
def PromoRepository.aggregate (ctx : Context) (pickDone : Nat → Bool) :
    List scanResult → Nat → Nat → (Bool × Option GoError) × Nat
  | [], i, filesWithCode => ((decide (filesWithCode ≥ 2), none), i)
  | result :: rest, i, filesWithCode =>
    if ctx.selectDone i = true ∧ pickDone i = true then
      ((false, some (.ctx ctx.err)), i)
    else
      match result.err with
      | some _ => PromoRepository.aggregate ctx pickDone rest (i + 1) filesWithCode
      | none =>
        if result.found = true then
          if filesWithCode + 1 ≥ 2 then ((true, none), i + 1)
          else PromoRepository.aggregate ctx pickDone rest (i + 1) (filesWithCode + 1)
        else PromoRepository.aggregate ctx pickDone rest (i + 1) filesWithCode

/-- One call of `ValidateCode` with its observable effects: the Go result `(valid, err)`, the
paths for which a scan goroutine was started, and the number of scan results received. -/
structure ValidateRun where
  valid : Bool
  err : Option GoError
  launched : List String
  received : Nat
  deriving DecidableEq, Repr

/-- Go `(*PromoRepository).ValidateCode(ctx, code)`, with the effects of the call. -/
def PromoRepository.run (r : PromoRepository) (fs : FileSystem) (ctx : Context)
    (sched : Schedule) (code : String) : ValidateRun :=
  if r.filePaths.length < 2 then
    ⟨false, some (.fresh "at least 2 coupon files required for validation"), [], 0⟩
  else
    let out := PromoRepository.aggregate ctx sched.pickDone
      (sched.arrival.filterMap (PromoRepository.sent r fs ctx code)) 0 0
    ⟨out.1.1, out.1.2, r.filePaths, out.2⟩

/-- Go `(*PromoRepository).ValidateCode(ctx, code)`: the pair `(valid, err)` it returns. -/
def PromoRepository.ValidateCode (r : PromoRepository) (fs : FileSystem) (ctx : Context)
    (sched : Schedule) (code : String) : Bool × Option GoError :=
  ((r.run fs ctx sched code).valid, (r.run fs ctx sched code).err)

/-- The file at `path` can be opened and one of its lines equals `code` after trimming. -/
def fileHasCode (fs : FileSystem) (code path : String) : Bool :=
  (fs path).openErr.isNone && hasCode (fs path).lines code

/-- The file at `path` can be opened and read to its end. -/
def readable (fs : FileSystem) (path : String) : Prop :=
  (fs path).openErr = none ∧ (fs path).scanErr = none

/-! ## `PromoService` -/

/-- Go `(*PromoService).ValidatePromoCode(ctx, code)`; `promoRepo` is the method `ValidateCode`
of the repository behind the interface `interfaces.PromoRepository`. -/
def PromoService.ValidatePromoCode (promoRepo : Context → String → Bool × Option GoError)
    (ctx : Context) (code : String) : Bool × Option GoError :=
  if len code < 8 then (false, none)
  else if len code > 10 then (false, none)
  else
    match promoRepo ctx code with
    | (_, some err) =>
      (false, some (.wrap ("failed to validate promo code: " ++ err.Error) err))
    | (exists_, none) => (exists_, none)

/-! ## `internal/domain/entities` -/

/-- Go `entities.OrderItem`. -/
structure OrderItem where
  ProductID : String
  Quantity : Int
  deriving DecidableEq, Repr

/-- Go `(*OrderItem).Validate()`. -/
def OrderItem.Validate (o : OrderItem) : Option GoError :=
  if strings.TrimSpace o.ProductID = "" then some (.fresh "productId is required")
  else if o.Quantity ≤ 0 then some (.fresh "quantity must be greater than 0")
  else none

/-- Go `entities.OrderRequest`. -/
structure OrderRequest where
  CouponCode : String
  Items : List OrderItem
  deriving DecidableEq, Repr

/-- The loop `for i, item := range or.Items` of `OrderRequest.Validate` and the `return nil`
after it; the list holds the items from index `i` on. -/
def OrderRequest.validateItems : List OrderItem → Nat → Option GoError
  | [], _ => none
  | item :: rest, i =>
    match item.Validate with
    | some err => some (.wrap ("item at index " ++ toString i ++ ": " ++ err.Error) err)
    | none => OrderRequest.validateItems rest (i + 1)

/-- Go `(*OrderRequest).Validate()`. -/
def OrderRequest.Validate (req : OrderRequest) : Option GoError :=
  if req.Items.length = 0 then some (.fresh "items are required")
  else OrderRequest.validateItems req.Items 0

/-- Go `entities.Image`. -/
structure Image where
  Thumbnail : String
  Mobile : String
  Tablet : String
  Desktop : String
  deriving DecidableEq, Repr

/-- Go `entities.Product`; `F` stands for `float64`. -/
structure Product (F : Type) where
  ID : String
  Name : String
  Price : F
  Category : String
  Image : Image

/-- Go `entities.Order`; `F` stands for `float64`. -/
structure Order (F : Type) where
  ID : String
  Total : F
  Discounts : F
  Items : List OrderItem
  Products : List (Product F)

/-- The `float64` operations the program uses: the constants `0` and `0.10`, the value
`lit m d` of a decimal literal with digits `m` and `d` decimal places (`999.99` is `lit 99999 2`),
`+`, `-`, `*` and the conversion `float64(n)` of an `int`. -/
structure Float64Ops (F : Type) where
  zero : F
  tenth : F
  lit : Nat → Nat → F
  add : F → F → F
  sub : F → F → F
  mul : F → F → F
  ofInt : Int → F

/-! ## `ProductRepository` -/

/-- Go `ProductRepository`. -/
structure ProductRepository (F : Type) where
  products : List (Product F)

/-- Go `(*ProductRepository).GetByID(ctx, id)`. -/
def ProductRepository.GetByID {F : Type} (r : ProductRepository F) (_ctx : Context)
    (id : String) : Except GoError (Product F) :=
  match r.products.find? fun product => decide (product.ID = id) with
  | some product => .ok product
  | none => .error (.sentinel .ErrProductNotFound)

/-- The image record shared by all sample products. -/
def sampleImage : Image :=
  { Thumbnail := "https://orderfoodonline.deno.dev/public/images/image-waffle-thumbnail.jpg"
    Mobile := "https://orderfoodonline.deno.dev/public/images/image-waffle-mobile.jpg"
    Tablet := "https://orderfoodonline.deno.dev/public/images/image-waffle-tablet.jpg"
    Desktop := "https://orderfoodonline.deno.dev/public/images/image-waffle-desktop.jpg" }

/-- Go `getSampleProducts()`: the built-in catalog. -/
def getSampleProducts {F : Type} (ops : Float64Ops F) : List (Product F) :=
  [ { ID := "10", Name := "iPhone 15 Pro", Price := ops.lit 99999 2, Category := "Phone",
      Image := sampleImage },
    { ID := "11", Name := "Samsung Galaxy S24", Price := ops.lit 84999 2, Category := "Phone",
      Image := sampleImage },
    { ID := "12", Name := "iPad Pro 12.9", Price := ops.lit 109999 2, Category := "Tablet",
      Image := sampleImage },
    { ID := "13", Name := "MacBook Pro 14", Price := ops.lit 199999 2, Category := "Laptop",
      Image := sampleImage },
    { ID := "14", Name := "Dell XPS 13", Price := ops.lit 129999 2, Category := "Laptop",
      Image := sampleImage } ]

/-- Go `NewProductRepository()`. -/
def NewProductRepository {F : Type} (ops : Float64Ops F) : ProductRepository F :=
  ⟨getSampleProducts ops⟩

/-! ## `OrderService` -/

/-- Go `OrderService`: the two collaborators behind the interfaces
`interfaces.ProductRepository` (its method `GetByID`) and `interfaces.PromoService`
(its method `ValidatePromoCode`). -/
structure OrderService (F : Type) where
  productRepo : Context → String → Except GoError (Product F)
  promoService : Context → String → Bool × Option GoError

/-- Go `(*OrderService).validateCouponCodeFormat(couponCode)`. -/
def OrderService.validateCouponCodeFormat (couponCode : String) : Option GoError :=
  let trimmed := strings.TrimSpace couponCode
  if trimmed = "" then some (.fresh "coupon code cannot be empty or whitespace only")
  else if len trimmed < 8 then some (.sentinel .ErrPromoCodeTooShort)
  else if len trimmed > 10 then some (.sentinel .ErrPromoCodeTooLong)
  else if trimmed.data.any (fun char => decide (char < 'A') || decide (char > 'Z')) then
    some (.fresh
      "promo code must contain only uppercase letters (no numbers or special characters)")
  else none

/-- Go `(*OrderService).validateOrderRequest(req)`. -/
def OrderService.validateOrderRequest (req : OrderRequest) : Option GoError :=
  match req.Validate with
  | some err =>
    some (.wrap (Sentinel.ErrInvalidOrderRequest.Error ++ ": " ++ err.Error)
      (.sentinel .ErrInvalidOrderRequest))
  | none =>
    if req.CouponCode ≠ "" then
      match OrderService.validateCouponCodeFormat req.CouponCode with
      | some err =>
        some (.wrap (Sentinel.ErrInvalidPromoCode.Error ++ ": " ++ err.Error)
          (.sentinel .ErrInvalidPromoCode))
      | none => none
    else none

/-- The loop `for idx, item := range items` of `validateAndCalculateItems` and the `return`
after it; the list holds the items from index `idx` on. -/
def OrderService.calculateLoop {F : Type} (s : OrderService F) (ops : Float64Ops F)
    (ctx : Context) : List OrderItem → Nat → List (Product F) → F →
    Except GoError (List (Product F) × F)
  | [], _, orderProducts, totalAmount => .ok (orderProducts, totalAmount)
  | item :: rest, idx, orderProducts, totalAmount =>
    match s.productRepo ctx item.ProductID with
    | .error _ =>
      .error (.wrap (Sentinel.ErrInvalidProductID.Error ++ ": item " ++ toString idx ++
        " not exits") (.sentinel .ErrInvalidProductID))
    | .ok product =>
      OrderService.calculateLoop s ops ctx rest (idx + 1) (orderProducts ++ [product])
        (ops.add totalAmount (ops.mul product.Price (ops.ofInt item.Quantity)))

/-- Go `(*OrderService).validateAndCalculateItems(ctx, items)`. -/
def OrderService.validateAndCalculateItems {F : Type} (s : OrderService F) (ops : Float64Ops F)
    (ctx : Context) (items : List OrderItem) : Except GoError (List (Product F) × F) :=
  OrderService.calculateLoop s ops ctx items 0 [] ops.zero

/-- Go `(*OrderService).applyPromoCodeDiscount(ctx, couponCode, totalAmount)`. -/
def OrderService.applyPromoCodeDiscount {F : Type} (s : OrderService F) (ops : Float64Ops F)
    (ctx : Context) (couponCode : String) (totalAmount : F) : Except GoError F :=
  if strings.TrimSpace couponCode = "" then .ok ops.zero
  else
    match s.promoService ctx couponCode with
    | (_, some err) => .error (.wrap ("failed to validate promo code: " ++ err.Error) err)
    | (isValid, none) =>
      if isValid = false then
        .error (.wrap (Sentinel.ErrInvalidPromoCode.Error ++ ": code \x27" ++ couponCode ++
          "\x27 is not valid") (.sentinel .ErrInvalidPromoCode))
      else .ok (ops.mul totalAmount ops.tenth)

/-- Go `(*OrderService).PlaceOrder(ctx, req)`; `now` is the value of `time.Now().UnixNano()`. -/
def OrderService.PlaceOrder {F : Type} (s : OrderService F) (ops : Float64Ops F) (now : Int)
    (ctx : Context) (req : OrderRequest) : Except GoError (Order F) :=
  match OrderService.validateOrderRequest req with
  | some err => .error err
  | none =>
    match s.validateAndCalculateItems ops ctx req.Items with
    | .error err => .error err
    | .ok (orderProducts, totalAmount) =>
      match s.applyPromoCodeDiscount ops ctx req.CouponCode totalAmount with
      | .error err => .error err
      | .ok discountAmount =>
        .ok
          { ID := "order_" ++ toString now
            Total := ops.sub totalAmount discountAmount
            Discounts := discountAmount
            Items := req.Items
            Products := orderProducts }

/-- The services as `cmd/server/main.go` wires them: an `OrderService` over a
`ProductRepository` and over a `PromoService` that sits on a `PromoRepository`. -/
def wiredOrderService {F : Type} (products : List (Product F)) (filePaths : List String)
    (fs : FileSystem) (sched : Schedule) : OrderService F where
  productRepo := (ProductRepository.mk products).GetByID
  promoService := PromoService.ValidatePromoCode
    fun ctx code => PromoRepository.ValidateCode ⟨filePaths⟩ fs ctx sched code

/-! ## `MapErrorToAPIError` -/

/-- Go `http.StatusText` on the status codes this program passes to it. -/
def http.StatusText : Nat → String
  | 400 => "Bad Request"
  | 401 => "Unauthorized"
  | 404 => "Not Found"
  | 422 => "Unprocessable Entity"
  | 500 => "Internal Server Error"
  | _ => ""

/-- Go `NewAPIError(code, message)`. -/
def NewAPIError (code : Nat) (message : String) : APIError :=
  ⟨code, http.StatusText code, message⟩

/-- Go `MapErrorToAPIError(err)`; `none` is the `nil` error. -/
def MapErrorToAPIError : Option GoError → APIError
  | none => ⟨0, "", ""⟩
  | some (.api apiErr) => apiErr
  | some err =>
    if errors.Is err .ErrInvalidProductID then NewAPIError 400 err.Error
    else if errors.Is err .ErrProductNotFound then NewAPIError 404 err.Error
    else if errors.Is err .ErrInvalidOrderRequest || errors.Is err .ErrEmptyOrderItems ||
        errors.Is err .ErrInvalidQuantity || errors.Is err .ErrInvalidProductRef ||
        errors.Is err .ErrInvalidJSON || errors.Is err .ErrRequiredField ||
        errors.Is err .ErrInvalidFormat then NewAPIError 400 err.Error
    else if errors.Is err .ErrUnauthorized || errors.Is err .ErrMissingAPIKey ||
        errors.Is err .ErrInvalidAPIKey then NewAPIError 401 err.Error
    else if errors.Is err .ErrInvalidPromoCode || errors.Is err .ErrPromoCodeTooShort ||
        errors.Is err .ErrPromoCodeTooLong || errors.Is err .ErrPromoCodeNotFound then
      NewAPIError 422 err.Error
    else if errors.Is err .ErrValidationFailed || errors.Is err .ErrDuplicateItem ||
        errors.Is err .ErrExceedsLimit then NewAPIError 400 err.Error
    else NewAPIError 500 "internal server error"

/-! ## `OrderService.PlaceOrder` with the calls it makes on its collaborators -/

/-- A call of the order service on one of its collaborators. -/
inductive Call
  | GetByID (id : String)
  | ValidatePromoCode (code : String)
  deriving DecidableEq, Repr

/-- The loop of `validateAndCalculateItems` as in `OrderService.calculateLoop`, together with
the log of the calls made; `log` holds the calls made so far. -/
def OrderService.calculateLoopLog {F : Type} (s : OrderService F) (ops : Float64Ops F)
    (ctx : Context) : List OrderItem → Nat → List (Product F) → F → List Call →
    Except GoError (List (Product F) × F) × List Call
  | [], _, orderProducts, totalAmount, log => (.ok (orderProducts, totalAmount), log)
  | item :: rest, idx, orderProducts, totalAmount, log =>
    match s.productRepo ctx item.ProductID with
    | .error _ =>
      (.error (.wrap (Sentinel.ErrInvalidProductID.Error ++ ": item " ++ toString idx ++
        " not exits") (.sentinel .ErrInvalidProductID)), log ++ [.GetByID item.ProductID])
    | .ok product =>
      OrderService.calculateLoopLog s ops ctx rest (idx + 1) (orderProducts ++ [product])
        (ops.add totalAmount (ops.mul product.Price (ops.ofInt item.Quantity)))
        (log ++ [.GetByID item.ProductID])

/-- Go `applyPromoCodeDiscount` as in `OrderService.applyPromoCodeDiscount`, together with the
log of the calls made. -/
def OrderService.applyPromoCodeDiscountLog {F : Type} (s : OrderService F) (ops : Float64Ops F)
    (ctx : Context) (couponCode : String) (totalAmount : F) (log : List Call) :
    Except GoError F × List Call :=
  if strings.TrimSpace couponCode = "" then (.ok ops.zero, log)
  else
    match s.promoService ctx couponCode with
    | (_, some err) =>
      (.error (.wrap ("failed to validate promo code: " ++ err.Error) err),
        log ++ [.ValidatePromoCode couponCode])
    | (isValid, none) =>
      if isValid = false then
        (.error (.wrap (Sentinel.ErrInvalidPromoCode.Error ++ ": code \x27" ++ couponCode ++
          "\x27 is not valid") (.sentinel .ErrInvalidPromoCode)),
          log ++ [.ValidatePromoCode couponCode])
      else (.ok (ops.mul totalAmount ops.tenth), log ++ [.ValidatePromoCode couponCode])

/-- Go `(*OrderService).PlaceOrder(ctx, req)` as in `OrderService.PlaceOrder`, together with the
calls it makes on the product repository and on the promo service, in order. -/
def OrderService.PlaceOrderLog {F : Type} (s : OrderService F) (ops : Float64Ops F) (now : Int)
    (ctx : Context) (req : OrderRequest) : Except GoError (Order F) × List Call :=
  match OrderService.validateOrderRequest req with
  | some err => (.error err, [])
  | none =>
    match OrderService.calculateLoopLog s ops ctx req.Items 0 [] ops.zero [] with
    | (.error err, log) => (.error err, log)
    | (.ok (orderProducts, totalAmount), log) =>
      match s.applyPromoCodeDiscountLog ops ctx req.CouponCode totalAmount log with
      | (.error err, log) => (.error err, log)
      | (.ok discountAmount, log) =>
        (.ok
          { ID := "order_" ++ toString now
            Total := ops.sub totalAmount discountAmount
            Discounts := discountAmount
            Items := req.Items
            Products := orderProducts }, log)

/-- The pre-discount total that `validateAndCalculateItems` accumulates for the resolved
products and their items: starting from `0`, in request order, `total + price * float64(quantity)`
for each item. -/
def preDiscountTotal {F : Type} (ops : Float64Ops F) (products : List (Product F))
    (items : List OrderItem) : F :=
  (products.zip items).foldl
    (fun total pi => ops.add total (ops.mul pi.1.Price (ops.ofInt pi.2.Quantity))) ops.zero

/-! ## `ProductService` -/

/-- The decimal value of a list of digit characters, most significant first. -/
def strconv.digitsValue (digits : List Char) : Nat :=
  digits.foldl (fun n ch => n * 10 + (ch.toNat - 48)) 0

/-- Go `strconv.Atoi(s)` on a 64-bit platform: an optional sign `+` or `-`, then one or more
decimal digits, with a value between `-2^63` and `2^63 - 1`; anything else is an error. -/
def strconv.Atoi (s : String) : Except GoError Int :=
  let neg := decide (s.data.head? = some '-')
  let digits :=
    if s.data.head? = some '-' ∨ s.data.head? = some '+' then s.data.tail else s.data
  if digits = [] ∨ ¬ digits.all (fun ch => decide ('0' ≤ ch) && decide (ch ≤ '9')) then
    .error (.os ("strconv.Atoi: parsing " ++ s.quote ++ ": invalid syntax"))
  else
    let n := strconv.digitsValue digits
    if (neg = true ∧ n ≤ 2 ^ 63) then .ok (-(n : Int))
    else if (neg = false ∧ n < 2 ^ 63) then .ok (n : Int)
    else .error (.os ("strconv.Atoi: parsing " ++ s.quote ++ ": value out of range"))

/-- Go `ProductService`: the collaborator behind `interfaces.ProductRepository`
(its method `GetByID`). -/
structure ProductService (F : Type) where
  productRepo : Context → String → Except GoError (Product F)

/-- Go `(*ProductService).GetProduct(ctx, id)`. -/
def ProductService.GetProduct {F : Type} (s : ProductService F) (ctx : Context) (id : String) :
    Except GoError (Product F) :=
  match strconv.Atoi id with
  | .error _ => .error (.sentinel .ErrInvalidProductID)
  | .ok _ =>
    match s.productRepo ctx id with
    | .error err => .error (.wrap ("failed to retrieve product: " ++ err.Error) err)
    | .ok product => .ok product

/-- Go `NewProductService(NewProductRepository())`: the product service over the built-in
catalog, as `main.go` wires it. -/
def builtinProductService {F : Type} (ops : Float64Ops F) : ProductService F :=
  ⟨(NewProductRepository ops).GetByID⟩

/-! ## `net/http` and `encoding/json` as far as the API-key middleware uses them -/

/-- Go `textproto.validHeaderFieldByte`: the bytes allowed in a header field name (the token
characters of RFC 7230). -/
def textproto.validHeaderFieldByte (c : Char) : Bool :=
  c.isAlphanum || "!#$%&\x27*+-.^_\x60|~".data.contains c

/-- The loop of Go `textproto.canonicalMIMEHeaderKey`: the first letter and every letter after a
hyphen in upper case, every other letter in lower case. -/
def textproto.canonicalLoop : List Char → Bool → List Char
  | [], _ => []
  | c :: rest, upper =>
    (if upper then c.toUpper else c.toLower) :: textproto.canonicalLoop rest (c == '-')

/-- Go `textproto.CanonicalMIMEHeaderKey`: a key with a byte that is not allowed in a field name
is returned unchanged. -/
def textproto.CanonicalMIMEHeaderKey (key : String) : String :=
  if key.data.all textproto.validHeaderFieldByte then ⟨textproto.canonicalLoop key.data true⟩
  else key

/-- Go `http.Header`: for every (canonical) key the list of its values, empty when the key is
absent. -/
abbrev http.Header := String → List String

/-- Go `http.Header.Get(key)`: the first value under the canonical form of `key`, or the empty
string. -/
def http.Header.Get (h : http.Header) (key : String) : String :=
  (h (textproto.CanonicalMIMEHeaderKey key)).headD ""

/-- Go `http.Request`, the fields the program reads. -/
structure http.Request where
  Method : String
  Path : String
  Header : http.Header
  Body : String

/-- The state of a Go `http.ResponseWriter`: the header fields set, the status code once it has
been written, and the body written so far. -/
structure http.ResponseWriter where
  header : List (String × String)
  status : Option Nat
  body : String
  deriving DecidableEq, Repr

/-- Go `w.Header().Set(key, value)`. -/
def http.ResponseWriter.SetHeader (w : http.ResponseWriter) (key value : String) :
    http.ResponseWriter :=
  { w with header := (w.header.filter fun kv => kv.1 ≠ key) ++ [(key, value)] }

/-- Go `w.WriteHeader(code)`: only the first call sets the status. -/
def http.ResponseWriter.WriteHeader (w : http.ResponseWriter) (code : Nat) :
    http.ResponseWriter :=
  match w.status with
  | some _ => w
  | none => { w with status := some code }

/-- Go `w.Write(data)`: writes status 200 first when no status has been written. -/
def http.ResponseWriter.Write (w : http.ResponseWriter) (data : String) : http.ResponseWriter :=
  { (w.WriteHeader 200) with body := (w.WriteHeader 200).body ++ data }

/-- A hexadecimal digit in lower case. -/
def json.hexDigit (n : Nat) : Char :=
  if n < 10 then Char.ofNat (48 + n) else Char.ofNat (87 + n)

/-- The escape Go `encoding/json` writes for one character of a string (HTML escaping on, as
`json.NewEncoder` has it by default). -/
def json.escapeChar (c : Char) : String :=
  if c = '"' then "\\\""
  else if c = '\\' then "\\\\"
  else if c = '\n' then "\\n"
  else if c = '\r' then "\\r"
  else if c = '\t' then "\\t"
  else if c.toNat < 0x20 ∨ c = '<' ∨ c = '>' ∨ c = '&' then
    "\\u00" ++ String.mk [json.hexDigit (c.toNat / 16), json.hexDigit (c.toNat % 16)]
  else if c.toNat = 0x2028 then "\\u2028"
  else if c.toNat = 0x2029 then "\\u2029"
  else String.mk [c]

/-- Go `encoding/json` on a string value: the quoted, escaped text. -/
def json.encodeString (s : String) : String :=
  "\"" ++ String.join (s.data.map json.escapeChar) ++ "\""

/-- Go `ErrorResponse` of `errors.go`. -/
structure ErrorResponse where
  Error : APIError
  deriving DecidableEq, Repr

/-- Go `json.NewEncoder(w).Encode(errorResponse)`: the fields in declaration order under their
`json` tags `error`, `code`, `type`, `message`, followed by a newline. -/
def json.encodeErrorResponse (e : ErrorResponse) : String :=
  "\x7b\"error\":\x7b\"code\":" ++ toString e.Error.Code ++ ",\"type\":" ++
    json.encodeString e.Error.Type_ ++ ",\"message\":" ++ json.encodeString e.Error.Message ++
    "\x7d\x7d\n"

/-! ## `AuthMiddleware` -/

/-- Go constant `APIKeyHeader`. -/
def APIKeyHeader : String := "api_key"

/-- Go constant `ValidAPIKey`. -/
def ValidAPIKey : String := "apitest"

/-- A Go `http.Handler`: what `ServeHTTP(w, r)` does to the response writer. -/
abbrev http.Handler := http.ResponseWriter → http.Request → http.ResponseWriter

/-- The outcome of serving one request through the middleware: the response writer afterwards
and the number of times the wrapped handler was invoked. -/
structure Served where
  w : http.ResponseWriter
  nextCalls : Nat
  deriving DecidableEq, Repr

/-- Go `(*AuthMiddleware).handleAuthError(w, r, err)`; the log entry it writes is left out. -/
def AuthMiddleware.handleAuthError (w : http.ResponseWriter) (_r : http.Request)
    (err : GoError) : http.ResponseWriter :=
  let apiError := MapErrorToAPIError (some err)
  ((w.SetHeader "Content-Type" "application/json").WriteHeader apiError.Code).Write
    (json.encodeErrorResponse ⟨apiError⟩)

/-- Go `(*AuthMiddleware).RequireAPIKey(next)`: the handler it returns, applied to `w` and `r`. -/
def AuthMiddleware.RequireAPIKey (next : http.Handler) (w : http.ResponseWriter)
    (r : http.Request) : Served :=
  let apiKey := r.Header.Get APIKeyHeader
  if apiKey = "" then
    ⟨AuthMiddleware.handleAuthError w r (.sentinel .ErrMissingAPIKey), 0⟩
  else if apiKey ≠ ValidAPIKey then
    ⟨AuthMiddleware.handleAuthError w r (.sentinel .ErrInvalidAPIKey), 0⟩
  else ⟨next w r, 1⟩

/-- A response writer on which nothing has been set or written. -/
def http.ResponseWriter.fresh : http.ResponseWriter := ⟨[], none, ""⟩

/-- A request `POST /order` with a valid cart and the given header fields. -/
def demoOrderRequest (header : http.Header) : http.Request :=
  ⟨"POST", "/order", header,
    "\x7b\"items\":[\x7b\"productId\":\"10\",\"quantity\":2\x7d]\x7d"⟩

/-! ## Go `float64`: IEEE 754 binary64 with round to nearest, ties to even

Finite values are kept by their exact rational value; the sign of zero and the payload of a NaN
are not tracked. Every operation rounds its exact result once (no fused multiply-add). -/

/-- A Go `float64` value. -/
inductive Float64
  | finite (q : ℚ)
  | inf (negative : Bool)
  | nan
  deriving DecidableEq, Repr

/-- The rational `m * 2 ^ k`. -/
def Float64.scale (m : Nat) (k : Int) : ℚ :=
  ((m * 2 ^ k.toNat : ℕ) : ℚ) / ((2 ^ (-k).toNat : ℕ) : ℚ)

/-- The position of the leading binary digit of `n`, that is `⌊log₂ n⌋` for `1 ≤ n ≤ fuel`. -/
def Float64.log2Fuel : Nat → Nat → Nat
  | 0, _ => 0
  | fuel + 1, n => if n < 2 then 0 else Float64.log2Fuel fuel (n / 2) + 1

/-- For a positive rational `x`, the integer `e` with `2 ^ e ≤ x < 2 ^ (e + 1)`. -/
def Float64.ilog2 (x : ℚ) : Int :=
  let a := Float64.log2Fuel x.num.natAbs x.num.natAbs
  let b := Float64.log2Fuel x.den x.den
  if x.den * 2 ^ a ≤ x.num.natAbs * 2 ^ b then (a : Int) - b else (a : Int) - b - 1

/-- Rounding of a rational to the nearest integer, ties to the even one. -/
def Float64.roundHalfEven (y : ℚ) : Int :=
  if y - ⌊y⌋ < 1 / 2 then ⌊y⌋
  else if 1 / 2 < y - ⌊y⌋ then ⌊y⌋ + 1
  else if ⌊y⌋ % 2 = 0 then ⌊y⌋ else ⌊y⌋ + 1

/-- The exponent of the last place of the binary64 values around a non-zero `x`: 53 significant
bits for a normal value, `2 ^ -1074` for a subnormal one. -/
def Float64.quantum (x : ℚ) : Int :=
  max (Float64.ilog2 |x| - 52) (-1074)

/-- The magnitude of the binary64 value nearest to a non-zero `x` (ties to even), before the
check for overflow. -/
def Float64.roundMagnitude (x : ℚ) : ℚ :=
  (Float64.roundHalfEven (|x| / Float64.scale 1 (Float64.quantum x)) : ℚ) *
    Float64.scale 1 (Float64.quantum x)

/-- The binary64 value of the exact result `x`: the nearest representable value, ties to even;
a result that rounds to `2 ^ 1024` or beyond is an infinity. -/
def Float64.round (x : ℚ) : Float64 :=
  if x = 0 then .finite 0
  else if Float64.scale 1 1024 ≤ Float64.roundMagnitude x then .inf (decide (x < 0))
  else .finite (if x < 0 then -Float64.roundMagnitude x else Float64.roundMagnitude x)

/-- Go `-x` on `float64`. -/
def Float64.neg : Float64 → Float64
  | .finite q => .finite (-q)
  | .inf negative => .inf (!negative)
  | .nan => .nan

/-- Go `x + y` on `float64`. -/
def Float64.add : Float64 → Float64 → Float64
  | .finite a, .finite b => Float64.round (a + b)
  | .finite _, .inf negative => .inf negative
  | .inf negative, .finite _ => .inf negative
  | .inf a, .inf b => if a = b then .inf a else .nan
  | _, _ => .nan

/-- Go `x - y` on `float64`. -/
def Float64.sub (x y : Float64) : Float64 :=
  Float64.add x (Float64.neg y)

/-- Go `x * y` on `float64`. -/
def Float64.mul : Float64 → Float64 → Float64
  | .finite a, .finite b => Float64.round (a * b)
  | .finite a, .inf negative =>
    if a = 0 then .nan else .inf (if a < 0 then !negative else negative)
  | .inf negative, .finite b =>
    if b = 0 then .nan else .inf (if b < 0 then !negative else negative)
  | .inf a, .inf b => .inf (a != b)
  | _, _ => .nan

/-- Go `x < y` on `float64`; false when an operand is a NaN. -/
def Float64.lt : Float64 → Float64 → Bool
  | .finite a, .finite b => decide (a < b)
  | .finite _, .inf negative => !negative
  | .inf negative, .finite _ => negative
  | .inf a, .inf b => a && !b
  | _, _ => false

/-- Go `x <= y` on `float64`; false when an operand is a NaN. -/
def Float64.le : Float64 → Float64 → Bool
  | .finite a, .finite b => decide (a ≤ b)
  | .finite _, .inf negative => !negative
  | .inf negative, .finite _ => negative
  | .inf a, .inf b => a || !b
  | _, _ => false

/-- The `float64` arithmetic of the program: constants are converted to the nearest value, and
so is an `int` by `float64(n)`. -/
def float64Ops : Float64Ops Float64 where
  zero := .finite 0
  tenth := Float64.round (10 / 100)
  lit := fun m d => Float64.round ((m : ℚ) / ((10 ^ d : ℕ) : ℚ))
  add := Float64.add
  sub := Float64.sub
  mul := Float64.mul
  ofInt := fun n => Float64.round (n : ℚ)

/-- A non-negative rational is a binary64 value: `n * 2 ^ j` with at most 53 significant bits
in `n`, an exponent `j` of at least `-1074`, and a value below `2 ^ 1024`. -/
def Float64.Representable (t : ℚ) : Prop :=
  ∃ (n : ℕ) (j : ℤ), n ≤ 2 ^ 53 ∧ -1074 ≤ j ∧ t = (n : ℚ) * (2 : ℚ) ^ j ∧
    t < (2 : ℚ) ^ (1024 : ℤ)

/-- A `float64` value that is a NaN, `+Inf`, or a non-negative binary64 value. -/
def Float64.NonNegOrNaN (x : Float64) : Prop :=
  x = .nan ∨ x = .inf false ∨ ∃ t, x = .finite t ∧ 0 ≤ t ∧ Float64.Representable t

/-! ## The schema checks of `integration_test.go` -/

/-- Go `validateProductSchema` of the integration test: `true` when it reports no error. -/
def validateProductSchema (product : Product Float64) : Bool :=
  decide (product.ID ≠ "") && decide (product.Name ≠ "") &&
    !Float64.le product.Price (.finite 0) && decide (product.Category ≠ "") &&
    decide (product.Image.Thumbnail ≠ "") && decide (product.Image.Mobile ≠ "") &&
    decide (product.Image.Tablet ≠ "") && decide (product.Image.Desktop ≠ "")

/-- Go `validateOrderSchema` of the integration test: `true` when it reports no error. -/
def validateOrderSchema (order : Order Float64) : Bool :=
  decide (order.ID ≠ "") && !Float64.lt order.Total (.finite 0) &&
    !Float64.lt order.Discounts (.finite 0) && decide (order.Items.length ≠ 0) &&
    decide (order.Products.length ≠ 0) &&
    order.Items.all (fun item => decide (item.ProductID ≠ "") && !decide (item.Quantity ≤ 0)) &&
    order.Products.all validateProductSchema

/-! ## Runs with their effects: lines read by a scan, repository calls of the promo service -/

/-- The loop of `scanFileForCode` as in `PromoRepository.scanLoop`, together with the number of
lines read from this point on: the number of calls of `scanner.Scan()` that returned `true`.
A line is compared with the target only after it has been read. -/
def PromoRepository.scanLoopRead (ctx : CtxView) (filePath targetCode : String)
    (scanErr : Option GoError) : List String → Nat → (Bool × Option GoError) × Nat
  | [], _ =>
    match scanErr with
    | some e =>
      ((false, some (.wrap ("error reading file " ++ filePath ++ ": " ++ e.Error) e)), 0)
    | none => ((false, none), 0)
  | line :: rest, lineCount =>
    if lineCount % 10000 = 0 ∧ ctx.done lineCount = true then
      ((false, some (.ctx ctx.err)), 1)
    else if strings.TrimSpace line = targetCode then
      ((true, none), 1)
    else
      ((PromoRepository.scanLoopRead ctx filePath targetCode scanErr rest (lineCount + 1)).1,
        (PromoRepository.scanLoopRead ctx filePath targetCode scanErr rest (lineCount + 1)).2 + 1)

/-- Go `(*PromoRepository).scanFileForCode(ctx, filePath, targetCode)` with the number of lines
it reads. -/
def PromoRepository.scanFileForCodeRead (fs : FileSystem) (ctx : CtxView)
    (filePath targetCode : String) : (Bool × Option GoError) × Nat :=
  match (fs filePath).openErr with
  | some e => ((false, some (.wrap ("failed to open file " ++ filePath ++ ": " ++ e.Error) e)), 0)
  | none =>
    PromoRepository.scanLoopRead ctx filePath targetCode (fs filePath).scanErr
      (fs filePath).lines 0

/-- Go `(*PromoService).ValidatePromoCode(ctx, code)` together with the codes it passes to
`promoRepo.ValidateCode`, one entry for each call. -/
def PromoService.ValidatePromoCodeLog (promoRepo : Context → String → Bool × Option GoError)
    (ctx : Context) (code : String) : (Bool × Option GoError) × List String :=
  if len code < 8 then ((false, none), [])
  else if len code > 10 then ((false, none), [])
  else
    match promoRepo ctx code with
    | (_, some err) =>
      ((false, some (.wrap ("failed to validate promo code: " ++ err.Error) err)), [code])
    | (exists_, none) => ((exists_, none), [code])

/-! ## Concrete data used by the instances below -/

/-- Three coupon files under the default names of `config.Load`, and no other file. -/
def demoFs : FileSystem := fun path =>
  if path = "couponbase1.txt" then ⟨none, ["HAPPYHRS", " FIFTYOFF "], none⟩
  else if path = "couponbase2.txt" then ⟨none, ["SUMMERSALE", "FIFTYOFF\t"], none⟩
  else if path = "couponbase3.txt" then ⟨none, ["HAPPYHRS", "WINTERSALE"], none⟩
  else ⟨some (.os "no such file or directory"), [], none⟩

/-- The default coupon files of `config.Load`. -/
def demoPaths : List String := ["couponbase1.txt", "couponbase2.txt", "couponbase3.txt"]

/-- A schedule in which the results arrive in the order 2, 0, 1. -/
def demoSched : Schedule := ⟨[2, 0, 1], fun _ => false⟩

/-- The default coupon files with the second one replaced by a path that does not exist. -/
def demoPathsMissing : List String := ["couponbase1.txt", "missing.txt", "couponbase2.txt"]

/-- A schedule in which the results arrive in the order 0, 1, 2. -/
def demoSchedInOrder : Schedule := ⟨[0, 1, 2], fun _ => false⟩

/-- Exact rational arithmetic standing in for `float64` in the instances. -/
def exactOps : Float64Ops ℚ where
  zero := 0
  tenth := 1 / 10
  lit := fun m d => (m : ℚ) / (10 : ℚ) ^ d
  add := fun x y => x + y
  sub := fun x y => x - y
  mul := fun x y => x * y
  ofInt := fun n => (n : ℚ)

/-- The order service of `main.go` over the built-in catalog and the three default files. -/
def demoService : OrderService ℚ :=
  wiredOrderService (getSampleProducts exactOps) demoPaths demoFs demoSched

/-- The order service of `main.go` over the built-in catalog and the three default files, in
`float64` arithmetic. -/
def demoServiceF64 : OrderService Float64 :=
  wiredOrderService (getSampleProducts float64Ops) demoPaths demoFs demoSched

/-- A context that is not done at the first poll of a scan and is done at every later one. -/
def cancelledAfterFirstPoll : CtxView := ⟨fun t => decide (1 ≤ t), .Canceled⟩

/-- A file system whose every path holds 10001 lines, none of them a coupon code. -/
def longFs : FileSystem := fun _ => ⟨none, List.replicate 10001 "NOTACODE", none⟩

/-- A repository of `ValidateCode` configured with a single coupon file. -/
def misconfiguredRepo (ctx : Context) (code : String) : Bool × Option GoError :=
  PromoRepository.ValidateCode ⟨["couponbase1.txt"]⟩ demoFs ctx demoSched code

/-- The repository of `ValidateCode` over the three default coupon files. -/
def demoRepo (ctx : Context) (code : String) : Bool × Option GoError :=
  PromoRepository.ValidateCode ⟨demoPaths⟩ demoFs ctx demoSched code

/-- A catalog of two products with the prices 50.00 and 0. -/
def roundPriceCatalog : List (Product Float64) :=
  [ { ID := "20", Name := "Gift card 50", Price := float64Ops.lit 5000 2, Category := "Card",
      Image := sampleImage },
    { ID := "21", Name := "Free sample", Price := float64Ops.lit 0 0, Category := "Sample",
      Image := sampleImage } ]

/-- The order service of `main.go` over `roundPriceCatalog` and the three default files. -/
def roundPriceService : OrderService Float64 :=
  wiredOrderService roundPriceCatalog demoPaths demoFs demoSched

/-- The vote a scan result casts: found, and no error. -/
def goodVote (r : scanResult) : Bool := r.err.isNone && r.found

/-! ## Lemmas on the scan loop -/

theorem scanLoop_never (ctx : CtxView) (hctx : ∀ t, ctx.done t = false)
    (filePath targetCode : String) (scanErr : Option GoError) (lines : List String) (k : Nat) :
    PromoRepository.scanLoop ctx filePath targetCode scanErr lines k =
      if hasCode lines targetCode = true then (true, none)
      else PromoRepository.scanLoop ctx filePath targetCode scanErr [] 0 := by
  induction lines generalizing k with
  | nil => simp [hasCode, PromoRepository.scanLoop]
  | cons line rest ih =>
    by_cases h : strings.TrimSpace line = targetCode
    · simp [PromoRepository.scanLoop, hasCode, hctx, h]
    · have := ih (k + 1)
      simp only [hasCode] at this
      simp [PromoRepository.scanLoop, hasCode, hctx, h, this]

theorem scanLoop_nil_fst (ctx : CtxView) (filePath targetCode : String)
    (scanErr : Option GoError) (k : Nat) :
    (PromoRepository.scanLoop ctx filePath targetCode scanErr [] k).1 = false := by
  cases scanErr <;> rfl

theorem hasCode_iff (lines : List String) (targetCode : String) :
    hasCode lines targetCode = true ↔ ∃ line ∈ lines, strings.TrimSpace line = targetCode := by
  simp [hasCode]

theorem scanFile_never (fs : FileSystem) (ctx : CtxView) (hctx : ∀ t, ctx.done t = false)
    (filePath targetCode : String) (hopen : (fs filePath).openErr = none) :
    PromoRepository.scanFileForCode fs ctx filePath targetCode =
      if hasCode (fs filePath).lines targetCode = true then (true, none)
      else PromoRepository.scanLoop ctx filePath targetCode (fs filePath).scanErr [] 0 := by
  unfold PromoRepository.scanFileForCode
  rw [hopen]
  exact scanLoop_never ctx hctx filePath targetCode _ _ 0

theorem scanFile_openErr_fst (fs : FileSystem) (ctx : CtxView) (filePath targetCode : String)
    (hopen : (fs filePath).openErr ≠ none) :
    (PromoRepository.scanFileForCode fs ctx filePath targetCode).1 = false ∧
      (PromoRepository.scanFileForCode fs ctx filePath targetCode).2 ≠ none := by
  unfold PromoRepository.scanFileForCode
  cases h : (fs filePath).openErr with
  | none => exact absurd h hopen
  | some e => simp

/-- C2: with a context that is never cancelled, the scan of a file that opens reports
`found = true` exactly when some line equals the target code after trimming; and when the first
such line is reached the scan returns `(true, nil)` whatever lines follow it. -/
theorem C2_scanFileForCode_found_iff (fs : FileSystem) (ctx : CtxView)
    (filePath targetCode : String) (hctx : ∀ t, ctx.done t = false)
    (hopen : (fs filePath).openErr = none) :
    ((PromoRepository.scanFileForCode fs ctx filePath targetCode).1 = true ↔
        ∃ line ∈ (fs filePath).lines, strings.TrimSpace line = targetCode) ∧
      ∀ before line after, (fs filePath).lines = before ++ line :: after →
        (∀ l ∈ before, strings.TrimSpace l ≠ targetCode) →
        strings.TrimSpace line = targetCode →
        PromoRepository.scanFileForCode fs ctx filePath targetCode = (true, none) ∧
          PromoRepository.scanLoop ctx filePath targetCode none (before ++ [line]) 0 =
            (true, none) := by
  have hscan := scanFile_never fs ctx hctx filePath targetCode hopen
  refine ⟨?_, ?_⟩
  · rw [hscan, ← hasCode_iff]
    by_cases h : hasCode (fs filePath).lines targetCode = true
    · simp [h]
    · simp [h, scanLoop_nil_fst]
  · intro before line after hlines _ hline
    have h1 : hasCode (fs filePath).lines targetCode = true := by
      rw [hasCode_iff]
      exact ⟨line, by simp [hlines], hline⟩
    have h2 : hasCode (before ++ [line]) targetCode = true := by
      rw [hasCode_iff]
      exact ⟨line, by simp, hline⟩
    refine ⟨by rw [hscan, if_pos h1], ?_⟩
    rw [scanLoop_never ctx hctx, if_pos h2]

/-- C2, instance: the scan of `couponbase1.txt` for `FIFTYOFF`. -/
theorem C2_scanFileForCode_found_iff_witness :
    ((PromoRepository.scanFileForCode demoFs ⟨fun _ => false, .Canceled⟩ "couponbase1.txt"
          "FIFTYOFF").1 = true ↔
        ∃ line ∈ (demoFs "couponbase1.txt").lines, strings.TrimSpace line = "FIFTYOFF") ∧
      ∀ before line after, (demoFs "couponbase1.txt").lines = before ++ line :: after →
        (∀ l ∈ before, strings.TrimSpace l ≠ "FIFTYOFF") →
        strings.TrimSpace line = "FIFTYOFF" →
        PromoRepository.scanFileForCode demoFs ⟨fun _ => false, .Canceled⟩ "couponbase1.txt"
            "FIFTYOFF" = (true, none) ∧
          PromoRepository.scanLoop ⟨fun _ => false, .Canceled⟩ "couponbase1.txt" "FIFTYOFF" none
            (before ++ [line]) 0 = (true, none) :=
  C2_scanFileForCode_found_iff demoFs ⟨fun _ => false, .Canceled⟩ "couponbase1.txt" "FIFTYOFF"
    (fun _ => rfl) (by decide)

/-! ## Lemmas on the aggregation loop -/

theorem aggregate_never (ctx : Context) (h : ∀ i, ctx.selectDone i = false)
    (pickDone : Nat → Bool) (pending : List scanResult) (i filesWithCode : Nat) :
    (PromoRepository.aggregate ctx pickDone pending i filesWithCode).1 =
      (decide (2 ≤ filesWithCode + pending.countP goodVote), none) := by
  induction pending generalizing i filesWithCode with
  | nil => simp [PromoRepository.aggregate]
  | cons result rest ih =>
    rw [PromoRepository.aggregate, List.countP_cons]
    simp only [h, Bool.false_eq_true, false_and, if_false]
    cases herr : result.err with
    | some e => simp [goodVote, herr, ih]
    | none =>
      by_cases hfound : result.found = true
      · by_cases hq : filesWithCode + 1 ≥ 2
        · have : 2 ≤ filesWithCode + (rest.countP goodVote + 1) := by omega
          simp [goodVote, herr, hfound, hq, this]
        · simp [goodVote, herr, hfound, hq, ih]; omega
      · simp [goodVote, herr, hfound, ih]

theorem countP_filterMap_range {α β : Type} (p : β → Bool) (q : α → Bool) (l : List α)
    (f : Nat → Option β) (h : ∀ i, ((f i).map p).getD false = ((l[i]?).map q).getD false) :
    ((List.range l.length).filterMap f).countP p = l.countP q := by
  induction l generalizing f with
  | nil => simp
  | cons a rest ih =>
    have h0 := h 0
    have hrest := ih (f ∘ Nat.succ) (fun i => by simpa using h (i + 1))
    rw [List.length_cons, List.range_succ_eq_map, List.filterMap_cons, List.filterMap_map]
    simp only [List.getElem?_cons_zero, Option.map_some', Option.getD_some] at h0
    cases hf : f 0 with
    | none =>
      rw [hf] at h0
      simp only [Option.map_none', Option.getD_none] at h0
      simp [hrest, ← h0]
    | some b =>
      rw [hf] at h0
      simp only [Option.map_some', Option.getD_some] at h0
      simp [hrest, List.countP_cons, h0]

theorem goodVote_sent (r : PromoRepository) (fs : FileSystem) (ctx : Context) (code : String)
    (hctx : ctx.neverDone) (index : Nat) :
    ((PromoRepository.sent r fs ctx code index).map goodVote).getD false =
      ((r.filePaths[index]?).map (fileHasCode fs code)).getD false := by
  unfold PromoRepository.sent
  cases r.filePaths[index]? with
  | none => rfl
  | some path =>
    simp only [Option.map_some', Option.getD_some, goodVote, fileHasCode]
    cases hopen : (fs path).openErr with
    | some e =>
      have := scanFile_openErr_fst fs (ctx.scanView index) path code (by simp [hopen])
      simp [this.1]
    | none =>
      rw [scanFile_never fs (ctx.scanView index) (hctx.1 index) path code hopen]
      by_cases hc : hasCode (fs path).lines code = true
      · simp [hc]
      · simp [hc, scanLoop_nil_fst]

theorem validateCode_never (r : PromoRepository) (fs : FileSystem) (ctx : Context)
    (sched : Schedule) (code : String) (hlen : 2 ≤ r.filePaths.length) (hctx : ctx.neverDone)
    (harrival : sched.arrival.Perm (List.range r.filePaths.length)) :
    r.ValidateCode fs ctx sched code =
      (decide (2 ≤ r.filePaths.countP (fileHasCode fs code)), none) := by
  have hcount : (sched.arrival.filterMap (PromoRepository.sent r fs ctx code)).countP goodVote =
      r.filePaths.countP (fileHasCode fs code) := by
    rw [(harrival.filterMap _).countP_eq]
    exact countP_filterMap_range _ _ _ _ (goodVote_sent r fs ctx code hctx)
  have hagg := aggregate_never ctx hctx.2 sched.pickDone
    (sched.arrival.filterMap (PromoRepository.sent r fs ctx code)) 0 0
  rw [hcount, Nat.zero_add] at hagg
  unfold PromoRepository.ValidateCode PromoRepository.run
  rw [if_neg (by omega)]
  simp only [hagg]

theorem background_neverDone : Context.background.neverDone :=
  ⟨fun _ _ => rfl, fun _ => rfl⟩

theorem countP_hasCode_eq (fs : FileSystem) (code : String) (paths : List String)
    (hread : ∀ path ∈ paths, readable fs path) :
    paths.countP (fileHasCode fs code) = paths.countP fun path =>
      decide (∃ line ∈ (fs path).lines, strings.TrimSpace line = code) := by
  apply List.countP_congr
  intro path hpath
  simp [fileHasCode, (hread path hpath).1, hasCode]

/-- C1: with at least two coupon files, all readable, a context that is never cancelled and the
scan results arriving in any order, `ValidateCode` returns `(true, nil)` exactly when at least
two of the configured files contain a line that equals the code after trimming, and
`(false, nil)` exactly when fewer than two do (for three files: true with the code in two of
them, false with the code in one or none, whichever files and whichever arrival order). -/
theorem C1_validateCode_quorum (r : PromoRepository) (fs : FileSystem) (ctx : Context)
    (sched : Schedule) (code : String) (hlen : 2 ≤ r.filePaths.length)
    (hread : ∀ path ∈ r.filePaths, readable fs path) (hctx : ctx.neverDone)
    (harrival : sched.arrival.Perm (List.range r.filePaths.length)) :
    (r.ValidateCode fs ctx sched code = (true, none) ↔
        2 ≤ r.filePaths.countP fun path =>
          decide (∃ line ∈ (fs path).lines, strings.TrimSpace line = code)) ∧
      (r.ValidateCode fs ctx sched code = (false, none) ↔
        (r.filePaths.countP fun path =>
          decide (∃ line ∈ (fs path).lines, strings.TrimSpace line = code)) < 2) := by
  rw [validateCode_never r fs ctx sched code hlen hctx harrival,
    countP_hasCode_eq fs code r.filePaths hread]
  constructor
  · simp
  · simp

/-- C1, instance: the three default files, `FIFTYOFF` present in two of them, results arriving
in the order 2, 0, 1. -/
theorem C1_validateCode_quorum_witness :
    (PromoRepository.ValidateCode ⟨demoPaths⟩ demoFs Context.background demoSched "FIFTYOFF" =
        (true, none) ↔
        2 ≤ demoPaths.countP fun path =>
          decide (∃ line ∈ (demoFs path).lines, strings.TrimSpace line = "FIFTYOFF")) ∧
      (PromoRepository.ValidateCode ⟨demoPaths⟩ demoFs Context.background demoSched "FIFTYOFF" =
        (false, none) ↔
        (demoPaths.countP fun path =>
          decide (∃ line ∈ (demoFs path).lines, strings.TrimSpace line = "FIFTYOFF")) < 2) :=
  C1_validateCode_quorum ⟨demoPaths⟩ demoFs Context.background demoSched "FIFTYOFF"
    (by decide) (by unfold readable; decide) background_neverDone (by decide)

/-- C5: a repository with fewer than two coupon file paths answers every call, whatever the
code, the context and the schedule, with `valid = false` and the configuration error; no scan
goroutine is started and no scan result is received. -/
theorem C5_validateCode_config_error (r : PromoRepository) (fs : FileSystem) (ctx : Context)
    (sched : Schedule) (code : String) (hlen : r.filePaths.length < 2) :
    r.ValidateCode fs ctx sched code =
        (false, some (.fresh "at least 2 coupon files required for validation")) ∧
      (r.run fs ctx sched code).launched = [] ∧ (r.run fs ctx sched code).received = 0 := by
  simp [PromoRepository.ValidateCode, PromoRepository.run, hlen]

/-- C5, instance: a repository with the single file `couponbase1.txt` and a cancelled context. -/
theorem C5_validateCode_config_error_witness :
    PromoRepository.ValidateCode ⟨["couponbase1.txt"]⟩ demoFs Context.cancelled demoSched
        "FIFTYOFF" = (false, some (.fresh "at least 2 coupon files required for validation")) ∧
      (PromoRepository.run ⟨["couponbase1.txt"]⟩ demoFs Context.cancelled demoSched
        "FIFTYOFF").launched = [] ∧
      (PromoRepository.run ⟨["couponbase1.txt"]⟩ demoFs Context.cancelled demoSched
        "FIFTYOFF").received = 0 :=
  C5_validateCode_config_error ⟨["couponbase1.txt"]⟩ demoFs Context.cancelled demoSched
    "FIFTYOFF" (by decide)

theorem scanFile_true_iff (fs : FileSystem) (ctx : Context) (hctx : ctx.neverDone) (g : Nat)
    (path code : String) :
    PromoRepository.scanFileForCode fs (ctx.scanView g) path code = (true, none) ↔
      fileHasCode fs code path = true := by
  cases hopen : (fs path).openErr with
  | some e =>
    have h := (scanFile_openErr_fst fs (ctx.scanView g) path code (by simp [hopen])).1
    constructor
    · intro heq
      rw [heq] at h
      exact absurd h (by simp)
    · intro hfile
      simp [fileHasCode, hopen] at hfile
  | none =>
    rw [scanFile_never fs (ctx.scanView g) (hctx.1 g) path code hopen]
    by_cases hc : hasCode (fs path).lines code = true
    · simp [hc, fileHasCode, hopen]
    · have h := scanLoop_nil_fst (ctx.scanView g) path code (fs path).scanErr 0
      simp only [hc, fileHasCode, hopen, Bool.false_eq_true, if_false, Option.isNone_none,
        Bool.and_false, iff_false]
      intro heq
      rw [heq] at h
      exact absurd h (by simp)

/-- C6: with at least two coupon files, a context that is never cancelled and any arrival order,
`ValidateCode` returns no error however many scans fail with an I/O error; a scan votes
`found` exactly when its file opens and one of the lines it yields equals the code after
trimming, a failed scan votes nothing, and `valid` is true exactly when at least two scans vote
`found`. In particular the result is `(false, nil)` when no file can be opened. -/
theorem C6_validateCode_io_errors (r : PromoRepository) (fs : FileSystem) (ctx : Context)
    (sched : Schedule) (code : String) (hlen : 2 ≤ r.filePaths.length) (hctx : ctx.neverDone)
    (harrival : sched.arrival.Perm (List.range r.filePaths.length)) :
    r.ValidateCode fs ctx sched code =
        (decide (2 ≤ r.filePaths.countP (fileHasCode fs code)), none) ∧
      (∀ g path, PromoRepository.scanFileForCode fs (ctx.scanView g) path code = (true, none) ↔
        fileHasCode fs code path = true) ∧
      ((∀ path ∈ r.filePaths, (fs path).openErr ≠ none) →
        r.ValidateCode fs ctx sched code = (false, none)) := by
  have hmain := validateCode_never r fs ctx sched code hlen hctx harrival
  refine ⟨hmain, fun g path => scanFile_true_iff fs ctx hctx g path code, ?_⟩
  intro hall
  rw [hmain]
  have : r.filePaths.countP (fileHasCode fs code) = 0 := by
    rw [List.countP_eq_zero]
    intro path hpath
    have := hall path hpath
    cases hopen : (fs path).openErr with
    | none => exact absurd hopen this
    | some e => simp [fileHasCode, hopen]
  simp [this]

/-- C6, instance: three files, the second cannot be opened, `FIFTYOFF` is in the other two:
the result is `(true, nil)`. -/
theorem C6_validateCode_io_errors_witness :
    (demoFs "missing.txt").openErr ≠ none ∧
      PromoRepository.ValidateCode ⟨demoPathsMissing⟩ demoFs Context.background demoSched
        "FIFTYOFF" = (true, none) :=
  ⟨by decide,
    (C6_validateCode_io_errors ⟨demoPathsMissing⟩ demoFs Context.background demoSched "FIFTYOFF"
      (by decide) background_neverDone (by decide)).1.trans (by decide)⟩
/-- C7, failing run: the context is cancelled before the call, every scan returns the
cancellation error at its first poll, `select` takes the result case three times, and
`ValidateCode` returns `(false, nil)` although `FIFTYOFF` is in two of the three files. -/
theorem C7_cancelled_context_returns_false_nil :
    Context.cancelled.doneAtEntry ∧
      (∀ g, g < 3 → (PromoRepository.sent ⟨demoPaths⟩ demoFs Context.cancelled "FIFTYOFF" g).map
        (fun res => res.err) = some (some (.ctx .Canceled))) ∧
      PromoRepository.ValidateCode ⟨demoPaths⟩ demoFs Context.cancelled demoSchedInOrder
        "FIFTYOFF" = (false, none) := by
  refine ⟨⟨fun _ _ => rfl, fun _ => rfl⟩, ?_, by decide⟩
  decide

/-- C8, counterexample: with the three default files, results arriving in the order 0, 1, 2 and
the caller's context never cancelled, `ValidateCode` returns `(true, nil)` for `FIFTYOFF` after
two results; the third scan sees a context that is never done and ends at the end of its file
with `(false, nil)`: it observes no cancellation. -/
theorem C8_no_cancel_signal :
    PromoRepository.ValidateCode ⟨demoPaths⟩ demoFs Context.background demoSchedInOrder
        "FIFTYOFF" = (true, none) ∧
      (PromoRepository.run ⟨demoPaths⟩ demoFs Context.background demoSchedInOrder
        "FIFTYOFF").received = 2 ∧
      (∀ t, (Context.background.scanView 2).done t = false) ∧
      PromoRepository.sent ⟨demoPaths⟩ demoFs Context.background "FIFTYOFF" 2 =
        some ⟨2, false, none⟩ := by
  refine ⟨by decide, by decide, fun _ => rfl, by decide⟩

theorem scanFile_no_ctx_error (fs : FileSystem) (ctx : CtxView) (hctx : ∀ t, ctx.done t = false)
    (path code : String) (e : CtxErr) :
    (PromoRepository.scanFileForCode fs ctx path code).2 ≠ some (.ctx e) := by
  cases hopen : (fs path).openErr with
  | some err => simp [PromoRepository.scanFileForCode, hopen]
  | none =>
    rw [scanFile_never fs ctx hctx path code hopen]
    by_cases hc : hasCode (fs path).lines code = true
    · simp [hc]
    · cases hs : (fs path).scanErr <;> simp [hc, PromoRepository.scanLoop, hs]

/-- C8, amended: with a context that is never cancelled, when the first two results to arrive
are `found` votes, `ValidateCode` returns `(true, nil)` having received exactly two results,
whatever results would follow; it sends no signal to the other scans, which keep the caller's
context and never end with a cancellation error. -/
theorem C8_early_return_without_signal (r : PromoRepository) (fs : FileSystem) (ctx : Context)
    (sched : Schedule) (code : String) (a b : Nat) (rest : List Nat) (pathA pathB : String)
    (hlen : 2 ≤ r.filePaths.length) (hctx : ctx.neverDone)
    (harrival : sched.arrival = a :: b :: rest)
    (ha : r.filePaths[a]? = some pathA) (hb : r.filePaths[b]? = some pathB)
    (hfoundA : fileHasCode fs code pathA = true) (hfoundB : fileHasCode fs code pathB = true) :
    r.ValidateCode fs ctx sched code = (true, none) ∧
      (r.run fs ctx sched code).received = 2 ∧
      ∀ g path e,
        (PromoRepository.scanFileForCode fs (ctx.scanView g) path code).2 ≠ some (.ctx e) := by
  have hsa : PromoRepository.sent r fs ctx code a = some ⟨a, true, none⟩ := by
    simp [PromoRepository.sent, ha, (scanFile_true_iff fs ctx hctx a pathA code).2 hfoundA]
  have hsb : PromoRepository.sent r fs ctx code b = some ⟨b, true, none⟩ := by
    simp [PromoRepository.sent, hb, (scanFile_true_iff fs ctx hctx b pathB code).2 hfoundB]
  have hrun : ((r.run fs ctx sched code).valid, (r.run fs ctx sched code).err,
      (r.run fs ctx sched code).received) = (true, none, 2) := by
    unfold PromoRepository.run
    rw [if_neg (by omega), harrival, List.filterMap_cons_some hsa,
      List.filterMap_cons_some hsb]
    simp [PromoRepository.aggregate, hctx.2]
  simp only [Prod.mk.injEq] at hrun
  refine ⟨?_, hrun.2.2, fun g path e => scanFile_no_ctx_error fs _ (hctx.1 g) path code e⟩
  simp [PromoRepository.ValidateCode, hrun.1, hrun.2.1]

/-- C8, instance of the amended statement on the three default files. -/
theorem C8_early_return_without_signal_witness :
    Context.background.neverDone ∧
      PromoRepository.ValidateCode ⟨demoPaths⟩ demoFs Context.background demoSchedInOrder
        "FIFTYOFF" = (true, none) ∧
      (PromoRepository.run ⟨demoPaths⟩ demoFs Context.background demoSchedInOrder
        "FIFTYOFF").received = 2 ∧
      ∀ g path e, (PromoRepository.scanFileForCode demoFs (Context.background.scanView g) path
        "FIFTYOFF").2 ≠ some (.ctx e) :=
  ⟨background_neverDone,
    C8_early_return_without_signal ⟨demoPaths⟩ demoFs Context.background demoSchedInOrder
      "FIFTYOFF" 0 1 [2] "couponbase1.txt" "couponbase2.txt" (by decide) background_neverDone
      rfl (by decide) (by decide) (by decide) (by decide)⟩

/-! ## Lemmas on strings -/

theorem upper_toNat (c : Char) : (¬ c < 'A' ∧ ¬ c > 'Z') ↔ 65 ≤ c.toNat ∧ c.toNat ≤ 90 := by
  change (¬ c.val.toNat < 65 ∧ ¬ 90 < c.val.toNat) ↔ 65 ≤ c.val.toNat ∧ c.val.toNat ≤ 90
  omega

theorem utf8Size_ascii (c : Char) (h : c.toNat ≤ 127) : c.utf8Size = 1 := by
  have : c.val ≤ UInt32.ofNatCore 127 (by decide) := h
  unfold Char.utf8Size
  simp only [this, if_true]

theorem utf8ByteSize_go_ascii (l : List Char) (h : ∀ c ∈ l, c.toNat ≤ 127) :
    String.utf8ByteSize.go l = l.length := by
  induction l with
  | nil => rfl
  | cons c rest ih =>
    simp only [String.utf8ByteSize.go, List.length_cons]
    rw [ih (fun d hd => h d (List.mem_cons_of_mem _ hd)),
      utf8Size_ascii c (h c (List.mem_cons_self _ _))]

theorem len_ascii (s : String) (h : ∀ c ∈ s.data, c.toNat ≤ 127) : len s = s.length := by
  cases s with
  | mk data => exact utf8ByteSize_go_ascii data h

theorem isSpace_not_upper (c : Char) (h : unicode.IsSpace c = true) :
    ¬ (65 ≤ c.toNat ∧ c.toNat ≤ 90) := by
  rintro ⟨h1, h2⟩
  have : c.toNat ≤ 0xFF := by omega
  simp only [unicode.IsSpace, this, if_true, Bool.or_eq_true, beq_iff_eq] at h
  omega
theorem upper_iff (c : Char) : ('A' ≤ c ∧ c ≤ 'Z') ↔ 65 ≤ c.toNat ∧ c.toNat ≤ 90 := by
  change (65 ≤ c.val.toNat ∧ c.val.toNat ≤ 90) ↔ 65 ≤ c.val.toNat ∧ c.val.toNat ≤ 90
  exact Iff.rfl

theorem mem_dropWhile_of_not {α : Type} (p : α → Bool) (l : List α) (c : α) (hc : c ∈ l)
    (hp : p c = false) : c ∈ l.dropWhile p := by
  induction l with
  | nil => exact absurd hc (List.not_mem_nil c)
  | cons a rest ih =>
    by_cases ha : p a = true
    · rw [List.dropWhile_cons_of_pos ha]
      rcases List.mem_cons.1 hc with rfl | hrest
      · rw [hp] at ha
        exact absurd ha (by simp)
      · exact ih hrest
    · rw [List.dropWhile_cons_of_neg ha]
      exact hc

theorem mem_rdropWhile_of_not {α : Type} (p : α → Bool) (l : List α) (c : α) (hc : c ∈ l)
    (hp : p c = false) : c ∈ l.rdropWhile p := by
  unfold List.rdropWhile
  rw [List.mem_reverse]
  exact mem_dropWhile_of_not p l.reverse c (List.mem_reverse.2 hc) hp

theorem mem_trimSpace (s : String) (c : Char) (hc : c ∈ s.data)
    (hp : unicode.IsSpace c = false) : c ∈ (strings.TrimSpace s).data :=
  mem_rdropWhile_of_not _ _ c (mem_dropWhile_of_not _ _ c hc hp) hp

theorem trimSpace_all_space (s : String) (h : ∀ c ∈ s.data, unicode.IsSpace c = true) :
    strings.TrimSpace s = "" := by
  have : s.data.dropWhile unicode.IsSpace = [] := List.dropWhile_eq_nil_iff.2 h
  unfold strings.TrimSpace
  rw [this]
  rfl

theorem validateFormat_none_iff (couponCode : String) :
    OrderService.validateCouponCodeFormat couponCode = none ↔
      strings.TrimSpace couponCode ≠ "" ∧ 8 ≤ len (strings.TrimSpace couponCode) ∧
        len (strings.TrimSpace couponCode) ≤ 10 ∧
        ∀ c ∈ (strings.TrimSpace couponCode).data, 65 ≤ c.toNat ∧ c.toNat ≤ 90 := by
  unfold OrderService.validateCouponCodeFormat
  simp only []
  by_cases h0 : strings.TrimSpace couponCode = ""
  · simp [h0]
  by_cases h1 : len (strings.TrimSpace couponCode) < 8
  · simp only [h0, h1, if_true, if_false]
    constructor
    · intro h
      exact absurd h (by simp)
    · intro h
      omega
  by_cases h2 : len (strings.TrimSpace couponCode) > 10
  · simp only [h0, h1, h2, if_true, if_false]
    constructor
    · intro h
      exact absurd h (by simp)
    · intro h
      omega
  simp only [h0, h1, h2, if_false]
  by_cases h3 : (strings.TrimSpace couponCode).data.any
      (fun char => decide (char < 'A') || decide (char > 'Z')) = true
  · simp only [h3, if_true]
    constructor
    · intro h
      exact absurd h (by simp)
    · rintro ⟨_, _, _, hall⟩
      obtain ⟨c, hc, hbad⟩ := List.any_eq_true.1 h3
      have := (upper_toNat c).2 (hall c hc)
      simp only [Bool.or_eq_true, decide_eq_true_eq] at hbad
      rcases hbad with hb | hb
      · exact absurd hb this.1
      · exact absurd hb this.2
  · simp only [h3, if_false, Bool.false_eq_true, true_iff]
    refine ⟨h0, by omega, by omega, ?_⟩
    intro c hc
    apply (upper_toNat c).1
    by_contra hcon
    apply h3
    apply List.any_eq_true.2
    refine ⟨c, hc, ?_⟩
    simp only [Bool.or_eq_true, decide_eq_true_eq]
    by_cases hlt : c < 'A'
    · exact Or.inl hlt
    · by_cases hgt : c > 'Z'
      · exact Or.inr hgt
      · exact absurd ⟨hlt, hgt⟩ hcon

theorem len_of_upper (s : String) (h : ∀ c ∈ s.data, 65 ≤ c.toNat ∧ c.toNat ≤ 90) :
    len s = s.length :=
  len_ascii s fun c hc => by have := h c hc; omega

/-- C3: `validateCouponCodeFormat` returns no error exactly when the trimmed code has between 8
and 10 characters, all of them uppercase ASCII letters. Hence it rejects a code that is empty or
all white space, a code with a character that is neither white space nor in `A`-`Z` (lowercase
letter, digit, symbol), and a code whose trimmed form still holds white space. -/
theorem C3_validateCouponCodeFormat_accepts_iff (couponCode : String) :
    (OrderService.validateCouponCodeFormat couponCode = none ↔
        8 ≤ (strings.TrimSpace couponCode).length ∧
          (strings.TrimSpace couponCode).length ≤ 10 ∧
          ∀ c ∈ (strings.TrimSpace couponCode).data, 'A' ≤ c ∧ c ≤ 'Z') ∧
      ((∀ c ∈ couponCode.data, unicode.IsSpace c = true) →
        OrderService.validateCouponCodeFormat couponCode ≠ none) ∧
      (∀ c ∈ couponCode.data, unicode.IsSpace c = false → ¬ ('A' ≤ c ∧ c ≤ 'Z') →
        OrderService.validateCouponCodeFormat couponCode ≠ none) ∧
      (∀ c ∈ (strings.TrimSpace couponCode).data, unicode.IsSpace c = true →
        OrderService.validateCouponCodeFormat couponCode ≠ none) := by
  have hiff := validateFormat_none_iff couponCode
  refine ⟨?_, ?_, ?_, ?_⟩
  · rw [hiff]
    simp only [upper_iff]
    constructor
    · rintro ⟨_, h8, h10, hall⟩
      rw [len_of_upper _ hall] at h8 h10
      exact ⟨h8, h10, hall⟩
    · rintro ⟨h8, h10, hall⟩
      rw [len_of_upper _ hall]
      refine ⟨?_, h8, h10, hall⟩
      intro hempty
      rw [hempty] at h8
      exact absurd h8 (by decide)
  · intro hall hnone
    exact (hiff.1 hnone).1 (trimSpace_all_space couponCode hall)
  · intro c hc hsp hup hnone
    exact hup ((upper_iff c).2 ((hiff.1 hnone).2.2.2 c (mem_trimSpace couponCode c hc hsp)))
  · intro c hc hsp hnone
    exact isSpace_not_upper c hsp ((hiff.1 hnone).2.2.2 c hc)

/-- C4, counterexample: `ÉÉÉÉÉ` has 5 characters (10 bytes) and is not answered with
`ErrPromoCodeTooShort`; eight `É` are 8 characters (16 bytes) and are answered with
`ErrPromoCodeTooLong`. -/
theorem C4_characters_counterexample :
    strings.TrimSpace "ÉÉÉÉÉ" ≠ "" ∧ (strings.TrimSpace "ÉÉÉÉÉ").length = 5 ∧
      OrderService.validateCouponCodeFormat "ÉÉÉÉÉ" ≠ some (.sentinel .ErrPromoCodeTooShort) ∧
      (strings.TrimSpace "ÉÉÉÉÉÉÉÉ").length = 8 ∧
      OrderService.validateCouponCodeFormat "ÉÉÉÉÉÉÉÉ" =
        some (.sentinel .ErrPromoCodeTooLong) := by
  decide

/-- C4, amended: for a code whose trimmed form is not empty, `validateCouponCodeFormat` returns
`ErrPromoCodeTooShort` exactly when the trimmed code is shorter than 8 bytes (Go `len`) and
`ErrPromoCodeTooLong` exactly when it is longer than 10 bytes, so a trimmed code of 8 to 10
bytes yields neither; for a trimmed code of ASCII characters the byte length is the number of
characters. -/
theorem C4_length_errors_by_byte_length (couponCode : String)
    (hne : strings.TrimSpace couponCode ≠ "") :
    (OrderService.validateCouponCodeFormat couponCode = some (.sentinel .ErrPromoCodeTooShort) ↔
        len (strings.TrimSpace couponCode) < 8) ∧
      (OrderService.validateCouponCodeFormat couponCode = some (.sentinel .ErrPromoCodeTooLong) ↔
        10 < len (strings.TrimSpace couponCode)) ∧
      ((∀ c ∈ (strings.TrimSpace couponCode).data, c.toNat ≤ 127) →
        len (strings.TrimSpace couponCode) = (strings.TrimSpace couponCode).length) := by
  refine ⟨?_, ?_, len_ascii _⟩
  · unfold OrderService.validateCouponCodeFormat
    simp only [hne, if_false]
    by_cases h1 : len (strings.TrimSpace couponCode) < 8
    · simp [h1]
    · simp only [h1, if_false, iff_false]
      split_ifs <;> simp
  · unfold OrderService.validateCouponCodeFormat
    simp only [hne, if_false]
    by_cases h1 : len (strings.TrimSpace couponCode) < 8
    · simp only [h1, if_true]
      constructor
      · intro h
        exact absurd h (by simp)
      · intro h
        omega
    · by_cases h2 : len (strings.TrimSpace couponCode) > 10
      · simp [h1, h2]
      · have h3 : ¬ 10 < len (strings.TrimSpace couponCode) := h2
        simp only [h1, h2, h3, if_false, iff_false]
        split_ifs <;> simp

/-- C4, instance of the amended statement: the seven-letter code `SUMMERS`. -/
theorem C4_length_errors_by_byte_length_witness :
    strings.TrimSpace " SUMMERS " ≠ "" ∧
      OrderService.validateCouponCodeFormat " SUMMERS " =
        some (.sentinel .ErrPromoCodeTooShort) :=
  ⟨by decide,
    (C4_length_errors_by_byte_length " SUMMERS " (by decide)).1.2 (by decide)⟩

/-! ## Lemmas on order validation -/

theorem itemValidate_none_iff (o : OrderItem) :
    o.Validate = none ↔ strings.TrimSpace o.ProductID ≠ "" ∧ 1 ≤ o.Quantity := by
  unfold OrderItem.Validate
  by_cases h1 : strings.TrimSpace o.ProductID = ""
  · simp [h1]
  · by_cases h2 : o.Quantity ≤ 0
    · simp only [h1, h2, if_true, if_false]
      constructor
      · intro h
        exact absurd h (by simp)
      · rintro ⟨_, h⟩
        omega
    · simp only [h1, h2, if_false, ne_eq, not_false_eq_true, true_and, true_iff]
      omega

theorem validateItems_none_iff (items : List OrderItem) (base : Nat) :
    OrderRequest.validateItems items base = none ↔ ∀ item ∈ items, item.Validate = none := by
  induction items generalizing base with
  | nil => simp [OrderRequest.validateItems]
  | cons item rest ih =>
    unfold OrderRequest.validateItems
    cases h : item.Validate with
    | some err => simp [h]
    | none => simp [h, ih]

theorem validateItems_first (items : List OrderItem) (base i : Nat) (item : OrderItem)
    (hi : items[i]? = some item) (hbad : item.Validate ≠ none) :
    ∃ j bad inner, j ≤ i ∧ items[j]? = some bad ∧ bad.Validate = some inner ∧
      (∀ k it, k < j → items[k]? = some it → it.Validate = none) ∧
      OrderRequest.validateItems items base =
        some (.wrap ("item at index " ++ toString (base + j) ++ ": " ++ inner.Error) inner) := by
  induction items generalizing base i with
  | nil => simp at hi
  | cons head rest ih =>
    cases hhead : head.Validate with
    | some inner =>
      refine ⟨0, head, inner, Nat.zero_le _, List.getElem?_cons_zero, hhead, ?_, ?_⟩
      · intro k it hk
        exact absurd hk (Nat.not_lt_zero k)
      · simp [OrderRequest.validateItems, hhead]
    | none =>
      cases i with
      | zero =>
        simp only [List.getElem?_cons_zero, Option.some.injEq] at hi
        rw [hi] at hhead
        exact absurd hhead hbad
      | succ i =>
        rw [List.getElem?_cons_succ] at hi
        obtain ⟨j, bad, inner, hj, hget, hval, hbefore, hres⟩ := ih (base + 1) i hi
        refine ⟨j + 1, bad, inner, by omega, by simpa using hget, hval, ?_, ?_⟩
        · intro k it hk hkget
          cases k with
          | zero =>
            simp only [List.getElem?_cons_zero, Option.some.injEq] at hkget
            rw [← hkget]
            exact hhead
          | succ k =>
            rw [List.getElem?_cons_succ] at hkget
            exact hbefore k it (by omega) hkget
        · rw [OrderRequest.validateItems, hhead]
          simp only [hres]
          rw [show base + 1 + j = base + (j + 1) by omega]

theorem requestValidate_none_iff (req : OrderRequest) :
    req.Validate = none ↔ req.Items ≠ [] ∧ ∀ item ∈ req.Items, item.Validate = none := by
  unfold OrderRequest.Validate
  by_cases h : req.Items.length = 0
  · have : req.Items = [] := List.length_eq_zero.1 h
    simp [this]
  · have : req.Items ≠ [] := fun hnil => h (by simp [hnil])
    simp [h, this, validateItems_none_iff]

theorem placeOrder_of_invalid {F : Type} (s : OrderService F) (ops : Float64Ops F) (now : Int)
    (ctx : Context) (req : OrderRequest) (inner : GoError) (h : req.Validate = some inner) :
    s.PlaceOrder ops now ctx req =
      .error (.wrap ("invalid order request" ++ ": " ++ inner.Error)
        (.sentinel .ErrInvalidOrderRequest)) := by
  simp [OrderService.PlaceOrder, OrderService.validateOrderRequest, h, Sentinel.Error]

theorem map_invalid_request (msg : String) :
    MapErrorToAPIError (some (.wrap msg (.sentinel .ErrInvalidOrderRequest))) =
      NewAPIError 400 msg := by
  simp [MapErrorToAPIError, errors.Is, GoError.Error]
theorem aggregate_err (ctx : Context) (pickDone : Nat → Bool) (pending : List scanResult)
    (i filesWithCode : Nat) :
    (PromoRepository.aggregate ctx pickDone pending i filesWithCode).1.2 = none ∨
      (PromoRepository.aggregate ctx pickDone pending i filesWithCode).1.2 =
        some (.ctx ctx.err) := by
  induction pending generalizing i filesWithCode with
  | nil => simp [PromoRepository.aggregate]
  | cons result rest ih =>
    rw [PromoRepository.aggregate]
    by_cases hsel : ctx.selectDone i = true ∧ pickDone i = true
    · simp [hsel]
    · simp only [hsel, if_false]
      cases herr : result.err with
      | some e => exact ih _ _
      | none =>
        simp only []
        by_cases hfound : result.found = true
        · by_cases hq : filesWithCode + 1 ≥ 2
          · simp [hfound, hq]
          · simp only [hfound, hq, if_true, if_false]
            exact ih _ _
        · simp only [hfound, if_false]
          exact ih _ _

theorem validateCode_err_not_is (r : PromoRepository) (fs : FileSystem) (ctx : Context)
    (sched : Schedule) (code : String) (e : GoError) (target : Sentinel)
    (h : (r.ValidateCode fs ctx sched code).2 = some e) : errors.Is e target = false := by
  unfold PromoRepository.ValidateCode PromoRepository.run at h
  by_cases hlen : r.filePaths.length < 2
  · simp only [hlen, if_true, Option.some.injEq] at h
    rw [← h]
    rfl
  · simp only [hlen, if_false] at h
    rcases aggregate_err ctx sched.pickDone
      (sched.arrival.filterMap (PromoRepository.sent r fs ctx code)) 0 0 with hn | hc
    · rw [hn] at h
      exact absurd h (by simp)
    · rw [hc] at h
      simp only [Option.some.injEq] at h
      rw [← h]
      rfl

theorem promoService_err_not_is (promoRepo : Context → String → Bool × Option GoError)
    (target : Sentinel)
    (hrepo : ∀ ctx code e, (promoRepo ctx code).2 = some e → errors.Is e target = false)
    (ctx : Context) (code : String) (e : GoError)
    (h : (PromoService.ValidatePromoCode promoRepo ctx code).2 = some e) :
    errors.Is e target = false := by
  unfold PromoService.ValidatePromoCode at h
  by_cases h1 : len code < 8
  · simp [h1] at h
  by_cases h2 : len code > 10
  · simp [h1, h2] at h
  simp only [h1, h2, if_false] at h
  cases hres : promoRepo ctx code with
  | mk valid err =>
    cases err with
    | none =>
      rw [hres] at h
      simp at h
    | some inner =>
      rw [hres] at h
      simp only [Option.some.injEq] at h
      rw [← h]
      simp only [errors.Is]
      exact hrepo ctx code inner (by rw [hres])

theorem calculateLoop_err {F : Type} (s : OrderService F) (ops : Float64Ops F) (ctx : Context)
    (items : List OrderItem) (idx : Nat) (orderProducts : List (Product F)) (totalAmount : F)
    (e : GoError)
    (h : OrderService.calculateLoop s ops ctx items idx orderProducts totalAmount = .error e) :
    errors.Is e .ErrInvalidProductID = true := by
  induction items generalizing idx orderProducts totalAmount with
  | nil => simp [OrderService.calculateLoop] at h
  | cons item rest ih =>
    rw [OrderService.calculateLoop] at h
    cases hrepo : s.productRepo ctx item.ProductID with
    | error err =>
      rw [hrepo] at h
      simp only [Except.error.injEq] at h
      rw [← h]
      rfl
    | ok product =>
      rw [hrepo] at h
      exact ih _ _ _ h

theorem is_unique (e : GoError) (a b : Sentinel) (ha : errors.Is e a = true)
    (hb : errors.Is e b = true) : a = b := by
  induction e with
  | sentinel s =>
    simp only [errors.Is, decide_eq_true_eq] at ha hb
    rw [← ha, ← hb]
  | wrap msg inner ih => exact ih ha hb
  | fresh msg => simp [errors.Is] at ha
  | ctx c => simp [errors.Is] at ha
  | os msg => simp [errors.Is] at ha
  | api x => simp [errors.Is] at ha

theorem applyPromo_err {F : Type} (s : OrderService F) (ops : Float64Ops F) (ctx : Context)
    (couponCode : String) (totalAmount : F) (e : GoError)
    (hps : ∀ ctx code err, (s.promoService ctx code).2 = some err →
      errors.Is err .ErrInvalidOrderRequest = false)
    (h : s.applyPromoCodeDiscount ops ctx couponCode totalAmount = .error e) :
    errors.Is e .ErrInvalidOrderRequest = false := by
  unfold OrderService.applyPromoCodeDiscount at h
  split_ifs at h
  cases hres : s.promoService ctx couponCode with
  | mk valid err =>
    rw [hres] at h
    cases err with
    | some inner =>
      simp only [Except.error.injEq] at h
      rw [← h]
      simp only [errors.Is]
      exact hps ctx couponCode inner (by rw [hres])
    | none =>
      simp only [] at h
      split_ifs at h
      simp only [Except.error.injEq] at h
      rw [← h]
      rfl

theorem placeOrder_valid_not_is {F : Type} (s : OrderService F) (ops : Float64Ops F)
    (now : Int) (ctx : Context) (req : OrderRequest) (e : GoError)
    (hps : ∀ ctx code err, (s.promoService ctx code).2 = some err →
      errors.Is err .ErrInvalidOrderRequest = false)
    (hvalid : req.Validate = none) (h : s.PlaceOrder ops now ctx req = .error e) :
    errors.Is e .ErrInvalidOrderRequest = false := by
  unfold OrderService.PlaceOrder at h
  cases hreq : OrderService.validateOrderRequest req with
  | some err =>
    rw [hreq] at h
    simp only [Except.error.injEq] at h
    rw [← h]
    unfold OrderService.validateOrderRequest at hreq
    rw [hvalid] at hreq
    simp only [] at hreq
    split_ifs at hreq
    cases hfmt : OrderService.validateCouponCodeFormat req.CouponCode with
    | none => simp [hfmt] at hreq
    | some ferr =>
      simp only [hfmt, Option.some.injEq] at hreq
      rw [← hreq]
      rfl
  | none =>
    rw [hreq] at h
    simp only [] at h
    cases hcalc : s.validateAndCalculateItems ops ctx req.Items with
    | error err =>
      rw [hcalc] at h
      simp only [Except.error.injEq] at h
      rw [← h]
      have := calculateLoop_err s ops ctx req.Items 0 [] ops.zero err hcalc
      cases hIs : errors.Is err .ErrInvalidOrderRequest with
      | false => rfl
      | true => exact absurd (is_unique err _ _ this hIs) (by decide)
    | ok res =>
      rw [hcalc] at h
      simp only [] at h
      cases hdisc : s.applyPromoCodeDiscount ops ctx req.CouponCode res.2 with
      | error err =>
        rw [hdisc] at h
        simp only [Except.error.injEq] at h
        rw [← h]
        exact applyPromo_err s ops ctx req.CouponCode res.2 err hps hdisc
      | ok d =>
        rw [hdisc] at h
        simp at h
theorem wired_promo_not_is {F : Type} (products : List (Product F)) (filePaths : List String)
    (fs : FileSystem) (sched : Schedule) (ctx : Context) (code : String) (err : GoError)
    (h : ((wiredOrderService products filePaths fs sched).promoService ctx code).2 = some err) :
    errors.Is err .ErrInvalidOrderRequest = false :=
  promoService_err_not_is _ _
    (fun c k e he => validateCode_err_not_is ⟨filePaths⟩ fs c sched k e _ he) ctx code err h

theorem requestValidate_some_iff (req : OrderRequest) :
    (∃ inner, req.Validate = some inner) ↔
      (req.Items = [] ∨
        ∃ item ∈ req.Items, strings.TrimSpace item.ProductID = "" ∨ item.Quantity < 1) := by
  have h := requestValidate_none_iff req
  constructor
  · rintro ⟨inner, hinner⟩
    by_contra hcon
    push_neg at hcon
    have : req.Validate = none := h.2 ⟨hcon.1, fun item hitem =>
      (itemValidate_none_iff item).2 ⟨(hcon.2 item hitem).1, by have := (hcon.2 item hitem).2; omega⟩⟩
    rw [this] at hinner
    exact absurd hinner (by simp)
  · intro hcond
    cases hv : req.Validate with
    | some inner => exact ⟨inner, rfl⟩
    | none =>
      exfalso
      obtain ⟨hne, hall⟩ := h.1 hv
      rcases hcond with hnil | ⟨item, hitem, hbad⟩
      · exact hne hnil
      · have := (itemValidate_none_iff item).1 (hall item hitem)
        rcases hbad with hb | hb
        · exact this.1 hb
        · omega

/-- C9: `PlaceOrder` of the order service wired as in `main.go` fails with an error that wraps
`ErrInvalidOrderRequest` exactly when the item list is empty or some item has an empty or
all-white-space `productId` or a quantity below 1; such an error is mapped by
`MapErrorToAPIError` to status 400, and an empty item list gives the error
`invalid order request: items are required`. -/
theorem C9_placeOrder_invalid_request_iff {F : Type} (products : List (Product F))
    (filePaths : List String) (fs : FileSystem) (sched : Schedule) (ops : Float64Ops F)
    (now : Int) (ctx : Context) (req : OrderRequest) :
    ((∃ err, (wiredOrderService products filePaths fs sched).PlaceOrder ops now ctx req =
          .error err ∧ errors.Is err .ErrInvalidOrderRequest = true) ↔
        (req.Items = [] ∨
          ∃ item ∈ req.Items, strings.TrimSpace item.ProductID = "" ∨ item.Quantity < 1)) ∧
      ((req.Items = [] ∨
          ∃ item ∈ req.Items, strings.TrimSpace item.ProductID = "" ∨ item.Quantity < 1) →
        ∃ err, (wiredOrderService products filePaths fs sched).PlaceOrder ops now ctx req =
          .error err ∧ errors.Is err .ErrInvalidOrderRequest = true ∧
          (MapErrorToAPIError (some err)).Code = 400) ∧
      (req.Items = [] →
        (wiredOrderService products filePaths fs sched).PlaceOrder ops now ctx req =
          .error (.wrap "invalid order request: items are required"
            (.sentinel .ErrInvalidOrderRequest))) := by
  have hfail : (req.Items = [] ∨
      ∃ item ∈ req.Items, strings.TrimSpace item.ProductID = "" ∨ item.Quantity < 1) →
      ∃ err, (wiredOrderService products filePaths fs sched).PlaceOrder ops now ctx req =
        .error err ∧ errors.Is err .ErrInvalidOrderRequest = true ∧
        (MapErrorToAPIError (some err)).Code = 400 := by
    intro hcond
    obtain ⟨inner, hinner⟩ := (requestValidate_some_iff req).2 hcond
    refine ⟨_, placeOrder_of_invalid _ ops now ctx req inner hinner, rfl, ?_⟩
    rw [map_invalid_request]
    rfl
  refine ⟨⟨?_, ?_⟩, hfail, ?_⟩
  · rintro ⟨err, herr, his⟩
    apply (requestValidate_some_iff req).1
    cases hv : req.Validate with
    | some inner => exact ⟨inner, rfl⟩
    | none =>
      have := placeOrder_valid_not_is _ ops now ctx req err
        (wired_promo_not_is products filePaths fs sched) hv herr
      rw [this] at his
      exact absurd his (by simp)
  · intro hcond
    obtain ⟨err, herr, his, _⟩ := hfail hcond
    exact ⟨err, herr, his⟩
  · intro hnil
    have hv : req.Validate = some (.fresh "items are required") := by
      simp [OrderRequest.Validate, hnil]
    rw [placeOrder_of_invalid _ ops now ctx req _ hv]
    rfl

/-- C10, counterexample: the second item (index 1) has quantity 0, the first has an empty
`productId`; the error names index 0 and does not contain `item at index 1`. -/
theorem C10_later_index_not_named :
    ∃ err, demoService.PlaceOrder exactOps 0 Context.background ⟨"", [⟨"", 1⟩, ⟨"10", 0⟩]⟩ =
        .error err ∧
      err.Error = "invalid order request: item at index 0: productId is required" ∧
      ¬ ("item at index 1".data <:+: err.Error.data) :=
  ⟨_, rfl, by decide, by decide⟩

/-- C10, amended: when some item of the request has quantity 0 or less, `PlaceOrder` fails with
an error wrapping `ErrInvalidOrderRequest` whose message names the index `j` of the first item
that fails `OrderItem.Validate` (empty `productId` or quantity 0 or less); `j` is at most the
index `i` of the given item and equals `i` when every item before `i` is valid. -/
theorem C10_placeOrder_names_first_invalid_index {F : Type} (s : OrderService F)
    (ops : Float64Ops F) (now : Int) (ctx : Context) (req : OrderRequest) (i : Nat)
    (item : OrderItem) (hi : req.Items[i]? = some item) (hq : item.Quantity ≤ 0) :
    ∃ j bad inner err, j ≤ i ∧ req.Items[j]? = some bad ∧ bad.Validate = some inner ∧
      (∀ k it, k < j → req.Items[k]? = some it → it.Validate = none) ∧
      ((∀ k it, k < i → req.Items[k]? = some it → it.Validate = none) → j = i) ∧
      s.PlaceOrder ops now ctx req = .error err ∧
      errors.Is err .ErrInvalidOrderRequest = true ∧
      err.Error = "invalid order request" ++ ": " ++
        ("item at index " ++ toString j ++ ": " ++ inner.Error) ∧
      ("item at index " ++ toString j).data <:+: err.Error.data := by
  have hbad : item.Validate ≠ none := by
    intro hnone
    have := (itemValidate_none_iff item).1 hnone
    omega
  obtain ⟨j, bad, inner, hj, hget, hval, hbefore, hres⟩ :=
    validateItems_first req.Items 0 i item hi hbad
  have hne : ¬ req.Items.length = 0 := by
    intro hlen
    rw [List.length_eq_zero.1 hlen] at hi
    simp at hi
  have hv : req.Validate = some
      (.wrap ("item at index " ++ toString j ++ ": " ++ inner.Error) inner) := by
    simp only [OrderRequest.Validate, hne, if_false, hres, Nat.zero_add]
  refine ⟨j, bad, inner, _, hj, hget, hval, hbefore, ?_,
    placeOrder_of_invalid s ops now ctx req _ hv, rfl, rfl, ?_⟩
  · intro hall
    by_contra hne
    have hlt : j < i := by omega
    have := hall j bad hlt hget
    rw [this] at hval
    exact absurd hval (by simp)
  · show ("item at index " ++ toString j).data <:+: ("invalid order request" ++ ": " ++
      ("item at index " ++ toString j ++ ": " ++ inner.Error)).data
    simp only [String.data_append]
    exact ⟨"invalid order request".data ++ ": ".data, ": ".data ++ inner.Error.data, by
      simp [List.append_assoc]⟩

/-- C10, instance of the amended statement: the item at index 1 has quantity 0 and the item
before it is valid, so the error names index 1. -/
theorem C10_placeOrder_names_first_invalid_index_witness :
    ∃ j bad inner err, j ≤ 1 ∧
      (OrderRequest.mk "" [⟨"10", 2⟩, ⟨"11", 0⟩]).Items[j]? = some bad ∧
      bad.Validate = some inner ∧
      (∀ k it, k < j → (OrderRequest.mk "" [⟨"10", 2⟩, ⟨"11", 0⟩]).Items[k]? = some it →
        it.Validate = none) ∧
      ((∀ k it, k < 1 → (OrderRequest.mk "" [⟨"10", 2⟩, ⟨"11", 0⟩]).Items[k]? = some it →
        it.Validate = none) → j = 1) ∧
      demoService.PlaceOrder exactOps 0 Context.background ⟨"", [⟨"10", 2⟩, ⟨"11", 0⟩]⟩ =
        .error err ∧
      errors.Is err .ErrInvalidOrderRequest = true ∧
      err.Error = "invalid order request" ++ ": " ++
        ("item at index " ++ toString j ++ ": " ++ inner.Error) ∧
      ("item at index " ++ toString j).data <:+: err.Error.data :=
  C10_placeOrder_names_first_invalid_index demoService exactOps 0 Context.background
    ⟨"", [⟨"10", 2⟩, ⟨"11", 0⟩]⟩ 1 ⟨"11", 0⟩ rfl (by decide)

/-! ## Lemmas on the order pipeline and its call log -/

theorem calculateLoopLog_fst {F : Type} (s : OrderService F) (ops : Float64Ops F) (ctx : Context)
    (items : List OrderItem) (idx : Nat) (orderProducts : List (Product F)) (totalAmount : F)
    (log : List Call) :
    (OrderService.calculateLoopLog s ops ctx items idx orderProducts totalAmount log).1 =
      OrderService.calculateLoop s ops ctx items idx orderProducts totalAmount := by
  induction items generalizing idx orderProducts totalAmount log with
  | nil => rfl
  | cons item rest ih =>
    rw [OrderService.calculateLoopLog, OrderService.calculateLoop]
    cases s.productRepo ctx item.ProductID with
    | error e => rfl
    | ok product => exact ih _ _ _ _

theorem applyPromoLog_fst {F : Type} (s : OrderService F) (ops : Float64Ops F) (ctx : Context)
    (couponCode : String) (totalAmount : F) (log : List Call) :
    (s.applyPromoCodeDiscountLog ops ctx couponCode totalAmount log).1 =
      s.applyPromoCodeDiscount ops ctx couponCode totalAmount := by
  unfold OrderService.applyPromoCodeDiscountLog OrderService.applyPromoCodeDiscount
  by_cases h : strings.TrimSpace couponCode = ""
  · simp [h]
  · simp only [h, if_false]
    cases hres : s.promoService ctx couponCode with
    | mk valid err =>
      cases err with
      | some e => rfl
      | none =>
        cases valid <;> simp

theorem placeOrderLog_fst {F : Type} (s : OrderService F) (ops : Float64Ops F) (now : Int)
    (ctx : Context) (req : OrderRequest) :
    (s.PlaceOrderLog ops now ctx req).1 = s.PlaceOrder ops now ctx req := by
  unfold OrderService.PlaceOrderLog OrderService.PlaceOrder
    OrderService.validateAndCalculateItems
  cases OrderService.validateOrderRequest req with
  | some err => rfl
  | none =>
    simp only []
    have h1 := calculateLoopLog_fst s ops ctx req.Items 0 [] ops.zero []
    cases hlog : OrderService.calculateLoopLog s ops ctx req.Items 0 [] ops.zero [] with
    | mk res log =>
      rw [hlog] at h1
      simp only [] at h1
      rw [← h1]
      cases res with
      | error err => rfl
      | ok pt =>
        simp only []
        have h2 := applyPromoLog_fst s ops ctx req.CouponCode pt.2 log
        cases hp : s.applyPromoCodeDiscountLog ops ctx req.CouponCode pt.2 log with
        | mk res2 log2 =>
          rw [hp] at h2
          simp only [] at h2
          rw [← h2]
          cases res2 with
          | error err => rfl
          | ok d => rfl

theorem validateOrderRequest_of_badFormat (req : OrderRequest) (ferr : GoError)
    (hvalid : req.Validate = none) (hcoupon : req.CouponCode ≠ "")
    (hfmt : OrderService.validateCouponCodeFormat req.CouponCode = some ferr) :
    OrderService.validateOrderRequest req =
      some (.wrap ("invalid promo code" ++ ": " ++ ferr.Error)
        (.sentinel .ErrInvalidPromoCode)) := by
  simp [OrderService.validateOrderRequest, hvalid, hcoupon, hfmt, Sentinel.Error]

theorem validateOrderRequest_of_wellFormed (req : OrderRequest) (hvalid : req.Validate = none)
    (hcoupon : req.CouponCode = "" ∨
      OrderService.validateCouponCodeFormat req.CouponCode = none) :
    OrderService.validateOrderRequest req = none := by
  unfold OrderService.validateOrderRequest
  rw [hvalid]
  rcases hcoupon with h | h
  · simp [h]
  · simp [h]

/-- C11: a structurally valid request whose non-empty coupon code fails the format check makes
`PlaceOrder` fail with an error that wraps `ErrInvalidPromoCode`, whatever the collaborators
are, and the call makes no call on the promo service (so no coupon file is opened) and none on
the product repository. -/
theorem C11_malformed_coupon_fails_fast {F : Type} (s : OrderService F) (ops : Float64Ops F)
    (now : Int) (ctx : Context) (req : OrderRequest) (hvalid : req.Validate = none)
    (hcoupon : req.CouponCode ≠ "")
    (hfmt : OrderService.validateCouponCodeFormat req.CouponCode ≠ none) :
    ∃ err, s.PlaceOrder ops now ctx req = .error err ∧
      errors.Is err .ErrInvalidPromoCode = true ∧
      s.PlaceOrderLog ops now ctx req = (.error err, []) := by
  cases hf : OrderService.validateCouponCodeFormat req.CouponCode with
  | none => exact absurd hf hfmt
  | some ferr =>
    have hreq := validateOrderRequest_of_badFormat req ferr hvalid hcoupon hf
    refine ⟨.wrap ("invalid promo code" ++ ": " ++ ferr.Error)
      (.sentinel .ErrInvalidPromoCode), ?_, rfl, ?_⟩
    · simp only [OrderService.PlaceOrder, hreq]
    · simp only [OrderService.PlaceOrderLog, hreq]

/-- C11, instance: the cart of one known product with the lowercase coupon `happyhours`. -/
theorem C11_malformed_coupon_fails_fast_witness :
    (OrderRequest.mk "happyhours" [⟨"10", 2⟩]).Validate = none ∧
      ∃ err, demoService.PlaceOrder exactOps 0 Context.background ⟨"happyhours", [⟨"10", 2⟩]⟩ =
          .error err ∧
        errors.Is err .ErrInvalidPromoCode = true ∧
        demoService.PlaceOrderLog exactOps 0 Context.background ⟨"happyhours", [⟨"10", 2⟩]⟩ =
          (.error err, []) :=
  ⟨by decide,
    C11_malformed_coupon_fails_fast demoService exactOps 0 Context.background
      ⟨"happyhours", [⟨"10", 2⟩]⟩ (by decide) (by decide) (by decide)⟩

theorem calculateLoop_ok {F : Type} (s : OrderService F) (ops : Float64Ops F) (ctx : Context)
    (items : List OrderItem) (idx : Nat) (orderProducts : List (Product F)) (totalAmount : F)
    (ps : List (Product F)) (t : F)
    (h : OrderService.calculateLoop s ops ctx items idx orderProducts totalAmount = .ok (ps, t)) :
    ∃ new, ps = orderProducts ++ new ∧
      List.Forall₂ (fun p item => s.productRepo ctx item.ProductID = .ok p) new items ∧
      t = (new.zip items).foldl
        (fun total pi => ops.add total (ops.mul pi.1.Price (ops.ofInt pi.2.Quantity)))
        totalAmount := by
  induction items generalizing idx orderProducts totalAmount with
  | nil =>
    simp only [OrderService.calculateLoop, Except.ok.injEq, Prod.mk.injEq] at h
    exact ⟨[], by simp [h.1], List.Forall₂.nil, by simp [h.2]⟩
  | cons item rest ih =>
    rw [OrderService.calculateLoop] at h
    cases hrepo : s.productRepo ctx item.ProductID with
    | error e =>
      rw [hrepo] at h
      simp at h
    | ok product =>
      rw [hrepo] at h
      obtain ⟨new, hps, hall, ht⟩ := ih _ _ _ h
      refine ⟨product :: new, by simp [hps], List.Forall₂.cons hrepo hall, ?_⟩
      simp [ht]

theorem calculateLoop_of_all {F : Type} (s : OrderService F) (ops : Float64Ops F) (ctx : Context)
    (items : List OrderItem) (idx : Nat) (orderProducts : List (Product F)) (totalAmount : F)
    (hall : ∀ item ∈ items, ∃ p, s.productRepo ctx item.ProductID = .ok p) :
    ∃ res, OrderService.calculateLoop s ops ctx items idx orderProducts totalAmount = .ok res := by
  induction items generalizing idx orderProducts totalAmount with
  | nil => exact ⟨_, rfl⟩
  | cons item rest ih =>
    obtain ⟨p, hp⟩ := hall item (List.mem_cons_self _ _)
    rw [OrderService.calculateLoop, hp]
    exact ih _ _ _ (fun it hit => hall it (List.mem_cons_of_mem _ hit))

theorem calculateLoopLog_first_unresolved {F : Type} (s : OrderService F) (ops : Float64Ops F)
    (ctx : Context) (items : List OrderItem) (idx i : Nat) (orderProducts : List (Product F))
    (totalAmount : F) (log : List Call) (item : OrderItem) (hi : items[i]? = some item)
    (hun : ∃ e, s.productRepo ctx item.ProductID = .error e) :
    ∃ j bad, j ≤ i ∧ items[j]? = some bad ∧ (∃ e, s.productRepo ctx bad.ProductID = .error e) ∧
      (∀ k it, k < j → items[k]? = some it → ∃ p, s.productRepo ctx it.ProductID = .ok p) ∧
      OrderService.calculateLoopLog s ops ctx items idx orderProducts totalAmount log =
        (.error (.wrap ("invalid product ID" ++ ": item " ++ toString (idx + j) ++ " not exits")
          (.sentinel .ErrInvalidProductID)),
          log ++ (items.take (j + 1)).map fun it => Call.GetByID it.ProductID) := by
  induction items generalizing idx i orderProducts totalAmount log with
  | nil => simp at hi
  | cons head rest ih =>
    cases hhead : s.productRepo ctx head.ProductID with
    | error e =>
      refine ⟨0, head, Nat.zero_le _, List.getElem?_cons_zero, ⟨e, hhead⟩, ?_, ?_⟩
      · intro k it hk
        exact absurd hk (Nat.not_lt_zero k)
      · simp [OrderService.calculateLoopLog, hhead, Sentinel.Error]
    | ok product =>
      cases i with
      | zero =>
        simp only [List.getElem?_cons_zero, Option.some.injEq] at hi
        obtain ⟨e, he⟩ := hun
        rw [← hi, hhead] at he
        simp at he
      | succ i =>
        rw [List.getElem?_cons_succ] at hi
        obtain ⟨j, bad, hj, hget, hbad, hbefore, hres⟩ :=
          ih (idx + 1) i (orderProducts ++ [product])
            (ops.add totalAmount (ops.mul product.Price (ops.ofInt head.Quantity)))
            (log ++ [.GetByID head.ProductID]) hi
        refine ⟨j + 1, bad, by omega, by simpa using hget, hbad, ?_, ?_⟩
        · intro k it hk hkget
          cases k with
          | zero =>
            simp only [List.getElem?_cons_zero, Option.some.injEq] at hkget
            rw [← hkget]
            exact ⟨product, hhead⟩
          | succ k =>
            rw [List.getElem?_cons_succ] at hkget
            exact hbefore k it (by omega) hkget
        · rw [OrderService.calculateLoopLog, hhead]
          simp only [hres]
          rw [show idx + 1 + j = idx + (j + 1) by omega]
          simp [List.append_assoc]

/-- C12: for a structurally valid request with no coupon or a well-formed one, when some item is
not resolved by the product repository `PlaceOrder` returns no order; it fails with an error that
wraps `ErrInvalidProductID` and whose message `invalid product ID: item j not exits` names the
0-based index `j` of the first unresolved item in request order. -/
theorem C12_unresolved_product_fails {F : Type} (s : OrderService F) (ops : Float64Ops F)
    (now : Int) (ctx : Context) (req : OrderRequest) (i : Nat) (item : OrderItem)
    (hvalid : req.Validate = none)
    (hcoupon : req.CouponCode = "" ∨
      OrderService.validateCouponCodeFormat req.CouponCode = none)
    (hi : req.Items[i]? = some item)
    (hun : ∃ e, s.productRepo ctx item.ProductID = .error e) :
    ∃ j bad err, j ≤ i ∧ req.Items[j]? = some bad ∧
      (∃ e, s.productRepo ctx bad.ProductID = .error e) ∧
      (∀ k it, k < j → req.Items[k]? = some it → ∃ p, s.productRepo ctx it.ProductID = .ok p) ∧
      s.PlaceOrder ops now ctx req = .error err ∧
      errors.Is err .ErrInvalidProductID = true ∧
      err.Error = "invalid product ID" ++ ": item " ++ toString j ++ " not exits" := by
  obtain ⟨j, bad, hj, hget, hbad, hbefore, hres⟩ :=
    calculateLoopLog_first_unresolved s ops ctx req.Items 0 i [] ops.zero [] item hi hun
  refine ⟨j, bad, .wrap ("invalid product ID" ++ ": item " ++ toString j ++ " not exits")
    (.sentinel .ErrInvalidProductID), hj, hget, hbad, hbefore, ?_, rfl, rfl⟩
  rw [← placeOrderLog_fst]
  simp only [OrderService.PlaceOrderLog, validateOrderRequest_of_wellFormed req hvalid hcoupon,
    hres, Nat.zero_add]

/-- C12, instance: a cart whose second item references product id `999`, which the built-in
catalog does not hold; the error names index 1. -/
theorem C12_unresolved_product_fails_witness :
    (OrderRequest.mk "" [⟨"10", 2⟩, ⟨"999", 1⟩]).Validate = none ∧
      ∃ j bad err, j ≤ 1 ∧ (OrderRequest.mk "" [⟨"10", 2⟩, ⟨"999", 1⟩]).Items[j]? = some bad ∧
        (∃ e, demoService.productRepo Context.background bad.ProductID = .error e) ∧
        (∀ k it, k < j → (OrderRequest.mk "" [⟨"10", 2⟩, ⟨"999", 1⟩]).Items[k]? = some it →
          ∃ p, demoService.productRepo Context.background it.ProductID = .ok p) ∧
        demoService.PlaceOrder exactOps 0 Context.background ⟨"", [⟨"10", 2⟩, ⟨"999", 1⟩]⟩ =
          .error err ∧
        errors.Is err .ErrInvalidProductID = true ∧
        err.Error = "invalid product ID" ++ ": item " ++ toString j ++ " not exits" :=
  ⟨by decide,
    C12_unresolved_product_fails demoService exactOps 0 Context.background
      ⟨"", [⟨"10", 2⟩, ⟨"999", 1⟩]⟩ 1 ⟨"999", 1⟩ (by decide) (Or.inl rfl) rfl ⟨_, rfl⟩⟩

theorem forall₂_getElem? {α β : Type} {R : α → β → Prop} {l₁ : List α} {l₂ : List β}
    (h : List.Forall₂ R l₁ l₂) (i : Nat) (b : β) (hb : l₂[i]? = some b) :
    ∃ a, l₁[i]? = some a ∧ R a b := by
  induction h generalizing i with
  | nil => simp at hb
  | cons hab _ ih =>
    cases i with
    | zero =>
      simp only [List.getElem?_cons_zero, Option.some.injEq] at hb
      exact ⟨_, List.getElem?_cons_zero, hb ▸ hab⟩
    | succ i =>
      rw [List.getElem?_cons_succ] at hb
      obtain ⟨a, ha, hR⟩ := ih i hb
      exact ⟨a, by rw [List.getElem?_cons_succ]; exact ha, hR⟩

theorem placeOrder_ok_inv {F : Type} (s : OrderService F) (ops : Float64Ops F) (now : Int)
    (ctx : Context) (req : OrderRequest) (order : Order F)
    (h : s.PlaceOrder ops now ctx req = .ok order) :
    OrderService.validateOrderRequest req = none ∧
      ∃ ps t d, OrderService.calculateLoop s ops ctx req.Items 0 [] ops.zero = .ok (ps, t) ∧
        s.applyPromoCodeDiscount ops ctx req.CouponCode t = .ok d ∧
        order = { ID := "order_" ++ toString now, Total := ops.sub t d, Discounts := d,
                  Items := req.Items, Products := ps } := by
  unfold OrderService.PlaceOrder OrderService.validateAndCalculateItems at h
  cases hreq : OrderService.validateOrderRequest req with
  | some err =>
    rw [hreq] at h
    simp at h
  | none =>
    rw [hreq] at h
    simp only [] at h
    cases hcalc : OrderService.calculateLoop s ops ctx req.Items 0 [] ops.zero with
    | error err =>
      rw [hcalc] at h
      simp at h
    | ok res =>
      rw [hcalc] at h
      simp only [] at h
      cases hdisc : s.applyPromoCodeDiscount ops ctx req.CouponCode res.2 with
      | error err =>
        rw [hdisc] at h
        simp at h
      | ok d =>
        rw [hdisc] at h
        simp only [Except.ok.injEq] at h
        exact ⟨rfl, res.1, res.2, d, rfl, hdisc, h.symm⟩

theorem getByID_ok {F : Type} (products : List (Product F)) (ctx : Context) (id : String)
    (p : Product F) (h : (ProductRepository.mk products).GetByID ctx id = .ok p) :
    products.find? (fun q => decide (q.ID = id)) = some p ∧ p.ID = id ∧ p ∈ products := by
  unfold ProductRepository.GetByID at h
  cases hfind : products.find? (fun q => decide (q.ID = id)) with
  | none =>
    rw [hfind] at h
    simp at h
  | some q =>
    rw [hfind] at h
    simp only [Except.ok.injEq] at h
    rw [← h]
    exact ⟨rfl, by simpa using List.find?_some hfind, List.mem_of_find?_eq_some hfind⟩

/-- C17: when `PlaceOrder` succeeds against a `ProductRepository`, the order's items are the
request's items in the same order, and the order's products are parallel to them: as many as
items, and at every index `i` the product is the catalog's product whose id equals the
`productId` of item `i` (the first such product of the catalog, once per occurrence of the id). -/
theorem C17_items_echoed_products_parallel {F : Type} (products : List (Product F))
    (promoService : Context → String → Bool × Option GoError) (ops : Float64Ops F) (now : Int)
    (ctx : Context) (req : OrderRequest) (order : Order F)
    (h : (OrderService.mk (ProductRepository.mk products).GetByID promoService).PlaceOrder ops
      now ctx req = .ok order) :
    order.Items = req.Items ∧ order.Products.length = req.Items.length ∧
      ∀ (i : Nat) (item : OrderItem), req.Items[i]? = some item →
        ∃ p, order.Products[i]? = some p ∧ p.ID = item.ProductID ∧ p ∈ products ∧
          products.find? (fun q => decide (q.ID = item.ProductID)) = some p := by
  obtain ⟨_, ps, t, d, hcalc, _, horder⟩ := placeOrder_ok_inv _ ops now ctx req order h
  obtain ⟨new, hps, hall, _⟩ := calculateLoop_ok _ ops ctx req.Items 0 [] ops.zero ps t hcalc
  rw [List.nil_append] at hps
  subst hps
  subst horder
  refine ⟨rfl, hall.length_eq, ?_⟩
  intro i item hi
  obtain ⟨p, hp, hrepo⟩ := forall₂_getElem? hall i item hi
  have := getByID_ok products ctx item.ProductID p hrepo
  exact ⟨p, hp, this.2.1, this.2.2, this.1⟩
/-- C17, instance: a cart that names product `10` twice and product `12` once, placed against
the built-in catalog. -/
theorem C17_items_echoed_products_parallel_witness :
    ∃ order,
      (OrderService.mk (ProductRepository.mk (getSampleProducts exactOps)).GetByID
        (fun _ _ => (false, none))).PlaceOrder exactOps 0 Context.background
        ⟨"", [⟨"10", 2⟩, ⟨"12", 1⟩, ⟨"10", 1⟩]⟩ = .ok order ∧
      order.Items = [⟨"10", 2⟩, ⟨"12", 1⟩, ⟨"10", 1⟩] ∧ order.Products.length = 3 ∧
      order.Products.map (fun p => p.ID) = ["10", "12", "10"] := by
  refine ⟨_, rfl, ?_⟩
  have h := C17_items_echoed_products_parallel (getSampleProducts exactOps)
    (fun _ _ => (false, none)) exactOps 0 Context.background
    ⟨"", [⟨"10", 2⟩, ⟨"12", 1⟩, ⟨"10", 1⟩]⟩ _ rfl
  exact ⟨h.1, h.2.1, by decide⟩

theorem placeOrderLog_of_invalid {F : Type} (s : OrderService F) (ops : Float64Ops F)
    (now : Int) (ctx : Context) (req : OrderRequest) (inner : GoError)
    (h : req.Validate = some inner) :
    s.PlaceOrderLog ops now ctx req =
      (.error (.wrap ("invalid order request" ++ ": " ++ inner.Error)
        (.sentinel .ErrInvalidOrderRequest)), []) := by
  simp [OrderService.PlaceOrderLog, OrderService.validateOrderRequest, h, Sentinel.Error]

/-- C18: `PlaceOrder` checks in the order structure, coupon format, product resolution, promo
validation, and reports the first failure only. (1) A structurally invalid request fails with
`ErrInvalidOrderRequest` and no collaborator is called, whatever the coupon code and the product
ids. (2) A structurally valid request with a non-empty malformed coupon fails with
`ErrInvalidPromoCode` and no collaborator is called, whatever the product ids. (3) A structurally
valid request with a well-formed coupon and an unresolved product fails with
`ErrInvalidProductID`, and the promo service is not called, whatever it would answer. -/
theorem C18_checks_in_fixed_order {F : Type} (s : OrderService F) (ops : Float64Ops F)
    (now : Int) (ctx : Context) (req : OrderRequest) :
    (req.Validate ≠ none →
        ∃ err, s.PlaceOrder ops now ctx req = .error err ∧
          errors.Is err .ErrInvalidOrderRequest = true ∧
          (s.PlaceOrderLog ops now ctx req).2 = []) ∧
      (req.Validate = none → req.CouponCode ≠ "" →
        OrderService.validateCouponCodeFormat req.CouponCode ≠ none →
        ∃ err, s.PlaceOrder ops now ctx req = .error err ∧
          errors.Is err .ErrInvalidPromoCode = true ∧
          (s.PlaceOrderLog ops now ctx req).2 = []) ∧
      (req.Validate = none → req.CouponCode ≠ "" →
        OrderService.validateCouponCodeFormat req.CouponCode = none →
        (∃ item ∈ req.Items, ∃ e, s.productRepo ctx item.ProductID = .error e) →
        ∃ err, s.PlaceOrder ops now ctx req = .error err ∧
          errors.Is err .ErrInvalidProductID = true ∧
          ∀ code, Call.ValidatePromoCode code ∉ (s.PlaceOrderLog ops now ctx req).2) := by
  refine ⟨?_, ?_, ?_⟩
  · intro hinvalid
    cases hv : req.Validate with
    | none => exact absurd hv hinvalid
    | some inner =>
      have hlog := placeOrderLog_of_invalid s ops now ctx req inner hv
      refine ⟨.wrap ("invalid order request" ++ ": " ++ inner.Error)
        (.sentinel .ErrInvalidOrderRequest), ?_, rfl, ?_⟩
      · rw [← placeOrderLog_fst, hlog]
      · rw [hlog]
  · intro hvalid hcoupon hfmt
    cases hf : OrderService.validateCouponCodeFormat req.CouponCode with
    | none => exact absurd hf hfmt
    | some ferr =>
      have hreq := validateOrderRequest_of_badFormat req ferr hvalid hcoupon hf
      refine ⟨.wrap ("invalid promo code" ++ ": " ++ ferr.Error)
        (.sentinel .ErrInvalidPromoCode), ?_, rfl, ?_⟩
      · simp only [OrderService.PlaceOrder, hreq]
      · simp only [OrderService.PlaceOrderLog, hreq]
  · rintro hvalid _ hfmt ⟨item, hmem, hun⟩
    obtain ⟨i, hi⟩ := List.getElem?_of_mem hmem
    obtain ⟨j, bad, _, _, _, _, hres⟩ :=
      calculateLoopLog_first_unresolved s ops ctx req.Items 0 i [] ops.zero [] item hi hun
    have hlog : s.PlaceOrderLog ops now ctx req =
        (.error (.wrap ("invalid product ID" ++ ": item " ++ toString j ++ " not exits")
          (.sentinel .ErrInvalidProductID)),
          (req.Items.take (j + 1)).map fun it => Call.GetByID it.ProductID) := by
      simp only [OrderService.PlaceOrderLog,
        validateOrderRequest_of_wellFormed req hvalid (Or.inr hfmt), hres, Nat.zero_add,
        List.nil_append]
    refine ⟨.wrap ("invalid product ID" ++ ": item " ++ toString j ++ " not exits")
      (.sentinel .ErrInvalidProductID), ?_, rfl, ?_⟩
    · rw [← placeOrderLog_fst, hlog]
    · intro code hcode
      rw [hlog] at hcode
      obtain ⟨it, _, hit⟩ := List.mem_map.1 hcode
      exact absurd hit (by simp)

/-- C18, instance: a cart with a product of quantity 0 and an unknown product and a malformed
coupon fails on the structure; with the quantity repaired it fails on the coupon; with a
well-formed coupon that is in no coupon file twice it fails on the unknown product, after two
calls on the product repository and none on the promo service. -/
theorem C18_checks_in_fixed_order_witness :
    (∃ err, demoService.PlaceOrder exactOps 0 Context.background
        ⟨"bad", [⟨"10", 0⟩, ⟨"999", 1⟩]⟩ = .error err ∧
        errors.Is err .ErrInvalidOrderRequest = true ∧
        (demoService.PlaceOrderLog exactOps 0 Context.background
          ⟨"bad", [⟨"10", 0⟩, ⟨"999", 1⟩]⟩).2 = []) ∧
      (∃ err, demoService.PlaceOrder exactOps 0 Context.background
        ⟨"bad", [⟨"10", 1⟩, ⟨"999", 1⟩]⟩ = .error err ∧
        errors.Is err .ErrInvalidPromoCode = true ∧
        (demoService.PlaceOrderLog exactOps 0 Context.background
          ⟨"bad", [⟨"10", 1⟩, ⟨"999", 1⟩]⟩).2 = []) ∧
      (∃ err, demoService.PlaceOrder exactOps 0 Context.background
        ⟨"SUMMERSALE", [⟨"10", 1⟩, ⟨"999", 1⟩]⟩ = .error err ∧
        errors.Is err .ErrInvalidProductID = true ∧
        ∀ code, Call.ValidatePromoCode code ∉ (demoService.PlaceOrderLog exactOps 0
          Context.background ⟨"SUMMERSALE", [⟨"10", 1⟩, ⟨"999", 1⟩]⟩).2) :=
  ⟨(C18_checks_in_fixed_order demoService exactOps 0 Context.background
      ⟨"bad", [⟨"10", 0⟩, ⟨"999", 1⟩]⟩).1 (by decide),
    (C18_checks_in_fixed_order demoService exactOps 0 Context.background
      ⟨"bad", [⟨"10", 1⟩, ⟨"999", 1⟩]⟩).2.1 (by decide) (by decide) (by decide),
    (C18_checks_in_fixed_order demoService exactOps 0 Context.background
      ⟨"SUMMERSALE", [⟨"10", 1⟩, ⟨"999", 1⟩]⟩).2.2 (by decide) (by decide) (by decide)
      ⟨⟨"999", 1⟩, by decide, _, rfl⟩⟩

/-! ## `ProductService.GetProduct` and the API-key middleware -/

theorem getProduct_of_atoi_error {F : Type} (s : ProductService F) (ctx : Context) (id : String)
    (h : ∃ e, strconv.Atoi id = .error e) :
    s.GetProduct ctx id = .error (.sentinel .ErrInvalidProductID) := by
  obtain ⟨e, he⟩ := h
  simp [ProductService.GetProduct, he]

theorem getByID_none {F : Type} (products : List (Product F)) (ctx : Context) (id : String)
    (h : ∀ p ∈ products, p.ID ≠ id) :
    (ProductRepository.mk products).GetByID ctx id = .error (.sentinel .ErrProductNotFound) := by
  have : products.find? (fun q => decide (q.ID = id)) = none := by
    rw [List.find?_eq_none]
    intro p hp
    simpa using h p hp
  simp [ProductRepository.GetByID, this]

/-- C19: `ProductService.GetProduct` over the built-in catalog. An id that `strconv.Atoi`
rejects gives `ErrInvalidProductID`, which `MapErrorToAPIError` maps to 400; an id that parses
but is the id of no catalog product gives an error wrapping `ErrProductNotFound`, mapped to 404;
and the id of a catalog product gives that product. -/
theorem C19_getProduct_builtin_catalog {F : Type} (ops : Float64Ops F) (ctx : Context)
    (id : String) :
    ((∃ e, strconv.Atoi id = .error e) →
        (builtinProductService ops).GetProduct ctx id = .error (.sentinel .ErrInvalidProductID) ∧
          (MapErrorToAPIError (some (.sentinel .ErrInvalidProductID))).Code = 400) ∧
      ((∃ n, strconv.Atoi id = .ok n) → (∀ p ∈ getSampleProducts ops, p.ID ≠ id) →
        ∃ err, (builtinProductService ops).GetProduct ctx id = .error err ∧
          errors.Is err .ErrProductNotFound = true ∧
          (MapErrorToAPIError (some err)).Code = 404) ∧
      (∀ p ∈ getSampleProducts ops, p.ID = id →
        (∃ n, strconv.Atoi id = .ok n) ∧ (builtinProductService ops).GetProduct ctx id = .ok p) := by
  refine ⟨?_, ?_, ?_⟩
  · intro h
    exact ⟨getProduct_of_atoi_error _ ctx id h, rfl⟩
  · rintro ⟨n, hn⟩ hnone
    have hrepo := getByID_none (getSampleProducts ops) ctx id hnone
    refine ⟨.wrap ("failed to retrieve product: " ++ Sentinel.ErrProductNotFound.Error)
      (.sentinel .ErrProductNotFound), ?_, rfl, rfl⟩
    simp only [ProductService.GetProduct, builtinProductService, NewProductRepository, hn, hrepo]
    rfl
  · intro p hp hid
    simp only [getSampleProducts, List.mem_cons, List.mem_singleton, List.not_mem_nil,
      or_false] at hp
    rcases hp with rfl | rfl | rfl | rfl | rfl <;> subst hid <;> exact ⟨⟨_, rfl⟩, rfl⟩

/-- C19, instance: the ids `invalid`, `999` and `10` of the integration test. -/
theorem C19_getProduct_builtin_catalog_witness :
    (builtinProductService exactOps).GetProduct Context.background "invalid" =
        .error (.sentinel .ErrInvalidProductID) ∧
      (∃ err, (builtinProductService exactOps).GetProduct Context.background "999" = .error err ∧
        errors.Is err .ErrProductNotFound = true ∧ (MapErrorToAPIError (some err)).Code = 404) ∧
      ∃ p, (builtinProductService exactOps).GetProduct Context.background "10" = .ok p ∧
        p.Name = "iPhone 15 Pro" :=
  ⟨((C19_getProduct_builtin_catalog exactOps Context.background "invalid").1 ⟨_, rfl⟩).1,
    (C19_getProduct_builtin_catalog exactOps Context.background "999").2.1 ⟨_, rfl⟩
      (by simp [getSampleProducts]),
    ⟨_, ((C19_getProduct_builtin_catalog exactOps Context.background "10").2.2 _
      (List.mem_cons_self _ _) rfl).2, rfl⟩⟩

theorem handleAuthError_response (w : http.ResponseWriter) (r : http.Request) (s : Sentinel)
    (hs : s = .ErrMissingAPIKey ∨ s = .ErrInvalidAPIKey) (hw : w.status = none) :
    (AuthMiddleware.handleAuthError w r (.sentinel s)).status = some 401 ∧
      (AuthMiddleware.handleAuthError w r (.sentinel s)).body =
        w.body ++ json.encodeErrorResponse ⟨⟨401, "Unauthorized", s.Error⟩⟩ ∧
      ("Content-Type", "application/json") ∈
        (AuthMiddleware.handleAuthError w r (.sentinel s)).header := by
  have hmap : MapErrorToAPIError (some (.sentinel s)) = ⟨401, "Unauthorized", s.Error⟩ := by
    rcases hs with rfl | rfl <;> rfl
  simp [AuthMiddleware.handleAuthError, hmap, http.ResponseWriter.Write,
    http.ResponseWriter.WriteHeader, http.ResponseWriter.SetHeader, hw]

/-- C20: `RequireAPIKey` invokes the wrapped handler exactly when the `api_key` header of the
request equals `apitest`, and then does nothing else. With a missing or empty header, or any
other value, the wrapped handler is not invoked; on a response writer that has no status yet the
response gets status 401, `Content-Type: application/json`, and the JSON text of an
`ErrorResponse` with code 401, type `Unauthorized` and the message `missing API key` (missing or
empty header) or `invalid API key` (other value). -/
theorem C20_requireAPIKey (next : http.Handler) (w : http.ResponseWriter) (r : http.Request) :
    ((AuthMiddleware.RequireAPIKey next w r).nextCalls = 1 ↔
        r.Header.Get "api_key" = "apitest") ∧
      (r.Header.Get "api_key" = "apitest" →
        AuthMiddleware.RequireAPIKey next w r = ⟨next w r, 1⟩) ∧
      (r.Header.Get "api_key" ≠ "apitest" →
        (AuthMiddleware.RequireAPIKey next w r).nextCalls = 0 ∧
          (w.status = none →
            (AuthMiddleware.RequireAPIKey next w r).w.status = some 401 ∧
            ("Content-Type", "application/json") ∈
              (AuthMiddleware.RequireAPIKey next w r).w.header ∧
            (AuthMiddleware.RequireAPIKey next w r).w.body =
              w.body ++ json.encodeErrorResponse ⟨⟨401, "Unauthorized",
                if r.Header.Get "api_key" = "" then "missing API key"
                else "invalid API key"⟩⟩)) := by
  have hvalid : r.Header.Get "api_key" = "apitest" →
      AuthMiddleware.RequireAPIKey next w r = ⟨next w r, 1⟩ := by
    intro h
    have hne : ¬ r.Header.Get "api_key" = "" := by
      rw [h]
      decide
    simp [AuthMiddleware.RequireAPIKey, APIKeyHeader, ValidAPIKey, h]
  have hinvalid : r.Header.Get "api_key" ≠ "apitest" →
      (AuthMiddleware.RequireAPIKey next w r).nextCalls = 0 ∧
        (w.status = none →
          (AuthMiddleware.RequireAPIKey next w r).w.status = some 401 ∧
          ("Content-Type", "application/json") ∈
            (AuthMiddleware.RequireAPIKey next w r).w.header ∧
          (AuthMiddleware.RequireAPIKey next w r).w.body =
            w.body ++ json.encodeErrorResponse ⟨⟨401, "Unauthorized",
              if r.Header.Get "api_key" = "" then "missing API key"
              else "invalid API key"⟩⟩) := by
    intro h
    by_cases hempty : r.Header.Get "api_key" = ""
    · have hrun : AuthMiddleware.RequireAPIKey next w r =
          ⟨AuthMiddleware.handleAuthError w r (.sentinel .ErrMissingAPIKey), 0⟩ := by
        simp [AuthMiddleware.RequireAPIKey, APIKeyHeader, hempty]
      rw [hrun]
      refine ⟨rfl, fun hw => ?_⟩
      have := handleAuthError_response w r .ErrMissingAPIKey (Or.inl rfl) hw
      simp only [hempty, if_true]
      exact ⟨this.1, this.2.2, this.2.1⟩
    · have hrun : AuthMiddleware.RequireAPIKey next w r =
          ⟨AuthMiddleware.handleAuthError w r (.sentinel .ErrInvalidAPIKey), 0⟩ := by
        simp [AuthMiddleware.RequireAPIKey, APIKeyHeader, ValidAPIKey, hempty, h]
      rw [hrun]
      refine ⟨rfl, fun hw => ?_⟩
      have := handleAuthError_response w r .ErrInvalidAPIKey (Or.inr rfl) hw
      simp only [hempty, if_false]
      exact ⟨this.1, this.2.2, this.2.1⟩
  refine ⟨⟨?_, ?_⟩, hvalid, hinvalid⟩
  · intro hcalls
    by_contra hne
    rw [(hinvalid hne).1] at hcalls
    exact absurd hcalls (by decide)
  · intro h
    rw [hvalid h]

/-- C20, instance: a valid `POST /order` without the `api_key` header is refused with status
401 and the wrapped handler is not invoked; with the header `api_key: apitest` it is passed on. -/
theorem C20_requireAPIKey_witness :
    AuthMiddleware.RequireAPIKey (fun w _ => w.Write "order") http.ResponseWriter.fresh
        (demoOrderRequest fun _ => []) =
      ⟨⟨[("Content-Type", "application/json")], some 401,
        "\x7b\"error\":\x7b\"code\":401,\"type\":\"Unauthorized\"," ++
          "\"message\":\"missing API key\"\x7d\x7d\n"⟩, 0⟩ ∧
      AuthMiddleware.RequireAPIKey (fun w _ => w.Write "order") http.ResponseWriter.fresh
        (demoOrderRequest fun key => if key = "Api_key" then ["apitest"] else []) =
      ⟨http.ResponseWriter.fresh.Write "order", 1⟩ :=
  ⟨by decide,
    (C20_requireAPIKey (fun w _ => w.Write "order") http.ResponseWriter.fresh
      (demoOrderRequest fun key => if key = "Api_key" then ["apitest"] else [])).2.1
      (by decide)⟩

/-! ## Lemmas on `float64` rounding -/

theorem scale_eq_zpow (m : Nat) (k : Int) : Float64.scale m k = (m : ℚ) * (2 : ℚ) ^ k := by
  unfold Float64.scale
  rcases le_total 0 k with hk | hk
  · obtain ⟨n, rfl⟩ := Int.eq_ofNat_of_zero_le hk
    have h1 : (-(n : ℤ)).toNat = 0 := Int.toNat_eq_zero.2 (by omega)
    rw [h1, Int.toNat_ofNat, zpow_natCast]
    simp
  · obtain ⟨n, hn⟩ := Int.eq_ofNat_of_zero_le (show 0 ≤ -k by omega)
    have hk2 : k = -(n : ℤ) := by omega
    subst hk2
    have h1 : (-(n : ℤ)).toNat = 0 := Int.toNat_eq_zero.2 (by omega)
    rw [h1, neg_neg, Int.toNat_ofNat, zpow_neg, zpow_natCast]
    simp [div_eq_mul_inv]

theorem scale_one_pos (k : Int) : 0 < Float64.scale 1 k := by
  rw [scale_eq_zpow]
  simpa using zpow_pos (by norm_num : (0 : ℚ) < 2) k

theorem log2Fuel_spec (fuel n : Nat) (hn : 0 < n) (hfuel : n ≤ fuel) :
    2 ^ Float64.log2Fuel fuel n ≤ n ∧ n < 2 ^ (Float64.log2Fuel fuel n + 1) := by
  induction fuel generalizing n with
  | zero => omega
  | succ fuel ih =>
    unfold Float64.log2Fuel
    by_cases h2 : n < 2
    · simp only [h2, if_true]
      omega
    · simp only [h2, if_false]
      have hih := ih (n / 2) (by omega) (by omega)
      constructor
      · calc 2 ^ (Float64.log2Fuel fuel (n / 2) + 1)
            = 2 ^ Float64.log2Fuel fuel (n / 2) * 2 := by rw [pow_succ]
          _ ≤ n / 2 * 2 := Nat.mul_le_mul_right 2 hih.1
          _ ≤ n := Nat.div_mul_le_self n 2
      · have : n / 2 + 1 ≤ 2 ^ (Float64.log2Fuel fuel (n / 2) + 1) := hih.2
        calc n < (n / 2 + 1) * 2 := by omega
          _ ≤ 2 ^ (Float64.log2Fuel fuel (n / 2) + 1) * 2 := Nat.mul_le_mul_right 2 this
          _ = 2 ^ (Float64.log2Fuel fuel (n / 2) + 1 + 1) := by ring

theorem ilog2_spec (x : ℚ) (hx : 0 < x) :
    (2 : ℚ) ^ Float64.ilog2 x ≤ x ∧ x < (2 : ℚ) ^ (Float64.ilog2 x + 1) := by
  have hnum : 0 < x.num := Rat.num_pos.2 hx
  have hden : 0 < x.den := x.den_pos
  set n := x.num.natAbs with hn
  set d := x.den with hd
  have hnpos : 0 < n := Int.natAbs_pos.2 (ne_of_gt hnum)
  have hxeq : x = (n : ℚ) / (d : ℚ) := by
    have h1 : ((n : ℤ) : ℚ) = (x.num : ℚ) := by
      rw [hn, Int.natAbs_of_nonneg (le_of_lt hnum)]
    have h2 := Rat.num_div_den x
    rw [← h1] at h2
    simpa using h2.symm
  have hdq : (0 : ℚ) < (d : ℚ) := by exact_mod_cast hden
  have ha := log2Fuel_spec n n hnpos le_rfl
  have hb := log2Fuel_spec d d hden le_rfl
  set a := Float64.log2Fuel n n with hadef
  set b := Float64.log2Fuel d d with hbdef
  have h2 : (2 : ℚ) ≠ 0 := by norm_num
  have hpa : (2 : ℚ) ^ (a : ℤ) = ((2 ^ a : ℕ) : ℚ) := by rw [zpow_natCast]; push_cast; rfl
  have hpb : (2 : ℚ) ^ (b : ℤ) = ((2 ^ b : ℕ) : ℚ) := by rw [zpow_natCast]; push_cast; rfl
  have hpbpos : (0 : ℚ) < (2 : ℚ) ^ (b : ℤ) := zpow_pos (by norm_num) _
  have ha1 : ((2 ^ a : ℕ) : ℚ) ≤ (n : ℚ) := by exact_mod_cast ha.1
  have ha2 : (n : ℚ) < ((2 ^ (a + 1) : ℕ) : ℚ) := by exact_mod_cast ha.2
  have hb1 : ((2 ^ b : ℕ) : ℚ) ≤ (d : ℚ) := by exact_mod_cast hb.1
  have hb2 : (d : ℚ) < ((2 ^ (b + 1) : ℕ) : ℚ) := by exact_mod_cast hb.2
  have hpa1 : (2 : ℚ) ^ ((a : ℤ) + 1) = ((2 ^ (a + 1) : ℕ) : ℚ) := by
    rw [zpow_add_one₀ h2, hpa]; push_cast; ring
  have hpb1 : (2 : ℚ) ^ ((b : ℤ) + 1) = ((2 ^ (b + 1) : ℕ) : ℚ) := by
    rw [zpow_add_one₀ h2, hpb]; push_cast; ring
  unfold Float64.ilog2
  simp only []
  rw [← hn, ← hd, ← hadef, ← hbdef]
  by_cases hc : d * 2 ^ a ≤ n * 2 ^ b
  · simp only [hc, if_true]
    have hcq : (d : ℚ) * ((2 ^ a : ℕ) : ℚ) ≤ (n : ℚ) * ((2 ^ b : ℕ) : ℚ) := by exact_mod_cast hc
    constructor
    · rw [zpow_sub₀ h2, hxeq, hpa, hpb, div_le_div_iff₀ (by rw [← hpb]; exact hpbpos) hdq]
      linarith
    · rw [show (a : ℤ) - b + 1 = (a + 1 : ℤ) - b by ring, zpow_sub₀ h2, hxeq, hpa1, hpb,
        div_lt_div_iff₀ hdq (by rw [← hpb]; exact hpbpos)]
      calc (n : ℚ) * ((2 ^ b : ℕ) : ℚ) < ((2 ^ (a + 1) : ℕ) : ℚ) * ((2 ^ b : ℕ) : ℚ) := by
            apply mul_lt_mul_of_pos_right ha2
            rw [← hpb]; exact hpbpos
        _ ≤ ((2 ^ (a + 1) : ℕ) : ℚ) * (d : ℚ) := by
            apply mul_le_mul_of_nonneg_left hb1
            positivity
  · simp only [hc, if_false]
    have hcq : (n : ℚ) * ((2 ^ b : ℕ) : ℚ) < (d : ℚ) * ((2 ^ a : ℕ) : ℚ) := by
      exact_mod_cast Nat.lt_of_not_le hc
    constructor
    · rw [show (a : ℤ) - b - 1 = (a : ℤ) - (b + 1) by ring, zpow_sub₀ h2, hxeq, hpa, hpb1,
        div_le_div_iff₀ (by positivity) hdq]
      calc ((2 ^ a : ℕ) : ℚ) * (d : ℚ) ≤ (n : ℚ) * (d : ℚ) := by
            apply mul_le_mul_of_nonneg_right ha1 (le_of_lt hdq)
        _ ≤ (n : ℚ) * ((2 ^ (b + 1) : ℕ) : ℚ) := by
            apply mul_le_mul_of_nonneg_left (le_of_lt hb2)
            positivity
    · rw [show (a : ℤ) - b - 1 + 1 = (a : ℤ) - b by ring, zpow_sub₀ h2, hxeq, hpa, hpb,
        div_lt_div_iff₀ hdq (by rw [← hpb]; exact hpbpos)]
      linarith

theorem roundHalfEven_le (y : ℚ) (N : ℤ) (h : y ≤ (N : ℚ)) : Float64.roundHalfEven y ≤ N := by
  have hf : ⌊y⌋ ≤ N := by
    have := Int.floor_le y
    exact_mod_cast le_trans this h
  unfold Float64.roundHalfEven
  by_cases h1 : y - ⌊y⌋ < 1 / 2
  · simp only [h1, if_true]
    exact hf
  · have hlt : ⌊y⌋ < N := by
      rcases lt_or_eq_of_le hf with hlt | heq
      · exact hlt
      · exfalso
        rw [heq] at h1
        apply h1
        linarith
    simp only [h1, if_false]
    split_ifs <;> omega

theorem roundHalfEven_intCast (N : ℤ) : Float64.roundHalfEven (N : ℚ) = N := by
  unfold Float64.roundHalfEven
  simp

theorem roundHalfEven_nonneg (y : ℚ) (h : 0 ≤ y) : 0 ≤ Float64.roundHalfEven y := by
  have hf : 0 ≤ ⌊y⌋ := Int.floor_nonneg.2 h
  unfold Float64.roundHalfEven
  split_ifs <;> omega

theorem quantum_ge (x : ℚ) : -1074 ≤ Float64.quantum x := le_max_right _ _

theorem quantum_neg (x : ℚ) : Float64.quantum (-x) = Float64.quantum x := by
  unfold Float64.quantum
  rw [abs_neg]

theorem roundMagnitude_neg (x : ℚ) : Float64.roundMagnitude (-x) = Float64.roundMagnitude x := by
  unfold Float64.roundMagnitude
  rw [quantum_neg, abs_neg]

theorem roundMagnitude_nonneg (x : ℚ) : 0 ≤ Float64.roundMagnitude x := by
  unfold Float64.roundMagnitude
  have hP := scale_one_pos (Float64.quantum x)
  have : 0 ≤ Float64.roundHalfEven (|x| / Float64.scale 1 (Float64.quantum x)) :=
    roundHalfEven_nonneg _ (div_nonneg (abs_nonneg x) (le_of_lt hP))
  have hq : (0 : ℚ) ≤ (Float64.roundHalfEven (|x| / Float64.scale 1 (Float64.quantum x)) : ℚ) := by
    exact_mod_cast this
  exact mul_nonneg hq (le_of_lt hP)

/-- A binary64 value `t` at or above a positive `x` is a whole multiple of the last place of
the values around `x`. -/
theorem representable_multiple (x t : ℚ) (hx : 0 < x) (hxt : x ≤ t)
    (ht : Float64.Representable t) :
    ∃ N : ℤ, t = (N : ℚ) * Float64.scale 1 (Float64.quantum x) := by
  obtain ⟨n, j, hn, hj, ht, _⟩ := ht
  have h2 : (2 : ℚ) ≠ 0 := by norm_num
  have hspec := ilog2_spec x hx
  have habs : |x| = x := abs_of_pos hx
  set k := Float64.quantum x with hk
  have hkdef : k = max (Float64.ilog2 x - 52) (-1074) := by
    rw [hk]
    unfold Float64.quantum
    rw [habs]
  rw [scale_eq_zpow]
  by_cases hjk : k ≤ j
  · obtain ⟨i, hi⟩ := Int.eq_ofNat_of_zero_le (show 0 ≤ j - k by omega)
    refine ⟨(n : ℤ) * 2 ^ i, ?_⟩
    have hj2 : j = (i : ℤ) + k := by omega
    rw [ht, hj2, zpow_add₀ h2, zpow_natCast]
    push_cast
    ring
  · have hk2 : k = Float64.ilog2 x - 52 := by
      rw [hkdef]
      apply max_eq_left
      have : -1074 < k := by omega
      rw [hkdef] at this
      rcases le_total (Float64.ilog2 x - 52) (-1074) with hle | hle
      · rw [max_eq_right hle] at this
        omega
      · exact hle
    have hje : j + 53 ≤ Float64.ilog2 x := by omega
    have hnq : (n : ℚ) ≤ (2 : ℚ) ^ (53 : ℤ) := by
      have h53 : (2 : ℚ) ^ (53 : ℤ) = ((2 ^ 53 : ℕ) : ℚ) := by norm_num
      rw [h53]
      exact_mod_cast hn
    have hjpos : (0 : ℚ) < (2 : ℚ) ^ j := zpow_pos (by norm_num) _
    have hle : t ≤ (2 : ℚ) ^ Float64.ilog2 x := by
      calc t = (n : ℚ) * (2 : ℚ) ^ j := ht
        _ ≤ (2 : ℚ) ^ (53 : ℤ) * (2 : ℚ) ^ j := mul_le_mul_of_nonneg_right hnq (le_of_lt hjpos)
        _ = (2 : ℚ) ^ (53 + j) := by rw [zpow_add₀ h2]
        _ ≤ (2 : ℚ) ^ Float64.ilog2 x := zpow_le_zpow_right₀ (by norm_num) (by omega)
    have hteq : t = (2 : ℚ) ^ Float64.ilog2 x := le_antisymm hle (le_trans hspec.1 hxt)
    refine ⟨2 ^ 52, ?_⟩
    rw [hteq, hk2]
    have : Float64.ilog2 x = 52 + (Float64.ilog2 x - 52) := by ring
    conv_lhs => rw [this, zpow_add₀ h2]
    norm_num

theorem roundMagnitude_le (x t : ℚ) (hx : 0 < x) (hxt : x ≤ t) (ht : Float64.Representable t) :
    Float64.roundMagnitude x ≤ t := by
  obtain ⟨N, hN⟩ := representable_multiple x t hx hxt ht
  have hP := scale_one_pos (Float64.quantum x)
  unfold Float64.roundMagnitude
  rw [abs_of_pos hx]
  have hy : x / Float64.scale 1 (Float64.quantum x) ≤ (N : ℚ) := by
    rw [div_le_iff₀ hP, ← hN]
    exact hxt
  have := roundHalfEven_le _ N hy
  have hq : (Float64.roundHalfEven (x / Float64.scale 1 (Float64.quantum x)) : ℚ) ≤ (N : ℚ) := by
    exact_mod_cast this
  calc _ ≤ (N : ℚ) * Float64.scale 1 (Float64.quantum x) :=
        mul_le_mul_of_nonneg_right hq (le_of_lt hP)
    _ = t := hN.symm

theorem roundMagnitude_self (t : ℚ) (ht0 : 0 < t) (ht : Float64.Representable t) :
    Float64.roundMagnitude t = t := by
  obtain ⟨N, hN⟩ := representable_multiple t t ht0 le_rfl ht
  have hP := scale_one_pos (Float64.quantum t)
  unfold Float64.roundMagnitude
  rw [abs_of_pos ht0]
  have hy : t / Float64.scale 1 (Float64.quantum t) = (N : ℚ) := by
    rw [div_eq_iff (ne_of_gt hP), ← hN]
  rw [hy, roundHalfEven_intCast, ← hN]

theorem roundMagnitude_grid (x : ℚ) (hx : x ≠ 0) :
    ∃ m : ℕ, m ≤ 2 ^ 53 ∧
      Float64.roundMagnitude x = (m : ℚ) * (2 : ℚ) ^ Float64.quantum x := by
  have h2 : (2 : ℚ) ≠ 0 := by norm_num
  have ha : 0 < |x| := abs_pos.2 hx
  have hspec := ilog2_spec |x| ha
  have hP := scale_one_pos (Float64.quantum x)
  have hPeq : Float64.scale 1 (Float64.quantum x) = (2 : ℚ) ^ Float64.quantum x := by
    rw [scale_eq_zpow]
    simp
  have hk : Float64.ilog2 |x| - 52 ≤ Float64.quantum x := le_max_left _ _
  have hy : |x| / Float64.scale 1 (Float64.quantum x) ≤ (((2 : ℤ) ^ 53 : ℤ) : ℚ) := by
    rw [div_le_iff₀ hP, hPeq]
    have h53 : (((2 : ℤ) ^ 53 : ℤ) : ℚ) = (2 : ℚ) ^ (53 : ℤ) := by norm_num
    rw [h53, ← zpow_add₀ h2]
    exact le_trans (le_of_lt hspec.2) (zpow_le_zpow_right₀ (by norm_num) (by omega))
  have hle := roundHalfEven_le _ _ hy
  have hnn := roundHalfEven_nonneg (|x| / Float64.scale 1 (Float64.quantum x))
    (div_nonneg (abs_nonneg x) (le_of_lt hP))
  obtain ⟨m, hm⟩ := Int.eq_ofNat_of_zero_le hnn
  refine ⟨m, ?_, ?_⟩
  · rw [hm] at hle
    exact_mod_cast hle
  · unfold Float64.roundMagnitude
    rw [hm, hPeq]
    simp

theorem roundMagnitude_representable (x : ℚ) (hx : x ≠ 0)
    (hlt : ¬ Float64.scale 1 1024 ≤ Float64.roundMagnitude x) :
    Float64.Representable (Float64.roundMagnitude x) := by
  obtain ⟨m, hm, heq⟩ := roundMagnitude_grid x hx
  refine ⟨m, Float64.quantum x, hm, quantum_ge x, heq, ?_⟩
  have : Float64.scale 1 1024 = (2 : ℚ) ^ (1024 : ℤ) := by
    rw [scale_eq_zpow]
    simp
  rw [← this]
  exact lt_of_not_le hlt

theorem representable_zero : Float64.Representable 0 :=
  ⟨0, 0, by norm_num, by norm_num, by simp, by positivity⟩

/-- The rounding of a non-negative exact result is `+Inf` or a non-negative binary64 value. -/
theorem round_nonneg (x : ℚ) (hx : 0 ≤ x) :
    Float64.round x = .inf false ∨
      ∃ t, Float64.round x = .finite t ∧ 0 ≤ t ∧ Float64.Representable t := by
  unfold Float64.round
  by_cases h0 : x = 0
  · right
    exact ⟨0, by simp [h0], le_rfl, representable_zero⟩
  · have hneg : ¬ x < 0 := not_lt.2 hx
    by_cases hov : Float64.scale 1 1024 ≤ Float64.roundMagnitude x
    · left
      simp [h0, hov, hneg]
    · right
      exact ⟨Float64.roundMagnitude x, by simp [h0, hov, hneg], roundMagnitude_nonneg x,
        roundMagnitude_representable x h0 hov⟩

/-- Rounding does not step over a binary64 value: an exact result between `0` and a binary64
value `t` rounds to a binary64 value between `0` and `t`. -/
theorem round_le (x t : ℚ) (hx : 0 ≤ x) (hxt : x ≤ t) (ht : Float64.Representable t) :
    ∃ d, Float64.round x = .finite d ∧ 0 ≤ d ∧ d ≤ t ∧ Float64.Representable d := by
  unfold Float64.round
  by_cases h0 : x = 0
  · exact ⟨0, by simp [h0], le_rfl, by rw [h0] at hxt; exact hxt, representable_zero⟩
  · have hpos : 0 < x := lt_of_le_of_ne hx (Ne.symm h0)
    have hneg : ¬ x < 0 := not_lt.2 hx
    have hle := roundMagnitude_le x t hpos hxt ht
    have hov : ¬ Float64.scale 1 1024 ≤ Float64.roundMagnitude x := by
      obtain ⟨_, _, _, _, _, hlt⟩ := ht
      have : Float64.scale 1 1024 = (2 : ℚ) ^ (1024 : ℤ) := by
        rw [scale_eq_zpow]
        simp
      rw [this]
      exact not_le.2 (lt_of_le_of_lt hle hlt)
    exact ⟨Float64.roundMagnitude x, by simp [h0, hov, hneg], roundMagnitude_nonneg x, hle,
      roundMagnitude_representable x h0 hov⟩

/-- Rounding a value that is itself a result of rounding changes nothing. -/
theorem round_idempotent (x t : ℚ) (h : Float64.round x = .finite t) :
    Float64.round t = .finite t := by
  unfold Float64.round at h
  by_cases h0 : x = 0
  · simp only [h0, if_true, Float64.finite.injEq] at h
    rw [← h]
    simp [Float64.round]
  · simp only [h0, if_false] at h
    by_cases hov : Float64.scale 1 1024 ≤ Float64.roundMagnitude x
    · simp [hov] at h
    · simp only [hov, if_false, Float64.finite.injEq] at h
      have hrep := roundMagnitude_representable x h0 hov
      have hnn := roundMagnitude_nonneg x
      by_cases hM : Float64.roundMagnitude x = 0
      · have : t = 0 := by
          rw [← h, hM]
          simp
        rw [this]
        simp [Float64.round]
      · have hMpos : 0 < Float64.roundMagnitude x := lt_of_le_of_ne hnn (Ne.symm hM)
        have hself := roundMagnitude_self _ hMpos hrep
        by_cases hneg : x < 0
        · simp only [hneg, if_true] at h
          have ht0 : t ≠ 0 := by
            rw [← h]
            exact neg_ne_zero.2 hM
          have htneg : t < 0 := by
            rw [← h]
            exact neg_neg_of_pos hMpos
          have hmag : Float64.roundMagnitude t = Float64.roundMagnitude x := by
            rw [← h, roundMagnitude_neg, hself]
          unfold Float64.round
          simp only [ht0, if_false, hmag, hov, htneg, if_true]
          rw [h]
        · simp only [hneg, if_false] at h
          have ht0 : t ≠ 0 := by
            rw [← h]
            exact hM
          have htneg : ¬ t < 0 := by
            rw [← h]
            exact not_lt.2 hnn
          have hmag : Float64.roundMagnitude t = Float64.roundMagnitude x := by
            rw [← h, hself]
          unfold Float64.round
          simp only [ht0, if_false, hmag, hov, htneg]
          rw [h]

/-! ## Order totals in `float64` -/

theorem add_sub_zero (a b : Float64) :
    Float64.sub (Float64.add a b) (.finite 0) = Float64.add a b := by
  cases a with
  | nan => cases b <;> rfl
  | inf sa =>
    cases b with
    | nan => rfl
    | finite y => rfl
    | inf sb =>
      by_cases h : sa = sb
      · simp [Float64.add, Float64.sub, Float64.neg, h]
      · simp [Float64.add, Float64.sub, Float64.neg, h]
  | finite x =>
    cases b with
    | nan => rfl
    | inf sb => rfl
    | finite y =>
      cases hr : Float64.round (x + y) with
      | nan => simp [Float64.add, Float64.sub, Float64.neg, hr]
      | inf s => simp [Float64.add, Float64.sub, Float64.neg, hr]
      | finite t =>
        have := round_idempotent _ _ hr
        simp [Float64.add, Float64.sub, Float64.neg, hr, this]

theorem preDiscountTotal_sub_zero (products : List (Product Float64)) (items : List OrderItem)
    (hne : products.zip items ≠ []) :
    Float64.sub (preDiscountTotal float64Ops products items) (.finite 0) =
      preDiscountTotal float64Ops products items := by
  unfold preDiscountTotal
  rcases List.eq_nil_or_concat (products.zip items) with h | ⟨init, last, h⟩
  · exact absurd h hne
  · rw [h, List.concat_eq_append, List.foldl_append]
    exact add_sub_zero _ _

theorem placeOrder_of_resolved {F : Type} (s : OrderService F) (ops : Float64Ops F) (now : Int)
    (ctx : Context) (req : OrderRequest)
    (hreq : OrderService.validateOrderRequest req = none)
    (hall : ∀ item ∈ req.Items, ∃ p, s.productRepo ctx item.ProductID = .ok p) :
    ∃ ps, List.Forall₂ (fun p item => s.productRepo ctx item.ProductID = .ok p) ps req.Items ∧
      s.PlaceOrder ops now ctx req =
        match s.applyPromoCodeDiscount ops ctx req.CouponCode
            (preDiscountTotal ops ps req.Items) with
        | .error err => .error err
        | .ok discountAmount =>
          .ok { ID := "order_" ++ toString now
                Total := ops.sub (preDiscountTotal ops ps req.Items) discountAmount
                Discounts := discountAmount
                Items := req.Items
                Products := ps } := by
  obtain ⟨res, hres⟩ := calculateLoop_of_all s ops ctx req.Items 0 [] ops.zero hall
  obtain ⟨new, hps, hfor, ht⟩ := calculateLoop_ok s ops ctx req.Items 0 [] ops.zero res.1 res.2 hres
  rw [List.nil_append] at hps
  refine ⟨new, hfor, ?_⟩
  have hres2 : OrderService.calculateLoop s ops ctx req.Items 0 [] ops.zero =
      .ok (new, preDiscountTotal ops new req.Items) := by
    rw [hres]
    unfold preDiscountTotal
    rw [← ht, ← hps]
  simp only [OrderService.PlaceOrder, hreq, OrderService.validateAndCalculateItems, hres2]

/-- C13: a structurally valid request with no coupon code whose items all resolve is placed:
`PlaceOrder` succeeds, the products of the order are the resolved products in request order,
the discount is `0`, and the total is the `float64` sum, accumulated from `0` in request order,
of `price * float64(quantity)`. -/
theorem C13_no_coupon_total_is_sum (s : OrderService Float64) (now : Int) (ctx : Context)
    (req : OrderRequest) (hvalid : req.Validate = none) (hcoupon : req.CouponCode = "")
    (hall : ∀ item ∈ req.Items, ∃ p, s.productRepo ctx item.ProductID = .ok p) :
    ∃ order, s.PlaceOrder float64Ops now ctx req = .ok order ∧
      List.Forall₂ (fun p item => s.productRepo ctx item.ProductID = .ok p) order.Products
        req.Items ∧
      order.Discounts = .finite 0 ∧
      order.Total = preDiscountTotal float64Ops order.Products req.Items := by
  have hreq := validateOrderRequest_of_wellFormed req hvalid (Or.inl hcoupon)
  obtain ⟨ps, hfor, hplace⟩ := placeOrder_of_resolved s float64Ops now ctx req hreq hall
  have hdisc : s.applyPromoCodeDiscount float64Ops ctx req.CouponCode
      (preDiscountTotal float64Ops ps req.Items) = .ok (.finite 0) := by
    rw [hcoupon]
    have : strings.TrimSpace "" = "" := by decide
    simp [OrderService.applyPromoCodeDiscount, this, float64Ops]
  rw [hdisc] at hplace
  refine ⟨_, hplace, hfor, rfl, ?_⟩
  have hne : ps.zip req.Items ≠ [] := by
    have hitems : req.Items ≠ [] := ((requestValidate_none_iff req).1 hvalid).1
    have hlen := hfor.length_eq
    cases hps : ps with
    | nil =>
      rw [hps] at hlen
      exact absurd (List.length_eq_zero.1 hlen.symm) hitems
    | cons p rest =>
      cases hit : req.Items with
      | nil => exact absurd hit hitems
      | cons item restItems => simp
  exact preDiscountTotal_sub_zero ps req.Items hne

/-- C13, instance: two units of product `10` (999.99) against the built-in catalog give the
total `float64(1999.98)` and the discount `0`. -/
theorem C13_no_coupon_total_is_sum_witness :
    (∃ order, demoServiceF64.PlaceOrder float64Ops 0 Context.background ⟨"", [⟨"10", 2⟩]⟩ =
        .ok order ∧
      List.Forall₂ (fun p item => demoServiceF64.productRepo Context.background
        item.ProductID = .ok p) order.Products ([⟨"10", 2⟩] : List OrderItem) ∧
      order.Discounts = .finite 0 ∧
      order.Total = preDiscountTotal float64Ops order.Products [⟨"10", 2⟩]) ∧
    ∃ order, demoServiceF64.PlaceOrder float64Ops 0 Context.background ⟨"", [⟨"10", 2⟩]⟩ =
        .ok order ∧
      order.Total = float64Ops.lit 199998 2 ∧ order.Discounts = float64Ops.lit 0 0 :=
  ⟨C13_no_coupon_total_is_sum demoServiceF64 0 Context.background ⟨"", [⟨"10", 2⟩]⟩
      (by decide) rfl (by
        intro item hitem
        simp only [List.mem_singleton] at hitem
        subst hitem
        exact ⟨_, rfl⟩),
    ⟨_, rfl, by decide!, by decide!⟩⟩

theorem applyPromo_ok_inv {F : Type} (s : OrderService F) (ops : Float64Ops F) (ctx : Context)
    (couponCode : String) (totalAmount d : F)
    (h : s.applyPromoCodeDiscount ops ctx couponCode totalAmount = .ok d) :
    (strings.TrimSpace couponCode = "" ∧ d = ops.zero) ∨
      (strings.TrimSpace couponCode ≠ "" ∧ s.promoService ctx couponCode = (true, none) ∧
        d = ops.mul totalAmount ops.tenth) := by
  unfold OrderService.applyPromoCodeDiscount at h
  by_cases hc : strings.TrimSpace couponCode = ""
  · left
    simp only [hc, if_true, Except.ok.injEq] at h
    exact ⟨hc, h.symm⟩
  · right
    simp only [hc, if_false] at h
    cases hres : s.promoService ctx couponCode with
    | mk valid err =>
      rw [hres] at h
      cases err with
      | some e => simp at h
      | none =>
        cases valid with
        | false => simp at h
        | true =>
          simp only [Bool.true_eq_false, if_false, Except.ok.injEq] at h
          exact ⟨hc, rfl, h.symm⟩

theorem placeOrder_ok_total {F : Type} (s : OrderService F) (ops : Float64Ops F) (now : Int)
    (ctx : Context) (req : OrderRequest) (order : Order F)
    (h : s.PlaceOrder ops now ctx req = .ok order) :
    OrderService.validateOrderRequest req = none ∧
      List.Forall₂ (fun p item => s.productRepo ctx item.ProductID = .ok p) order.Products
        req.Items ∧
      order.Items = req.Items ∧ order.ID = "order_" ++ toString now ∧
      s.applyPromoCodeDiscount ops ctx req.CouponCode
        (preDiscountTotal ops order.Products req.Items) = .ok order.Discounts ∧
      order.Total = ops.sub (preDiscountTotal ops order.Products req.Items) order.Discounts := by
  obtain ⟨hreq, ps, t, d, hcalc, hdisc, horder⟩ := placeOrder_ok_inv s ops now ctx req order h
  obtain ⟨new, hps, hfor, ht⟩ := calculateLoop_ok s ops ctx req.Items 0 [] ops.zero ps t hcalc
  rw [List.nil_append] at hps
  subst hps
  subst horder
  have hpre : preDiscountTotal ops ps req.Items = t := by
    unfold preDiscountTotal
    exact ht.symm
  rw [hpre]
  exact ⟨hreq, hfor, rfl, rfl, hdisc, rfl⟩

/-- C14: when `PlaceOrder` places an order for a request with a coupon code, the promo service
has reported the code valid; the items of the order are those of the request and its products
are the products the repository resolves them to, in request order; the discount is the
`float64` product of the pre-discount total (the `float64` sum of `price * float64(quantity)`
over those items and products) and the constant `0.10`; and the total is the pre-discount total
minus that discount. When the pre-discount total is `100` the discount is `10` and the total
`90`; when it is `0` the discount is `0`. -/
theorem C14_discount_is_ten_percent (s : OrderService Float64) (now : Int) (ctx : Context)
    (req : OrderRequest) (order : Order Float64)
    (h : s.PlaceOrder float64Ops now ctx req = .ok order)
    (hcoupon : strings.TrimSpace req.CouponCode ≠ "") :
    s.promoService ctx req.CouponCode = (true, none) ∧
      order.Items = req.Items ∧
      List.Forall₂ (fun p item => s.productRepo ctx item.ProductID = .ok p) order.Products
        req.Items ∧
      order.Discounts =
        Float64.mul (preDiscountTotal float64Ops order.Products req.Items) float64Ops.tenth ∧
      order.Total =
        Float64.sub (preDiscountTotal float64Ops order.Products req.Items) order.Discounts ∧
      (preDiscountTotal float64Ops order.Products req.Items = float64Ops.lit 100 0 →
        order.Discounts = float64Ops.lit 10 0 ∧ order.Total = float64Ops.lit 90 0) ∧
      (preDiscountTotal float64Ops order.Products req.Items = float64Ops.lit 0 0 →
        order.Discounts = float64Ops.lit 0 0 ∧ order.Total = float64Ops.lit 0 0) ∧
      float64Ops.tenth = float64Ops.lit 10 2 ∧
      Float64.mul (float64Ops.lit 100 0) float64Ops.tenth = float64Ops.lit 10 0 ∧
      Float64.sub (float64Ops.lit 100 0) (float64Ops.lit 10 0) = float64Ops.lit 90 0 ∧
      Float64.mul (float64Ops.lit 0 0) float64Ops.tenth = float64Ops.lit 0 0 := by
  obtain ⟨_, hfor, hitems, _, hdisc, htotal⟩ :=
    placeOrder_ok_total s float64Ops now ctx req order h
  have hsub : ∀ x : Float64, float64Ops.sub x order.Discounts = Float64.sub x order.Discounts :=
    fun _ => rfl
  rcases applyPromo_ok_inv s float64Ops ctx req.CouponCode _ _ hdisc with ⟨hc, _⟩ | ⟨_, hps, hd⟩
  · exact absurd hc hcoupon
  · have hd2 : order.Discounts =
        Float64.mul (preDiscountTotal float64Ops order.Products req.Items) float64Ops.tenth := hd
    have h100 : Float64.mul (float64Ops.lit 100 0) float64Ops.tenth = float64Ops.lit 10 0 := by
      decide!
    have h90 : Float64.sub (float64Ops.lit 100 0) (float64Ops.lit 10 0) = float64Ops.lit 90 0 := by
      decide!
    have h0 : Float64.mul (float64Ops.lit 0 0) float64Ops.tenth = float64Ops.lit 0 0 := by
      decide!
    have h00 : Float64.sub (float64Ops.lit 0 0) (float64Ops.lit 0 0) = float64Ops.lit 0 0 := by
      decide!
    refine ⟨hps, hitems, hfor, hd2, htotal, ?_, ?_, by decide!, h100, h90, h0⟩
    · intro hpre
      have hten : order.Discounts = float64Ops.lit 10 0 := by rw [hd2, hpre, h100]
      exact ⟨hten, by rw [htotal, hsub, hpre, hten, h90]⟩
    · intro hpre
      have hzero : order.Discounts = float64Ops.lit 0 0 := by rw [hd2, hpre, h0]
      exact ⟨hzero, by rw [htotal, hsub, hpre, hzero, h00]⟩

/-- C14, instances, all with the coupon `HAPPYHRS`, which is in two of the three coupon files.
One unit of product `11` (849.99) and three of product `12` (1099.99) of the built-in catalog:
pre-discount total `float64(4149.96)`, discount `7300686839688463 / 2 ^ 44 =
414.99600000000004...`, total `float64(3734.964)`. Two units of a product priced 50.00:
pre-discount total `100`, discount `10`, total `90`. One unit of a product priced 0: discount
`0`, total `0`. -/
theorem C14_discount_is_ten_percent_witness :
    (∃ order, demoServiceF64.PlaceOrder float64Ops 0 Context.background
        ⟨"HAPPYHRS", [⟨"11", 1⟩, ⟨"12", 3⟩]⟩ = .ok order ∧
      strings.TrimSpace "HAPPYHRS" ≠ "" ∧
      demoServiceF64.promoService Context.background "HAPPYHRS" = (true, none) ∧
      order.Products.map (fun p => p.Name) = ["Samsung Galaxy S24", "iPad Pro 12.9"] ∧
      List.Forall₂ (fun p item => demoServiceF64.productRepo Context.background
        item.ProductID = .ok p) order.Products ([⟨"11", 1⟩, ⟨"12", 3⟩] : List OrderItem) ∧
      preDiscountTotal float64Ops order.Products [⟨"11", 1⟩, ⟨"12", 3⟩] =
        float64Ops.lit 414996 2 ∧
      order.Discounts =
        Float64.mul (preDiscountTotal float64Ops order.Products [⟨"11", 1⟩, ⟨"12", 3⟩])
          float64Ops.tenth ∧
      order.Discounts = .finite (7300686839688463 / 17592186044416) ∧
      order.Total = float64Ops.lit 3734964 3) ∧
    (∃ order, roundPriceService.PlaceOrder float64Ops 0 Context.background
        ⟨"HAPPYHRS", [⟨"20", 2⟩]⟩ = .ok order ∧
      preDiscountTotal float64Ops order.Products [⟨"20", 2⟩] = float64Ops.lit 100 0 ∧
      order.Discounts = float64Ops.lit 10 0 ∧ order.Total = float64Ops.lit 90 0) ∧
    ∃ order, roundPriceService.PlaceOrder float64Ops 0 Context.background
        ⟨"HAPPYHRS", [⟨"21", 1⟩]⟩ = .ok order ∧
      preDiscountTotal float64Ops order.Products [⟨"21", 1⟩] = float64Ops.lit 0 0 ∧
      order.Discounts = float64Ops.lit 0 0 ∧ order.Total = float64Ops.lit 0 0 :=
  ⟨⟨_, rfl, by decide,
      (C14_discount_is_ten_percent demoServiceF64 0 Context.background
        ⟨"HAPPYHRS", [⟨"11", 1⟩, ⟨"12", 3⟩]⟩ _ rfl (by decide)).1,
      by decide,
      (C14_discount_is_ten_percent demoServiceF64 0 Context.background
        ⟨"HAPPYHRS", [⟨"11", 1⟩, ⟨"12", 3⟩]⟩ _ rfl (by decide)).2.2.1,
      by decide!,
      (C14_discount_is_ten_percent demoServiceF64 0 Context.background
        ⟨"HAPPYHRS", [⟨"11", 1⟩, ⟨"12", 3⟩]⟩ _ rfl (by decide)).2.2.2.1,
      by decide!, by decide!⟩,
    ⟨_, rfl, by decide!,
      (C14_discount_is_ten_percent roundPriceService 0 Context.background
        ⟨"HAPPYHRS", [⟨"20", 2⟩]⟩ _ rfl (by decide)).2.2.2.2.2.1 (by decide!)⟩,
    ⟨_, rfl, by decide!,
      (C14_discount_is_ten_percent roundPriceService 0 Context.background
        ⟨"HAPPYHRS", [⟨"21", 1⟩]⟩ _ rfl (by decide)).2.2.2.2.2.2.1 (by decide!)⟩⟩

/-- C15, counterexample: (1) for two units of product `10` and the coupon `HAPPYHRS`, present
in two of the three files, the discount is the `float64` value
`7036804049022223 / 2 ^ 45 = 199.99800000000002...`, which is not `float64(199.998)`; the total
is `float64(1799.982)`. (2) The coupon ` HAPPYHRS ` with a blank on either side passes the format
check, its trimmed form is in two of the three files, and `PlaceOrder` fails with an error
wrapping `ErrInvalidPromoCode`. -/
theorem C15_discount_value_and_padded_code :
    (∃ order, demoServiceF64.PlaceOrder float64Ops 0 Context.background
        ⟨"HAPPYHRS", [⟨"10", 2⟩]⟩ = .ok order ∧
      order.Discounts = .finite (7036804049022223 / 35184372088832) ∧
      order.Discounts ≠ float64Ops.lit 199998 3 ∧
      order.Total = float64Ops.lit 1799982 3) ∧
    (OrderRequest.mk " HAPPYHRS " [⟨"10", 2⟩]).Validate = none ∧
    OrderService.validateCouponCodeFormat " HAPPYHRS " = none ∧
    2 ≤ demoPaths.countP (fun path =>
      decide (∃ line ∈ (demoFs path).lines,
        strings.TrimSpace line = strings.TrimSpace " HAPPYHRS ")) ∧
    ∃ err, demoServiceF64.PlaceOrder float64Ops 0 Context.background
        ⟨" HAPPYHRS ", [⟨"10", 2⟩]⟩ = .error err ∧
      errors.Is err .ErrInvalidPromoCode = true :=
  ⟨⟨_, rfl, by decide!, by decide!, by decide!⟩, by decide, by decide, by decide,
    ⟨_, rfl, by decide⟩⟩

theorem wired_promo_valid {F : Type} (products : List (Product F)) (filePaths : List String)
    (fs : FileSystem) (sched : Schedule) (ctx : Context) (code : String)
    (hfmt : OrderService.validateCouponCodeFormat code = none)
    (hraw : strings.TrimSpace code = code)
    (hlen : 2 ≤ filePaths.length) (hread : ∀ path ∈ filePaths, readable fs path)
    (hctx : ctx.neverDone) (harrival : sched.arrival.Perm (List.range filePaths.length))
    (hcount : 2 ≤ filePaths.countP fun path =>
      decide (∃ line ∈ (fs path).lines, strings.TrimSpace line = code)) :
    (wiredOrderService products filePaths fs sched).promoService ctx code = (true, none) := by
  have h := (validateFormat_none_iff code).1 hfmt
  rw [hraw] at h
  have hrepo := validateCode_never ⟨filePaths⟩ fs ctx sched code hlen hctx harrival
  rw [countP_hasCode_eq fs code filePaths hread] at hrepo
  have h8 : ¬ len code < 8 := by omega
  have h10 : ¬ len code > 10 := by omega
  simp only [wiredOrderService, PromoService.ValidatePromoCode, h8, h10, if_false, hrepo]
  simp [hcount]

/-- C15, amended: with the services wired as in `main.go` over three readable coupon files and
a context that is never cancelled, a structurally valid request whose items all resolve and
whose coupon code passes the format check as sent (no surrounding white space) and is a line of
at least 2 of the 3 files is placed with the discount `total * 0.10` in `float64` and the total
reduced by it. -/
theorem C15_end_to_end_discount (products : List (Product Float64)) (filePaths : List String)
    (fs : FileSystem) (sched : Schedule) (now : Int) (ctx : Context) (req : OrderRequest)
    (hvalid : req.Validate = none)
    (hall : ∀ item ∈ req.Items,
      ∃ p, (ProductRepository.mk products).GetByID ctx item.ProductID = .ok p)
    (hfmt : OrderService.validateCouponCodeFormat req.CouponCode = none)
    (hraw : strings.TrimSpace req.CouponCode = req.CouponCode)
    (hlen : filePaths.length = 3) (hread : ∀ path ∈ filePaths, readable fs path)
    (hctx : ctx.neverDone) (harrival : sched.arrival.Perm (List.range filePaths.length))
    (hcount : 2 ≤ filePaths.countP fun path =>
      decide (∃ line ∈ (fs path).lines, strings.TrimSpace line = req.CouponCode)) :
    ∃ order, (wiredOrderService products filePaths fs sched).PlaceOrder float64Ops now ctx req =
        .ok order ∧
      order.Discounts =
        Float64.mul (preDiscountTotal float64Ops order.Products req.Items) float64Ops.tenth ∧
      order.Total =
        Float64.sub (preDiscountTotal float64Ops order.Products req.Items) order.Discounts := by
  have hreq := validateOrderRequest_of_wellFormed req hvalid (Or.inr hfmt)
  obtain ⟨ps, _, hplace⟩ := placeOrder_of_resolved
    (wiredOrderService products filePaths fs sched) float64Ops now ctx req hreq hall
  have hpromo := wired_promo_valid products filePaths fs sched ctx req.CouponCode hfmt hraw
    (by omega) hread hctx harrival hcount
  have hne : ¬ strings.TrimSpace req.CouponCode = "" :=
    ((validateFormat_none_iff req.CouponCode).1 hfmt).1
  have hdisc : (wiredOrderService products filePaths fs sched).applyPromoCodeDiscount float64Ops
      ctx req.CouponCode (preDiscountTotal float64Ops ps req.Items) =
      .ok (Float64.mul (preDiscountTotal float64Ops ps req.Items) float64Ops.tenth) := by
    simp only [OrderService.applyPromoCodeDiscount, hne, if_false, hpromo]
    rfl
  rw [hdisc] at hplace
  exact ⟨_, hplace, rfl, rfl⟩

/-- C15, instance of the amended statement: two units of product `10` with the coupon
`HAPPYHRS`; the discount is `7036804049022223 / 2 ^ 45` and the total `float64(1799.982)`. -/
theorem C15_end_to_end_discount_witness :
    (∃ order, demoServiceF64.PlaceOrder float64Ops 0 Context.background
        ⟨"HAPPYHRS", [⟨"10", 2⟩]⟩ = .ok order ∧
      order.Discounts =
        Float64.mul (preDiscountTotal float64Ops order.Products [⟨"10", 2⟩]) float64Ops.tenth ∧
      order.Total =
        Float64.sub (preDiscountTotal float64Ops order.Products [⟨"10", 2⟩])
          order.Discounts) ∧
    ∃ order, demoServiceF64.PlaceOrder float64Ops 0 Context.background
        ⟨"HAPPYHRS", [⟨"10", 2⟩]⟩ = .ok order ∧
      order.Discounts = .finite (7036804049022223 / 35184372088832) ∧
      order.Total = float64Ops.lit 1799982 3 :=
  ⟨C15_end_to_end_discount (getSampleProducts float64Ops) demoPaths demoFs demoSched 0
      Context.background ⟨"HAPPYHRS", [⟨"10", 2⟩]⟩ (by decide) (by
        intro item hitem
        simp only [List.mem_singleton] at hitem
        subst hitem
        exact ⟨_, rfl⟩) (by decide) (by decide) rfl (by unfold readable; decide)
      background_neverDone (by decide) (by decide),
    ⟨_, rfl, by decide!, by decide!⟩⟩

/-! ## The order schema -/

theorem nonNeg_lt_zero (x : Float64) (h : x.NonNegOrNaN) : Float64.lt x (.finite 0) = false := by
  rcases h with rfl | rfl | ⟨t, rfl, ht, _⟩
  · rfl
  · rfl
  · simp [Float64.lt, ht]

theorem nonNeg_round (x : ℚ) (hx : 0 ≤ x) : (Float64.round x).NonNegOrNaN := by
  rcases round_nonneg x hx with h | ⟨t, h, ht, hrep⟩
  · exact Or.inr (Or.inl h)
  · exact Or.inr (Or.inr ⟨t, h, ht, hrep⟩)

theorem nonNeg_add (x y : Float64) (hx : x.NonNegOrNaN) (hy : y.NonNegOrNaN) :
    (Float64.add x y).NonNegOrNaN := by
  rcases hx with rfl | rfl | ⟨a, rfl, ha, _⟩
  · cases y <;> exact Or.inl rfl
  · rcases hy with rfl | rfl | ⟨b, rfl, _, _⟩
    · exact Or.inl rfl
    · exact Or.inr (Or.inl rfl)
    · exact Or.inr (Or.inl rfl)
  · rcases hy with rfl | rfl | ⟨b, rfl, hb, _⟩
    · exact Or.inl rfl
    · exact Or.inr (Or.inl rfl)
    · exact nonNeg_round _ (add_nonneg ha hb)

theorem nonNeg_mul_price (price : Float64) (quantity : Int)
    (hprice : Float64.le (.finite 0) price = true) (hq : 1 ≤ quantity) :
    (Float64.mul price (Float64.round (quantity : ℚ))).NonNegOrNaN := by
  have hqq : (0 : ℚ) ≤ (quantity : ℚ) := by
    have : (0 : ℤ) ≤ quantity := by omega
    exact_mod_cast this
  cases price with
  | nan => simp [Float64.le] at hprice
  | inf negative =>
    have hneg : negative = false := by
      cases negative with
      | false => rfl
      | true => simp [Float64.le] at hprice
    subst hneg
    rcases round_nonneg _ hqq with h | ⟨t, h, ht, _⟩
    · rw [h]
      exact Or.inr (Or.inl rfl)
    · rw [h]
      by_cases h0 : t = 0
      · simp [Float64.mul, h0, Float64.NonNegOrNaN]
      · have : ¬ t < 0 := not_lt.2 ht
        simp [Float64.mul, h0, this, Float64.NonNegOrNaN]
  | finite a =>
    have ha : 0 ≤ a := by simpa [Float64.le] using hprice
    rcases round_nonneg _ hqq with h | ⟨t, h, ht, _⟩
    · rw [h]
      by_cases h0 : a = 0
      · simp [Float64.mul, h0, Float64.NonNegOrNaN]
      · have : ¬ a < 0 := not_lt.2 ha
        simp [Float64.mul, h0, this, Float64.NonNegOrNaN]
    · rw [h]
      exact nonNeg_round _ (mul_nonneg ha ht)

theorem tenth_value : float64Ops.tenth = .finite (3602879701896397 / 36028797018963968) := by
  decide!

theorem nonNeg_discount (pre : Float64) (hpre : pre.NonNegOrNaN) :
    (Float64.mul pre float64Ops.tenth).NonNegOrNaN ∧
      (Float64.sub pre (Float64.mul pre float64Ops.tenth)).NonNegOrNaN := by
  rw [tenth_value]
  rcases hpre with rfl | rfl | ⟨t, rfl, ht, hrep⟩
  · exact ⟨Or.inl rfl, Or.inl rfl⟩
  · have h1 : Float64.mul (.inf false) (.finite (3602879701896397 / 36028797018963968)) =
        .inf false := by decide!
    rw [h1]
    exact ⟨Or.inr (Or.inl rfl), Or.inl rfl⟩
  · have hx : 0 ≤ t * (3602879701896397 / 36028797018963968) := mul_nonneg ht (by norm_num)
    have hxt : t * (3602879701896397 / 36028797018963968) ≤ t := by
      have : t * (3602879701896397 / 36028797018963968) ≤ t * 1 :=
        mul_le_mul_of_nonneg_left (by norm_num) ht
      simpa using this
    obtain ⟨d, hd, hd0, hdt, hdrep⟩ := round_le _ t hx hxt hrep
    have hmul : Float64.mul (.finite t) (.finite (3602879701896397 / 36028797018963968)) =
        .finite d := hd
    rw [hmul]
    refine ⟨Or.inr (Or.inr ⟨d, rfl, hd0, hdrep⟩), ?_⟩
    have : Float64.sub (.finite t) (.finite d) = Float64.round (t + -d) := rfl
    rw [this]
    exact nonNeg_round _ (by linarith)

theorem nonNeg_sub_zero (pre : Float64) (hpre : pre.NonNegOrNaN) :
    (Float64.sub pre (.finite 0)).NonNegOrNaN := by
  rcases hpre with rfl | rfl | ⟨t, rfl, ht, _⟩
  · exact Or.inl rfl
  · exact Or.inr (Or.inl rfl)
  · have : Float64.sub (.finite t) (.finite 0) = Float64.round (t + -0) := rfl
    rw [this]
    exact nonNeg_round _ (by simpa using ht)

theorem nonNeg_fold (pairs : List (Product Float64 × OrderItem)) (acc : Float64)
    (hacc : acc.NonNegOrNaN)
    (hpairs : ∀ pi ∈ pairs, Float64.le (.finite 0) pi.1.Price = true ∧ 1 ≤ pi.2.Quantity) :
    (pairs.foldl (fun total pi => float64Ops.add total
      (float64Ops.mul pi.1.Price (float64Ops.ofInt pi.2.Quantity))) acc).NonNegOrNaN := by
  induction pairs generalizing acc with
  | nil => exact hacc
  | cons pi rest ih =>
    rw [List.foldl_cons]
    apply ih
    · have h := hpairs pi (List.mem_cons_self _ _)
      exact nonNeg_add _ _ hacc (nonNeg_mul_price pi.1.Price pi.2.Quantity h.1 h.2)
    · intro q hq
      exact hpairs q (List.mem_cons_of_mem _ hq)

theorem validate_of_validateOrderRequest (req : OrderRequest)
    (h : OrderService.validateOrderRequest req = none) : req.Validate = none := by
  unfold OrderService.validateOrderRequest at h
  cases hv : req.Validate with
  | none => rfl
  | some err => simp [hv] at h

theorem builtin_products_schema :
    (getSampleProducts float64Ops).all validateProductSchema = true := by
  decide!

/-- C16: an order that `PlaceOrder` returns against a catalog whose prices are not negative has
a total and a discount that are not negative (the schema check `< 0` fails for both); against
the built-in catalog the order passes `validateOrderSchema` as a whole: non-empty id, total and
discounts not negative, items non-empty with non-empty product ids and positive quantities,
products non-empty, each with non-empty id, name, category and image URLs and a positive price. -/
theorem C16_order_satisfies_schema (products : List (Product Float64))
    (promoService : Context → String → Bool × Option GoError) (now : Int) (ctx : Context)
    (req : OrderRequest) (order : Order Float64)
    (hprices : ∀ p ∈ products, Float64.le (.finite 0) p.Price = true)
    (h : (OrderService.mk (ProductRepository.mk products).GetByID promoService).PlaceOrder
      float64Ops now ctx req = .ok order) :
    (Float64.lt order.Total (.finite 0) = false ∧
        Float64.lt order.Discounts (.finite 0) = false) ∧
      (products = getSampleProducts float64Ops → validateOrderSchema order = true) := by
  obtain ⟨hreq, hfor, hitems, hid, hdisc, htotal⟩ := placeOrder_ok_total _ float64Ops now ctx req
    order h
  have hvalid := validate_of_validateOrderRequest req hreq
  obtain ⟨hne, hitemsValid⟩ := (requestValidate_none_iff req).1 hvalid
  have hmemProducts : ∀ p ∈ order.Products, p ∈ products := by
    intro p hp
    obtain ⟨i, hi⟩ := List.getElem?_of_mem hp
    have hlen := hfor.length_eq
    have hlt : i < order.Products.length := by
      rcases Nat.lt_or_ge i order.Products.length with hlt | hge
      · exact hlt
      · rw [List.getElem?_eq_none hge] at hi
        exact absurd hi (by simp)
    have hi2 : i < req.Items.length := hlen ▸ hlt
    obtain ⟨q, hq, hR⟩ := forall₂_getElem? hfor i (req.Items[i]) (List.getElem?_eq_getElem hi2)
    rw [hi] at hq
    simp only [Option.some.injEq] at hq
    rw [hq]
    exact (getByID_ok products ctx _ q hR).2.2
  have hpre : (preDiscountTotal float64Ops order.Products req.Items).NonNegOrNaN := by
    unfold preDiscountTotal
    apply nonNeg_fold
    · exact Or.inr (Or.inr ⟨0, rfl, le_rfl, representable_zero⟩)
    · intro pi hpi
      obtain ⟨h1, h2⟩ := List.of_mem_zip hpi
      exact ⟨hprices _ (hmemProducts _ h1), ((itemValidate_none_iff _).1 (hitemsValid _ h2)).2⟩
  have hboth : order.Discounts.NonNegOrNaN ∧ order.Total.NonNegOrNaN := by
    rcases applyPromo_ok_inv _ float64Ops ctx req.CouponCode _ _ hdisc with ⟨_, hd⟩ | ⟨_, _, hd⟩
    · rw [htotal, hd]
      exact ⟨Or.inr (Or.inr ⟨0, rfl, le_rfl, representable_zero⟩), nonNeg_sub_zero _ hpre⟩
    · rw [htotal, hd]
      exact nonNeg_discount _ hpre
  have hsigns : Float64.lt order.Total (.finite 0) = false ∧
      Float64.lt order.Discounts (.finite 0) = false :=
    ⟨nonNeg_lt_zero _ hboth.2, nonNeg_lt_zero _ hboth.1⟩
  refine ⟨hsigns, ?_⟩
  intro hbuiltin
  have hidne : order.ID ≠ "" := by
    rw [hid]
    intro hempty
    have hlen := congrArg String.length hempty
    rw [String.length_append] at hlen
    have h6 : "order_".length = 6 := by decide
    have h0 : "".length = 0 := by decide
    omega
  have hlenItems : order.Items.length ≠ 0 := by
    rw [hitems]
    exact fun hz => hne (List.length_eq_zero.1 hz)
  have hlenProducts : order.Products.length ≠ 0 := by
    rw [hfor.length_eq]
    exact fun hz => hne (List.length_eq_zero.1 hz)
  have hitemsOK : order.Items.all
      (fun item => decide (item.ProductID ≠ "") && !decide (item.Quantity ≤ 0)) = true := by
    rw [hitems, List.all_eq_true]
    intro item hitem
    have hv := (itemValidate_none_iff item).1 (hitemsValid item hitem)
    have hidItem : item.ProductID ≠ "" := by
      intro hempty
      apply hv.1
      rw [hempty]
      decide
    have hq : ¬ item.Quantity ≤ 0 := by omega
    simp [hidItem, hq]
  have hproductsOK : order.Products.all validateProductSchema = true := by
    rw [List.all_eq_true]
    intro p hp
    have hall := builtin_products_schema
    rw [List.all_eq_true] at hall
    exact hall p (hbuiltin ▸ hmemProducts p hp)
  unfold validateOrderSchema
  rw [hitemsOK, hproductsOK, hsigns.1, hsigns.2]
  simp [hidne, hlenItems, hlenProducts]
/-- C16, instance: two units of product `10` with the coupon `HAPPYHRS` against the built-in
catalog; the order passes `validateOrderSchema`. -/
theorem C16_order_satisfies_schema_witness :
    (∀ p ∈ getSampleProducts float64Ops, Float64.le (.finite 0) p.Price = true) ∧
      ∃ order, demoServiceF64.PlaceOrder float64Ops 0 Context.background
          ⟨"HAPPYHRS", [⟨"10", 2⟩]⟩ = .ok order ∧
        (Float64.lt order.Total (.finite 0) = false ∧
          Float64.lt order.Discounts (.finite 0) = false) ∧
        validateOrderSchema order = true :=
  ⟨by decide!, _, rfl,
    (C16_order_satisfies_schema (getSampleProducts float64Ops) demoServiceF64.promoService 0
      Context.background ⟨"HAPPYHRS", [⟨"10", 2⟩]⟩ _ (by decide!) rfl).1,
    (C16_order_satisfies_schema (getSampleProducts float64Ops) demoServiceF64.promoService 0
      Context.background ⟨"HAPPYHRS", [⟨"10", 2⟩]⟩ _ (by decide!) rfl).2 rfl⟩

/-! ## Cancellation during a scan -/

theorem scanLoopRead_fst (ctx : CtxView) (filePath targetCode : String)
    (scanErr : Option GoError) (lines : List String) (c : Nat) :
    (PromoRepository.scanLoopRead ctx filePath targetCode scanErr lines c).1 =
      PromoRepository.scanLoop ctx filePath targetCode scanErr lines c := by
  induction lines generalizing c with
  | nil => cases scanErr <;> rfl
  | cons line rest ih =>
    simp only [PromoRepository.scanLoopRead, PromoRepository.scanLoop]
    by_cases hpoll : c % 10000 = 0 ∧ ctx.done c = true
    · rw [if_pos hpoll, if_pos hpoll]
    · rw [if_neg hpoll, if_neg hpoll]
      by_cases hline : strings.TrimSpace line = targetCode
      · rw [if_pos hline, if_pos hline]
      · rw [if_neg hline, if_neg hline]
        exact ih (c + 1)

theorem scanFileRead_fst (fs : FileSystem) (ctx : CtxView) (filePath targetCode : String) :
    (PromoRepository.scanFileForCodeRead fs ctx filePath targetCode).1 =
      PromoRepository.scanFileForCode fs ctx filePath targetCode := by
  unfold PromoRepository.scanFileForCodeRead PromoRepository.scanFileForCode
  cases (fs filePath).openErr with
  | some e => rfl
  | none => exact scanLoopRead_fst ctx filePath targetCode _ _ 0

/-- With the context done at every poll from `lineCount = k` on and `m` a multiple of 10000 that
is at least `k`, the loop entered with `lineCount = c ≤ m` reads at most `m - c + 1` lines. -/
theorem scanLoopRead_le (ctx : CtxView) (filePath targetCode : String)
    (scanErr : Option GoError) (k m : Nat) (hcancel : ∀ t, k ≤ t → ctx.done t = true)
    (hm : m % 10000 = 0) (hkm : k ≤ m) (lines : List String) (c : Nat) (hc : c ≤ m) :
    (PromoRepository.scanLoopRead ctx filePath targetCode scanErr lines c).2 ≤ m - c + 1 := by
  induction lines generalizing c with
  | nil => cases scanErr <;> simp [PromoRepository.scanLoopRead]
  | cons line rest ih =>
    simp only [PromoRepository.scanLoopRead]
    by_cases hpoll : c % 10000 = 0 ∧ ctx.done c = true
    · rw [if_pos hpoll]
      exact Nat.le_add_left 1 _
    · rw [if_neg hpoll]
      by_cases hline : strings.TrimSpace line = targetCode
      · rw [if_pos hline]
        exact Nat.le_add_left 1 _
      · rw [if_neg hline]
        have hne : c ≠ m := by
          rintro rfl
          exact hpoll ⟨hm, hcancel c hkm⟩
        have := ih (c + 1) (by omega)
        show _ + 1 ≤ _
        omega

/-- The loop ends in one of three ways: a line read matches, the poll sees the context done, or
every line has been read. -/
theorem scanLoopRead_cases (ctx : CtxView) (filePath targetCode : String)
    (scanErr : Option GoError) (lines : List String) (c : Nat) :
    ((PromoRepository.scanLoopRead ctx filePath targetCode scanErr lines c).1 = (true, none) ∧
        ∃ line ∈ lines.take
            (PromoRepository.scanLoopRead ctx filePath targetCode scanErr lines c).2,
          strings.TrimSpace line = targetCode) ∨
      (PromoRepository.scanLoopRead ctx filePath targetCode scanErr lines c).1 =
        (false, some (.ctx ctx.err)) ∨
      ((PromoRepository.scanLoopRead ctx filePath targetCode scanErr lines c).2 = lines.length ∧
        (PromoRepository.scanLoopRead ctx filePath targetCode scanErr lines c).1 =
          PromoRepository.scanLoop ctx filePath targetCode scanErr [] 0) := by
  induction lines generalizing c with
  | nil =>
    right; right
    cases scanErr <;> exact ⟨rfl, rfl⟩
  | cons line rest ih =>
    simp only [PromoRepository.scanLoopRead]
    by_cases hpoll : c % 10000 = 0 ∧ ctx.done c = true
    · rw [if_pos hpoll]
      exact Or.inr (Or.inl rfl)
    · rw [if_neg hpoll]
      by_cases hline : strings.TrimSpace line = targetCode
      · rw [if_pos hline]
        exact Or.inl ⟨rfl, line, by simp, hline⟩
      · rw [if_neg hline]
        rcases ih (c + 1) with ⟨h1, l, hl, hmatch⟩ | h2 | ⟨h3, h4⟩
        · exact Or.inl ⟨h1, l, by simp [List.take_succ_cons, hl], hmatch⟩
        · exact Or.inr (Or.inl h2)
        · exact Or.inr (Or.inr ⟨by simp [h3], h4⟩)

/-- With the context done at every poll from `lineCount = k` on and `m` a multiple of 10000 that
is at least `k`: when more than `m - c` lines are left and none of the next `m - c` matches, the
loop entered with `lineCount = c ≤ m` ends with the context error. -/
theorem scanLoop_cancelled (ctx : CtxView) (filePath targetCode : String)
    (scanErr : Option GoError) (k m : Nat) (hcancel : ∀ t, k ≤ t → ctx.done t = true)
    (hm : m % 10000 = 0) (hkm : k ≤ m) (lines : List String) (c : Nat) (hc : c ≤ m)
    (hlen : m - c < lines.length)
    (hnone : ∀ line ∈ lines.take (m - c), strings.TrimSpace line ≠ targetCode) :
    PromoRepository.scanLoop ctx filePath targetCode scanErr lines c =
      (false, some (.ctx ctx.err)) := by
  induction lines generalizing c with
  | nil => simp at hlen
  | cons line rest ih =>
    simp only [PromoRepository.scanLoop]
    by_cases hpoll : c % 10000 = 0 ∧ ctx.done c = true
    · rw [if_pos hpoll]
    · rw [if_neg hpoll]
      have hne : c ≠ m := by
        rintro rfl
        exact hpoll ⟨hm, hcancel c hkm⟩
      obtain ⟨d, hd⟩ : ∃ d, m - c = d + 1 := ⟨m - c - 1, by omega⟩
      rw [hd, List.take_succ_cons] at hnone
      rw [if_neg (hnone line (List.mem_cons_self _ _))]
      have hd2 : m - (c + 1) = d := by omega
      refine ih (c + 1) (by omega) ?_ ?_
      · simp only [List.length_cons] at hlen
        omega
      · rw [hd2]
        intro l hl
        exact hnone l (List.mem_cons_of_mem _ hl)

/-- C21: `scanFileForCode` polls the context while reading. For a file that opens, with the
context done at every poll from `lineCount = k` on (it is cancelled once `k` lines are read, and
stays so), the scan reads at most `k + 10000` lines, and it ends in one of three ways: a line
read matches the target, or the scan aborts with the context error, or the file ends (with or
without a read error). When the file has `k + 10000` lines or more and none of the first
`k + 9999` matches, the scan aborts with the context error and `found = false`; and with the
context done from the start, the scan of any file with a line aborts so. -/
theorem C21_scan_cancel_bounded (fs : FileSystem) (ctx : CtxView) (filePath targetCode : String)
    (k : Nat) (hopen : (fs filePath).openErr = none)
    (hcancel : ∀ t, k ≤ t → ctx.done t = true) :
    (PromoRepository.scanFileForCodeRead fs ctx filePath targetCode).1 =
        PromoRepository.scanFileForCode fs ctx filePath targetCode ∧
      (PromoRepository.scanFileForCodeRead fs ctx filePath targetCode).2 ≤ k + 10000 ∧
      ((PromoRepository.scanFileForCode fs ctx filePath targetCode = (true, none) ∧
          ∃ line ∈ (fs filePath).lines.take
              (PromoRepository.scanFileForCodeRead fs ctx filePath targetCode).2,
            strings.TrimSpace line = targetCode) ∨
        PromoRepository.scanFileForCode fs ctx filePath targetCode =
          (false, some (.ctx ctx.err)) ∨
        ((PromoRepository.scanFileForCodeRead fs ctx filePath targetCode).2 =
            (fs filePath).lines.length ∧
          PromoRepository.scanFileForCode fs ctx filePath targetCode =
            PromoRepository.scanLoop ctx filePath targetCode (fs filePath).scanErr [] 0)) ∧
      (k + 10000 ≤ (fs filePath).lines.length →
        (∀ line ∈ (fs filePath).lines.take (k + 9999), strings.TrimSpace line ≠ targetCode) →
        PromoRepository.scanFileForCode fs ctx filePath targetCode =
          (false, some (.ctx ctx.err))) ∧
      (k = 0 → (fs filePath).lines ≠ [] →
        PromoRepository.scanFileForCode fs ctx filePath targetCode =
          (false, some (.ctx ctx.err))) := by
  have hfst := scanFileRead_fst fs ctx filePath targetCode
  have hread : PromoRepository.scanFileForCodeRead fs ctx filePath targetCode =
      PromoRepository.scanLoopRead ctx filePath targetCode (fs filePath).scanErr
        (fs filePath).lines 0 := by
    unfold PromoRepository.scanFileForCodeRead
    rw [hopen]
  have hscan : PromoRepository.scanFileForCode fs ctx filePath targetCode =
      PromoRepository.scanLoop ctx filePath targetCode (fs filePath).scanErr
        (fs filePath).lines 0 := by
    unfold PromoRepository.scanFileForCode
    rw [hopen]
  have hm : ((k + 9999) / 10000 * 10000) % 10000 = 0 := Nat.mul_mod_left _ _
  have hkm : k ≤ (k + 9999) / 10000 * 10000 := by omega
  have hmk : (k + 9999) / 10000 * 10000 ≤ k + 9999 := by omega
  refine ⟨hfst, ?_, ?_, ?_, ?_⟩
  · have := scanLoopRead_le ctx filePath targetCode (fs filePath).scanErr k _ hcancel hm hkm
      (fs filePath).lines 0 (Nat.zero_le _)
    rw [hread]
    omega
  · rw [← hfst, hread]
    exact scanLoopRead_cases ctx filePath targetCode _ _ 0
  · intro hlen hnone
    rw [hscan]
    refine scanLoop_cancelled ctx filePath targetCode _ k _ hcancel hm hkm _ 0 (Nat.zero_le _)
      (by omega) ?_
    intro line hline
    refine hnone line ?_
    exact List.take_subset_take_left _ (by omega) hline
  · intro hk hne
    rw [hscan]
    cases hlines : (fs filePath).lines with
    | nil => exact absurd hlines hne
    | cons line rest =>
      simp [PromoRepository.scanLoop, hcancel 0 (by omega)]

/-- C21, instances: with a context done from the start the scan of `couponbase1.txt` for
`HAPPYHRS`, its first line, aborts with the context error after reading one line; and with a
context done after the first poll the scan of a file of 10001 lines without a match aborts. -/
theorem C21_scan_cancel_bounded_witness :
    ((demoFs "couponbase1.txt").openErr = none ∧
        (∀ t, 0 ≤ t → (Context.cancelled.scanView 0).done t = true) ∧
        (demoFs "couponbase1.txt").lines ≠ [] ∧
        PromoRepository.scanFileForCode demoFs (Context.cancelled.scanView 0) "couponbase1.txt"
          "HAPPYHRS" = (false, some (.ctx .Canceled)) ∧
        (PromoRepository.scanFileForCodeRead demoFs (Context.cancelled.scanView 0)
          "couponbase1.txt" "HAPPYHRS").2 = 1) ∧
      (longFs "big.txt").openErr = none ∧
      (∀ t, 1 ≤ t → cancelledAfterFirstPoll.done t = true) ∧
      cancelledAfterFirstPoll.done 0 = false ∧
      1 + 10000 ≤ (longFs "big.txt").lines.length ∧
      PromoRepository.scanFileForCode longFs cancelledAfterFirstPoll "big.txt" "HAPPYHRS" =
        (false, some (.ctx .Canceled)) ∧
      (PromoRepository.scanFileForCodeRead longFs cancelledAfterFirstPoll "big.txt"
        "HAPPYHRS").2 ≤ 1 + 10000 :=
  ⟨⟨rfl, fun _ _ => rfl, by decide,
      (C21_scan_cancel_bounded demoFs (Context.cancelled.scanView 0) "couponbase1.txt"
        "HAPPYHRS" 0 rfl (fun _ _ => rfl)).2.2.2.2 rfl (by decide), by decide⟩,
    rfl, fun t ht => by simp [cancelledAfterFirstPoll, ht], by decide,
    (List.length_replicate 10001 "NOTACODE").ge,
    (C21_scan_cancel_bounded longFs cancelledAfterFirstPoll "big.txt" "HAPPYHRS" 1 rfl
      (fun t ht => by simp [cancelledAfterFirstPoll, ht])).2.2.2.1
      (List.length_replicate 10001 "NOTACODE").ge
      (by
        intro line hline
        have hmem : line ∈ List.replicate 10001 "NOTACODE" := List.mem_of_mem_take hline
        rw [List.eq_of_mem_replicate hmem]
        decide),
    (C21_scan_cancel_bounded longFs cancelledAfterFirstPoll "big.txt" "HAPPYHRS" 1 rfl
      (fun t ht => by simp [cancelledAfterFirstPoll, ht])).2.1⟩

/-- C21, a file that ends before the next poll: the context is not done at the first poll and is
done at every later one; the scan of the two lines of `couponbase1.txt` for `WINTERSALE`, which
is on neither, reads both lines and returns `(false, nil)`, not the context error. -/
theorem C21_short_file_ends_without_abort :
    (demoFs "couponbase1.txt").openErr = none ∧
      (∀ t, 1 ≤ t → cancelledAfterFirstPoll.done t = true) ∧
      (∀ line ∈ (demoFs "couponbase1.txt").lines, strings.TrimSpace line ≠ "WINTERSALE") ∧
      PromoRepository.scanFileForCode demoFs cancelledAfterFirstPoll "couponbase1.txt"
        "WINTERSALE" = (false, none) ∧
      (PromoRepository.scanFileForCodeRead demoFs cancelledAfterFirstPoll "couponbase1.txt"
        "WINTERSALE").2 = 2 :=
  ⟨rfl, fun t ht => by simp [cancelledAfterFirstPoll, ht], by decide, by decide, by decide⟩

/-! ## The length gate of the promo service -/

/-- C22: `ValidatePromoCode` gates on `len(code)`, the byte length of the code as passed. For a
code shorter than 8 or longer than 10 bytes it returns `(false, nil)` and makes no call on the
repository, whatever the repository is. For a code of 8 to 10 bytes it calls the repository once,
with the code as passed; it returns the repository's verdict with no error when the repository
returns no error, and `false` with an error that wraps the repository's error otherwise. -/
theorem C22_promoService_length_gate (promoRepo : Context → String → Bool × Option GoError)
    (ctx : Context) (code : String) :
    (PromoService.ValidatePromoCodeLog promoRepo ctx code).1 =
        PromoService.ValidatePromoCode promoRepo ctx code ∧
      (len code < 8 ∨ 10 < len code →
        PromoService.ValidatePromoCodeLog promoRepo ctx code = ((false, none), [])) ∧
      (8 ≤ len code → len code ≤ 10 →
        (PromoService.ValidatePromoCodeLog promoRepo ctx code).2 = [code] ∧
          (∀ verdict, promoRepo ctx code = (verdict, none) →
            PromoService.ValidatePromoCode promoRepo ctx code = (verdict, none)) ∧
          ∀ verdict err, promoRepo ctx code = (verdict, some err) →
            PromoService.ValidatePromoCode promoRepo ctx code =
              (false, some (.wrap ("failed to validate promo code: " ++ err.Error) err))) := by
  refine ⟨?_, ?_, ?_⟩
  · unfold PromoService.ValidatePromoCodeLog PromoService.ValidatePromoCode
    by_cases h8 : len code < 8
    · rw [if_pos h8, if_pos h8]
    · rw [if_neg h8, if_neg h8]
      by_cases h10 : len code > 10
      · rw [if_pos h10, if_pos h10]
      · rw [if_neg h10, if_neg h10]
        rcases hrepo : promoRepo ctx code with ⟨verdict, _ | err⟩ <;> rfl
  · intro hout
    unfold PromoService.ValidatePromoCodeLog
    by_cases h8 : len code < 8
    · rw [if_pos h8]
    · rw [if_neg h8, if_pos (by omega)]
  · intro h8 h10
    have hn8 : ¬ len code < 8 := by omega
    have hn10 : ¬ len code > 10 := by omega
    refine ⟨?_, ?_, ?_⟩
    · unfold PromoService.ValidatePromoCodeLog
      rw [if_neg hn8, if_neg hn10]
      rcases hrepo : promoRepo ctx code with ⟨verdict, _ | err⟩ <;> rfl
    · intro verdict hrepo
      unfold PromoService.ValidatePromoCode
      rw [if_neg hn8, if_neg hn10, hrepo]
    · intro verdict err hrepo
      unfold PromoService.ValidatePromoCode
      rw [if_neg hn8, if_neg hn10, hrepo]

/-- C22, instances. `SHORT` (5 bytes) with a repository configured with one file, which fails on
every call: `(false, nil)`, no call. `HAPPYHRS` between two spaces on each side (12 bytes, 8
after trimming): `(false, nil)`, no call, although the three default files would confirm the
trimmed code. `HAPPYHRS` (8 bytes): the verdict `true` of the default files. `SUMMERSALE`
(10 bytes) with the repository configured with one file: `false` and the wrapped error. -/
theorem C22_promoService_length_gate_witness :
    ((len "SHORT" < 8 ∨ 10 < len "SHORT") ∧
        misconfiguredRepo Context.background "SHORT" =
          (false, some (.fresh "at least 2 coupon files required for validation")) ∧
        PromoService.ValidatePromoCodeLog misconfiguredRepo Context.background "SHORT" =
          ((false, none), [])) ∧
      ((len "  HAPPYHRS  " < 8 ∨ 10 < len "  HAPPYHRS  ") ∧
        demoRepo Context.background (strings.TrimSpace "  HAPPYHRS  ") = (true, none) ∧
        PromoService.ValidatePromoCodeLog demoRepo Context.background "  HAPPYHRS  " =
          ((false, none), [])) ∧
      (8 ≤ len "HAPPYHRS" ∧ len "HAPPYHRS" ≤ 10 ∧
        demoRepo Context.background "HAPPYHRS" = (true, none) ∧
        PromoService.ValidatePromoCode demoRepo Context.background "HAPPYHRS" = (true, none) ∧
        (PromoService.ValidatePromoCodeLog demoRepo Context.background "HAPPYHRS").2 =
          ["HAPPYHRS"]) ∧
      8 ≤ len "SUMMERSALE" ∧ len "SUMMERSALE" ≤ 10 ∧
      PromoService.ValidatePromoCode misconfiguredRepo Context.background "SUMMERSALE" =
        (false, some (.wrap
          "failed to validate promo code: at least 2 coupon files required for validation"
          (.fresh "at least 2 coupon files required for validation"))) :=
  ⟨⟨by decide, by decide,
      (C22_promoService_length_gate misconfiguredRepo Context.background "SHORT").2.1
        (by decide)⟩,
    ⟨by decide, by decide,
      (C22_promoService_length_gate demoRepo Context.background "  HAPPYHRS  ").2.1
        (by decide)⟩,
    ⟨by decide, by decide, by decide,
      ((C22_promoService_length_gate demoRepo Context.background "HAPPYHRS").2.2
        (by decide) (by decide)).2.1 true (by decide),
      ((C22_promoService_length_gate demoRepo Context.background "HAPPYHRS").2.2
        (by decide) (by decide)).1⟩,
    by decide, by decide,
    ((C22_promoService_length_gate misconfiguredRepo Context.background "SUMMERSALE").2.2
      (by decide) (by decide)).2.2 false
      (.fresh "at least 2 coupon files required for validation") (by decide)⟩

end Kart
